import Mathlib

/-!
# HLS playlist builder (vod/hls/m3u8_builder.c)

A shallow embedding of the playlist text builders and the properties of their output.

Conventions of the embedding:

* a byte buffer is a `List Char`; a write through the cursor `p` is an append, so every
  formatter returns the bytes it appends;
* `uint32_t` values are natural numbers below `2 ^ 32`, and every operation that can wrap
  is reduced modulo `2 ^ 32`; an `int` is an `Int`, obtained from a 32-bit pattern by
  `to_int` (two's complement);
* `size_t` lengths are natural numbers (they count bytes held in memory and do not wrap);
* reading through `first_stream` when the stream range is empty and dividing by a zero
  segment duration have no defined result: the builders return `none` there.
-/

namespace M3u8

/-- A run of bytes: the text a formatter appends, or the contents of an input string
(a `vod_str_t` whose `len` is the length of its `data`). -/
abbrev Bytes := List Char

/-- Modelled from the spec: the status codes of `vod_status_t`, declared in common.h
(not under src); one constructor per code that m3u8_builder.c returns. -/
inductive vod_status_t where
  | VOD_OK
  | VOD_UNEXPECTED
  | VOD_BAD_REQUEST
  | VOD_BAD_DATA
  | VOD_ALLOC_FAILED
  deriving DecidableEq, Repr

open vod_status_t

/-- Number of values of a `uint32_t`. -/
def UINT32_SIZE : Nat := 4294967296

/-- Conversion of a 32-bit pattern to `int` (two's complement). -/
def to_int (u : Nat) : Int :=
  if u % UINT32_SIZE < 2147483648 then ((u % UINT32_SIZE : Nat) : Int)
  else ((u % UINT32_SIZE : Nat) : Int) - 4294967296

/-- Store into a `u_char`: the value modulo 256. -/
def u_char (v : Nat) : Char := Char.ofNat (v % 256)

/-- Modelled from the spec: `vod_sprintf` with the conversion `%uD` (declared outside src),
the decimal text of a 32-bit unsigned value, as sprintf-style integer formatting prints it. -/
def vod_sprintf_uD (v : Nat) : Bytes := Nat.toDigits 10 (v % UINT32_SIZE)

/-- Modelled from the spec: `vod_sprintf` with the conversion `%d` (declared outside src),
the decimal text of an `int`, with a leading minus sign when it is negative. -/
def vod_sprintf_d (i : Int) : Bytes :=
  if i < 0 then '-' :: Nat.toDigits 10 (-i).toNat else Nat.toDigits 10 i.toNat

/-- Loop of `m3u8_builder_get_int_print_len`: `while (n >= 10) { res++; n /= 10; }`.
The first argument bounds the number of iterations. -/
def get_int_print_len_loop : Nat → Int → Nat → Nat
  | 0, _, res => res
  | fuel + 1, n, res =>
    if n ≥ 10 then get_int_print_len_loop fuel (Int.tdiv n 10) (res + 1) else res

/-- The function `m3u8_builder_get_int_print_len(int n)`. The loop divides `n` by ten while
it is at least ten, so `n.toNat` iterations are always enough. -/
def m3u8_builder_get_int_print_len (n : Int) : Nat :=
  get_int_print_len_loop n.toNat n 1

/-- Fraction loop of `m3u8_builder_format_double`:
`for (;;) { scale /= 10; if (scale == 0) break; cur_digit = fraction / scale;
*p++ = cur_digit + '0'; fraction -= cur_digit * scale; }`.
`fraction` and `cur_digit` are `int` variables used in unsigned arithmetic with `scale`;
they are kept as 32-bit patterns. The first argument bounds the number of iterations. -/
def format_double_loop : Nat → Nat → Nat → Bytes
  | 0, _, _ => []
  | fuel + 1, scale, fraction =>
    let scale := scale / 10
    if scale = 0 then []
    else
      let cur_digit := fraction / scale
      u_char (cur_digit + 48) ::
        format_double_loop fuel scale
          ((fraction + UINT32_SIZE - (cur_digit * scale) % UINT32_SIZE) % UINT32_SIZE)

/-- The function `m3u8_builder_format_double(p, n, scale)`: the bytes appended at `p`.
`int_n` is the `int` the quotient is stored in, printed with `%d`. `scale` shrinks at every
turn of the loop, so `scale + 1` iterations are always enough. (`scale = 0` is a division
by zero in C; no caller passes it.) -/
def m3u8_builder_format_double (n scale : Nat) : Bytes :=
  let int_n := to_int (n / scale)
  let fraction := n % scale
  let p := vod_sprintf_d int_n
  if scale = 1 then p
  else p ++ '.' :: format_double_loop (scale + 1) scale fraction

/-- The function `m3u8_builder_append_extinf_tag(p, duration, scale)`. -/
def m3u8_builder_append_extinf_tag (duration scale : Nat) : Bytes :=
  "#EXTINF:".toList ++ m3u8_builder_format_double duration scale ++ [',', '\n']

/-- The function `m3u8_builder_append_segment_name(p, base_url, segment_file_name_prefix,
segment_index, required_tracks)`. -/
def m3u8_builder_append_segment_name (base_url : Bytes) ( segment_file_name_prefix : Bytes)
    (segment_index : Nat) (required_tracks : Bytes) : Bytes :=
  base_url ++ segment_file_name_prefix ++ '-' :: vod_sprintf_uD segment_index ++
    required_tracks ++ ".ts\n".toList

/-- Modelled from the spec: the media type of a track (the constants `MEDIA_TYPE_VIDEO`
and `MEDIA_TYPE_AUDIO` are declared outside src); `other` stands for every value of the
field that is neither, the `default:` case of the switch. -/
inductive media_type_t where
  | MEDIA_TYPE_VIDEO
  | MEDIA_TYPE_AUDIO
  | other
  deriving DecidableEq, Repr

open media_type_t

/-- Modelled from the spec: the part of `media_info_t` (declared outside src) that
m3u8_builder.c reads. -/
structure media_info_t where
  media_type : media_type_t
  bitrate : Nat
  width : Nat
  height : Nat
  codec_name : Bytes
  deriving DecidableEq, Repr

/-- Modelled from the spec: the part of `file_info_t` (declared outside src) that
m3u8_builder.c reads. -/
structure file_info_t where
  file_index : Nat
  uri : Bytes
  deriving DecidableEq, Repr

/-- Modelled from the spec: the part of `mpeg_stream_metadata_t` (declared outside src)
that m3u8_builder.c reads. -/
structure mpeg_stream_metadata_t where
  media_info : media_info_t
  file_info : file_info_t
  track_index : Nat
  deriving DecidableEq, Repr

/-- Modelled from the spec: the part of `mpeg_metadata_t` (declared outside src) that
m3u8_builder.c reads. `streams` is the range walked from `first_stream` up to
`last_stream`; `streams_nelts` is the field `streams.nelts`. -/
structure mpeg_metadata_t where
  streams_nelts : Nat
  streams : List mpeg_stream_metadata_t
  max_track_index : Nat
  duration_millis : Nat
  video_key_frame_count : Nat
  stream_count_video : Nat
  stream_count_audio : Nat
  deriving DecidableEq, Repr

/-- Modelled from the spec: the fields of `m3u8_config_t` (declared in m3u8_builder.h, not
under src). The three text fields are character arrays, each used together with its
length field. -/
structure m3u8_config_t where
  m3u8_version : Nat
  m3u8_extinf : Bytes
  m3u8_extinf_len : Nat
  m3u8_header : Bytes
  m3u8_header_len : Nat
  iframes_m3u8_header : Bytes
  iframes_m3u8_header_len : Nat
  segment_file_name_prefix : Bytes
  index_file_name_prefix : Bytes
  deriving DecidableEq, Repr

/-- An output string `vod_str_t* result`: `data` is `none` for a null pointer, otherwise
the bytes written through it. -/
structure vod_str_t where
  len : Nat
  data : Option Bytes
  deriving DecidableEq, Repr

/-- The request pool as the builders see it: the outcomes of the allocations still to
come (`true`: the allocation is granted). -/
abbrev vod_pool_t := List Bool

/-- Modelled from the spec: `vod_alloc(pool, size)` (declared outside src), an arena that
either grants the allocation or fails with an out-of-memory condition. Returns whether a
buffer was obtained, and the pool afterwards. -/
def vod_alloc (pool : vod_pool_t) (_size : Nat) : Bool × vod_pool_t :=
  match pool with
  | [] => (false, [])
  | granted :: rest => (granted, rest)

/-- Modelled from the spec: `vod_copy(p, src, n)` (declared outside src), the first `n`
bytes of `src`. -/
def vod_copy (src : Bytes) (n : Nat) : Bytes := src.take n

/-- Modelled from the spec: the macro `DIV_CEIL` of common.h (not under src), the quotient
rounded up: `segment_count = ceil(total_duration / segment_duration)`. (A macro that adds
`denom - 1` in 32-bit arithmetic gives this value whenever `nom + denom - 1 < 2 ^ 32`.) -/
def DIV_CEIL (nom denom : Nat) : Nat := (nom + denom - 1) / denom

/-- The macro `MAX_SEGMENT_COUNT`. -/
def MAX_SEGMENT_COUNT : Nat := 10 * 1024

/-- The constant `m3u8_footer`. -/
def m3u8_footer : Bytes := "#EXT-X-ENDLIST\n".toList

/-- Size of the array `m3u8_footer`, with its terminating zero: `sizeof(m3u8_footer)`. -/
def sizeof_m3u8_footer : Nat := m3u8_footer.length + 1

/-- The stream loop of `m3u8_builder_build_required_tracks_string`:
`*p++ = '-'`, then the letter of the media type and the track index plus one, or
`continue` for a media type that is neither video nor audio. -/
def required_tracks_loop : List mpeg_stream_metadata_t → Bytes
  | [] => []
  | cur_stream :: rest =>
    match cur_stream.media_info.media_type with
    | MEDIA_TYPE_VIDEO =>
      '-' :: 'v' :: vod_sprintf_uD ((cur_stream.track_index + 1) % UINT32_SIZE) ++
        required_tracks_loop rest
    | MEDIA_TYPE_AUDIO =>
      '-' :: 'a' :: vod_sprintf_uD ((cur_stream.track_index + 1) % UINT32_SIZE) ++
        required_tracks_loop rest
    | other => '-' :: required_tracks_loop rest

/-- The length computed by `m3u8_builder_build_required_tracks_string` before it allocates.
`first_file_index` is `first_stream->file_info.file_index`. -/
def required_tracks_length (include_file_index : Bool) (mpeg_metadata : mpeg_metadata_t)
    (first_file_index : Nat) : Nat :=
  let length := mpeg_metadata.streams_nelts *
    (2 + m3u8_builder_get_int_print_len
      (to_int ((mpeg_metadata.max_track_index + 1) % UINT32_SIZE)))
  if include_file_index then
    length + (2 + m3u8_builder_get_int_print_len
      (to_int ((first_file_index + 1) % UINT32_SIZE)))
  else length

/-- The bytes `m3u8_builder_build_required_tracks_string` writes once it has its buffer. -/
def required_tracks_bytes (include_file_index : Bool) (mpeg_metadata : mpeg_metadata_t)
    (first_file_index : Nat) : Bytes :=
  (if include_file_index then
    '-' :: 'f' :: vod_sprintf_uD ((first_file_index + 1) % UINT32_SIZE)
  else []) ++ required_tracks_loop mpeg_metadata.streams

/-- The function `m3u8_builder_build_required_tracks_string`. Returns the status and the
string `required_tracks` (its `data` is set once the buffer is allocated, its `len` after
the loop). The result is `none` when `include_file_index` makes it read
`first_stream->file_info` although the stream range is empty. -/
def m3u8_builder_build_required_tracks_string (pool : vod_pool_t) (include_file_index : Bool)
    (mpeg_metadata : mpeg_metadata_t) (required_tracks : vod_str_t) :
    Option (vod_status_t × vod_str_t × vod_pool_t) :=
  let first_file_index : Option Nat :=
    if include_file_index then mpeg_metadata.streams.head?.map (fun s => s.file_info.file_index)
    else some 0
  match first_file_index with
  | none => none
  | some first_file_index =>
    let length := required_tracks_length include_file_index mpeg_metadata first_file_index
    match vod_alloc pool (length + 1) with
    | (false, pool) => some (VOD_ALLOC_FAILED, required_tracks, pool)
    | (true, pool) =>
      let p := required_tracks_bytes include_file_index mpeg_metadata first_file_index
      let required_tracks : vod_str_t := { len := p.length, data := some p }
      if required_tracks.len > length then some (VOD_UNEXPECTED, required_tracks, pool)
      else some (VOD_OK, required_tracks, pool)

/-- The bytes of a string read through its `data` and `len`, as `vod_copy(p, s->data,
s->len)` copies them. -/
def vod_str_bytes (s : vod_str_t) : Bytes := vod_copy (s.data.getD []) s.len

/-- The segment loop of `m3u8_builder_build_index_playlist`:
`for (segment_index = 1; duration > 0; segment_index++) { ... }`, the bytes it appends.
The first argument bounds the number of iterations; the result is `none` when the bound is
reached while `duration > 0` still holds. -/
def index_playlist_loop (conf : m3u8_config_t) (base_url : Bytes) (required_tracks : Bytes)
    (segment_duration : Nat) : Nat → Nat → Nat → Option Bytes
  | 0, duration, _ => if duration > 0 then none else some []
  | fuel + 1, duration, segment_index =>
    if duration > 0 then
      let tag : Bytes :=
        if duration ≥ segment_duration then vod_copy conf.m3u8_extinf conf.m3u8_extinf_len
        else if conf.m3u8_version ≥ 3 then m3u8_builder_append_extinf_tag duration 1000
        else m3u8_builder_append_extinf_tag ((duration + 500) % UINT32_SIZE / 1000) 1
      let duration := if duration ≥ segment_duration then duration - segment_duration else 0
      let name := m3u8_builder_append_segment_name base_url conf.segment_file_name_prefix
        segment_index required_tracks
      match index_playlist_loop conf base_url required_tracks segment_duration fuel duration
          ((segment_index + 1) % UINT32_SIZE) with
      | none => none
      | some rest => some (tag ++ name ++ rest)
    else some []

/-- The per-segment length `segment_length` of `m3u8_builder_build_index_playlist`. -/
def index_segment_length (conf : m3u8_config_t) (base_url : Bytes) (required_tracks : vod_str_t)
    (segment_count : Nat) : Nat :=
  conf.m3u8_extinf_len + base_url.length + conf.segment_file_name_prefix.length + 1 +
    m3u8_builder_get_int_print_len (to_int segment_count) + required_tracks.len +
    ".ts\n".length

/-- The buffer size `result_size` of `m3u8_builder_build_index_playlist`. -/
def index_result_size (conf : m3u8_config_t) (base_url : Bytes) (required_tracks : vod_str_t)
    (segment_count : Nat) : Nat :=
  conf.m3u8_header_len +
    index_segment_length conf base_url required_tracks segment_count * segment_count +
    sizeof_m3u8_footer

/-- The function `m3u8_builder_build_index_playlist`: the status and the string `result`
at return. `duration` is a `uint32_t`; the loop takes away at least one millisecond per
turn, so `duration` iterations are always enough. On the path that reports
`VOD_UNEXPECTED` the bytes written are kept in full, although the buffer holds only
`result_size` of them. The outcome is `none` when the required-tracks string has no defined
result or `segment_duration` is zero (division by zero in `DIV_CEIL`). -/
def m3u8_builder_build_index_playlist (pool : vod_pool_t) (conf : m3u8_config_t)
    (base_url : Bytes) (include_file_index : Bool) (segment_duration : Nat)
    (mpeg_metadata : mpeg_metadata_t) (result : vod_str_t) : Option (vod_status_t × vod_str_t) :=
  match m3u8_builder_build_required_tracks_string pool include_file_index mpeg_metadata
      { len := 0, data := none } with
  | none => none
  | some (rc, required_tracks, pool) =>
    if rc ≠ VOD_OK then some (rc, result)
    else if segment_duration = 0 then none
    else
      let duration := mpeg_metadata.duration_millis % UINT32_SIZE
      let segment_count := DIV_CEIL duration segment_duration
      if segment_count > MAX_SEGMENT_COUNT then some (VOD_BAD_DATA, result)
      else
        let result_size := index_result_size conf base_url required_tracks segment_count
        match vod_alloc pool result_size with
        | (false, _) => some (VOD_ALLOC_FAILED, { result with data := none })
        | (true, _) =>
          match index_playlist_loop conf base_url (vod_str_bytes required_tracks)
              segment_duration duration duration 1 with
          | none => none
          | some body =>
            let p := vod_copy conf.m3u8_header conf.m3u8_header_len ++ body ++ m3u8_footer
            let result : vod_str_t := { len := p.length, data := some p }
            if result.len > result_size then some (VOD_UNEXPECTED, result)
            else some (VOD_OK, result)

/-- Modelled from the spec: the header texts that `vod_snprintf` produces from the format
strings `m3u8_header_format` and `iframes_m3u8_header_format` (declared in m3u8_builder.h,
not under src). `m3u8_header_text target key version` is the index-playlist header for a
target duration, an optional encryption key file name and a version;
`iframes_m3u8_header_text target` is the I-frame playlist header. -/
structure m3u8_formats_t where
  m3u8_header_text : Nat → Option Bytes → Nat → Bytes
  iframes_m3u8_header_text : Nat → Bytes

/-- Writing `text` at the start of a character array: the bytes after it keep their value. -/
def write_array (array text : Bytes) : Bytes := text ++ array.drop text.length

/-- The function `m3u8_builder_init_config`. -/
def m3u8_builder_init_config (formats : m3u8_formats_t) (conf : m3u8_config_t)
    (segment_duration : Nat) (encryption_key_file_name : Option Bytes) : m3u8_config_t :=
  let m3u8_version := 3
  let extinf : Bytes :=
    if m3u8_version ≥ 3 then m3u8_builder_append_extinf_tag segment_duration 1000
    else m3u8_builder_append_extinf_tag ((segment_duration + 500) % UINT32_SIZE / 1000) 1
  let header := formats.m3u8_header_text ((segment_duration + 500) % UINT32_SIZE / 1000)
    encryption_key_file_name m3u8_version
  let iframes_header := formats.iframes_m3u8_header_text (DIV_CEIL segment_duration 1000)
  { conf with
    m3u8_version := m3u8_version
    m3u8_extinf := write_array conf.m3u8_extinf extinf
    m3u8_extinf_len := extinf.length
    m3u8_header := write_array conf.m3u8_header header
    m3u8_header_len := header.length
    iframes_m3u8_header := write_array conf.iframes_m3u8_header iframes_header
    iframes_m3u8_header_len := iframes_header.length }

/-- A configuration with empty text fields and both file-name prefixes given. -/
def conf_of_prefixes (seg idx : Bytes) : m3u8_config_t :=
  { m3u8_version := 0, m3u8_extinf := [], m3u8_extinf_len := 0, m3u8_header := [],
    m3u8_header_len := 0, iframes_m3u8_header := [], iframes_m3u8_header_len := 0,
    segment_file_name_prefix := seg, index_file_name_prefix := idx }

/-- A track with the given media type, file index and track index (no other metadata). -/
def stream_of (t : media_type_t) (file_index track_index : Nat) : mpeg_stream_metadata_t :=
  { media_info := { media_type := t, bitrate := 0, width := 0, height := 0, codec_name := [] },
    file_info := { file_index := file_index, uri := [] },
    track_index := track_index }

/-- A stream set over the given tracks, of the given duration. -/
def metadata_of (streams : List mpeg_stream_metadata_t) (max_track_index duration : Nat) :
    mpeg_metadata_t :=
  { streams_nelts := streams.length, streams := streams, max_track_index := max_track_index,
    duration_millis := duration, video_key_frame_count := 0, stream_count_video := 0,
    stream_count_audio := 0 }

/-- Header texts used in the examples: `#EXTM3U`, target duration and version. -/
def sample_formats : m3u8_formats_t :=
  { m3u8_header_text := fun target _ version =>
      "#EXTM3U\n#EXT-X-TARGETDURATION:".toList ++ vod_sprintf_uD target ++
      "\n#EXT-X-VERSION:".toList ++ vod_sprintf_uD version ++ ['\n'],
    iframes_m3u8_header_text := fun target =>
      "#EXTM3U\n#EXT-X-TARGETDURATION:".toList ++ vod_sprintf_uD target ++ ['\n'] }

/-- Decimal text of `f` padded with zeros to `k` digits (the digits of `f` modulo
`10 ^ k`, most significant first). -/
def pad_digits : Nat → Nat → Bytes
  | 0, _ => []
  | k + 1, f => Nat.digitChar (f / 10 ^ k % 10) :: pad_digits k (f % 10 ^ k)

/-- Value of a run of decimal digits, most significant first. -/
def digits_value (s : Bytes) : Nat :=
  s.foldl (fun acc c => acc * 10 + (c.toNat - 48)) 0

/-- Reading an unsigned decimal number: `none` unless the text is a non-empty run of the
characters `0` to `9`. -/
def parse_uint (s : Bytes) : Option Nat :=
  if s ≠ [] ∧ s.all Char.isDigit then some (digits_value s) else none

/-- The EXTINF tag of the segment at position `i` (counted from zero) of an asset of the
given duration: the cached tag of the configuration for a full segment, the tag of the
remainder for the last, partial segment. -/
def index_segment_tag (conf : m3u8_config_t) (segment_duration duration i : Nat) : Bytes :=
  if i < duration / segment_duration then vod_copy conf.m3u8_extinf conf.m3u8_extinf_len
  else if conf.m3u8_version ≥ 3 then
    m3u8_builder_append_extinf_tag (duration % segment_duration) 1000
  else
    m3u8_builder_append_extinf_tag
      ((duration % segment_duration + 500) % UINT32_SIZE / 1000) 1

/-- The segment entries of an index playlist, in order: for each position `i` below
`count`, the tag of that segment followed by the name line of index `first_index + i`. -/
def index_entries (conf : m3u8_config_t) (base_url required_tracks : Bytes)
    (segment_duration duration first_index count : Nat) : Bytes :=
  ((List.range count).map (fun i =>
    index_segment_tag conf segment_duration duration i ++
      m3u8_builder_append_segment_name base_url conf.segment_file_name_prefix
        (first_index + i) required_tracks)).flatten

/-- The whole text of an index playlist of `count` segments: the header bytes of the
configuration, the segment entries numbered from 1, and the footer. -/
def index_playlist_text (conf : m3u8_config_t) (base_url required_tracks : Bytes)
    (segment_duration duration count : Nat) : Bytes :=
  vod_copy conf.m3u8_header conf.m3u8_header_len ++
    index_entries conf base_url required_tracks segment_duration duration 1 count ++
    m3u8_footer

/-- A duration in milliseconds written in seconds with exactly three fractional digits. -/
def millis_text (n : Nat) : Bytes :=
  Nat.toDigits 10 (n / 1000) ++
    ['.', Nat.digitChar (n / 100 % 10), Nat.digitChar (n / 10 % 10), Nat.digitChar (n % 10)]

/-- The duration in milliseconds of the segment at position `i` (counted from zero): the
segment duration for a full segment, the remainder for the last, partial one. -/
def segment_millis (segment_duration duration i : Nat) : Nat :=
  if i < duration / segment_duration then segment_duration else duration % segment_duration

/-- The line that names segment `n`: base URL, prefix, `-n`, required tracks, `.ts`. -/
def segment_line (base_url : Bytes) ( segment_file_name_prefix : Bytes) (n : Nat)
    (required_tracks : Bytes) : Bytes :=
  base_url ++ segment_file_name_prefix ++ "-".toList ++ Nat.toDigits 10 n ++ required_tracks ++
    ".ts\n".toList

/-- The duration, in milliseconds, that an EXTINF tag declares: the text between
`#EXTINF:` and the closing comma and line feed, read as whole seconds followed either by
nothing or by a point and three fractional digits; `none` for any other text. -/
def declared_millis (tag : Bytes) : Option Nat :=
  if tag.take 8 = "#EXTINF:".toList then
    let body := tag.drop 8
    let whole := body.takeWhile Char.isDigit
    match body.dropWhile Char.isDigit with
    | [',', '\n'] => if whole ≠ [] then some (digits_value whole * 1000) else none
    | ['.', a, b, c, ',', '\n'] =>
      if whole ≠ [] ∧ a.isDigit ∧ b.isDigit ∧ c.isDigit then
        some (digits_value whole * 1000 + digits_value [a, b, c])
      else none
    | _ => none
  else none

/-- Example configuration: segments of 10 seconds, prefixes `seg` and `index`, no key. -/
def sample_conf : m3u8_config_t :=
  m3u8_builder_init_config sample_formats (conf_of_prefixes "seg".toList "index".toList)
    10000 none

/-- Example stream set: one video and one audio track of file 0, 12.5 seconds long. -/
def sample_metadata : mpeg_metadata_t :=
  metadata_of [stream_of MEDIA_TYPE_VIDEO 0 0, stream_of MEDIA_TYPE_AUDIO 0 1] 1 12500

/-- The required-tracks string of `sample_metadata` without file index. -/
def sample_required_tracks : vod_str_t := { len := 6, data := some "-v1-a2".toList }

/-- The index that a printed number stands for: indices are printed plus one in 32-bit
arithmetic, so the index is the number minus one modulo `2 ^ 32`. -/
def decode_index (digits : Bytes) : Nat :=
  (digits_value digits + (UINT32_SIZE - 1)) % UINT32_SIZE

/-- The media type that a letter of the required-tracks string stands for. -/
def decode_kind (c : Char) : Option media_type_t :=
  if c = 'v' then some MEDIA_TYPE_VIDEO else if c = 'a' then some MEDIA_TYPE_AUDIO else none

/-- Reading the track fields `-v<n>` and `-a<n>` of a required-tracks string, in order.
The first argument bounds the number of fields (every field takes at least three bytes). -/
def decode_tracks : Nat → Bytes → Option (List (media_type_t × Nat))
  | _, [] => some []
  | 0, _ :: _ => none
  | _ + 1, [_] => none
  | fuel + 1, dash :: letter :: rest =>
    if dash = '-' ∧ rest.takeWhile Char.isDigit ≠ [] then
      match decode_kind letter, decode_tracks fuel (rest.dropWhile Char.isDigit) with
      | some kind, some tracks =>
        some ((kind, decode_index (rest.takeWhile Char.isDigit)) :: tracks)
      | _, _ => none
    else none

/-- Reading a required-tracks string that starts with a file index: `-f<n>` followed by
the track fields. Gives the file index and the media type and index of every track. -/
def decode_required_tracks (s : Bytes) : Option (Nat × List (media_type_t × Nat)) :=
  match s with
  | dash :: letter :: rest =>
    if dash = '-' ∧ letter = 'f' ∧ rest.takeWhile Char.isDigit ≠ [] then
      (decode_tracks rest.length (rest.dropWhile Char.isDigit)).map
        (fun tracks => (decode_index (rest.takeWhile Char.isDigit), tracks))
    else none
  | _ => none

/-- The tuple that a required-tracks string with file index encodes: the file index of
the first stream, and the media type and track index of every stream, in order (for one
video and one audio track: file index, video index, audio index). -/
def track_tuple (m : mpeg_metadata_t) : Option (Nat × List (media_type_t × Nat)) :=
  m.streams.head?.map (fun first =>
    (first.file_info.file_index,
      m.streams.map (fun s => (s.media_info.media_type, s.track_index))))

/-- A stream set made of video and audio tracks only, whose track and file indices are
32-bit values. -/
def audio_video_set (m : mpeg_metadata_t) : Prop :=
  ∀ s ∈ m.streams,
    (s.media_info.media_type = MEDIA_TYPE_VIDEO ∨ s.media_info.media_type = MEDIA_TYPE_AUDIO) ∧
    s.track_index < UINT32_SIZE ∧ s.file_info.file_index < UINT32_SIZE

/-- Modelled from the spec: constants used by m3u8_builder.c and declared outside src, taken
as parameters: `VOD_INT32_LEN` (room for the decimal text of a 32-bit integer),
`MAX_FRAME_SIZE` (the bounded maximum frame size) and `MAX_CODEC_NAME_SIZE` (room for a
codec name). -/
structure vod_limits_t where
  VOD_INT32_LEN : Nat
  MAX_FRAME_SIZE : Nat
  MAX_CODEC_NAME_SIZE : Nat
  deriving DecidableEq, Repr

/-- One call of the frame visitor: the arguments `segment_index`, `frame_duration`,
`frame_start` and `frame_size` of `m3u8_builder_append_iframe_string`. -/
structure iframe_event_t where
  segment_index : Nat
  frame_duration : Nat
  frame_start : Nat
  frame_size : Nat
  deriving DecidableEq, Repr

/-- Modelled from the spec: the frame-simulation collaborator (hls_muxer.h, not under
src), as the I-frame builder sees it: `init_rc` is the status returned by `hls_muxer_init`,
`simulation_supported` the value it leaves in its out parameter, and `iframes` the calls
that `hls_muxer_simulate_get_iframes` makes to the visitor, in order. -/
structure hls_muxer_t where
  init_rc : vod_status_t
  simulation_supported : Bool
  iframes : List iframe_event_t
  deriving DecidableEq, Repr

/-- The constant `byte_range_tag_format`, as `vod_sprintf` fills it:
`#EXT-X-BYTERANGE:<frame_size>@<frame_start>` and a line feed. -/
def byte_range_tag (frame_size frame_start : Nat) : Bytes :=
  "#EXT-X-BYTERANGE:".toList ++ vod_sprintf_uD frame_size ++ '@' :: vod_sprintf_uD frame_start ++
    ['\n']

/-- Size of the array `byte_range_tag_format`, with its terminating zero. -/
def sizeof_byte_range_tag_format : Nat := "#EXT-X-BYTERANGE:%uD@%uD\n".length + 1

/-- The function `m3u8_builder_append_iframe_string`: the bytes appended at `ctx->p` for one
frame. -/
def m3u8_builder_append_iframe_string (base_url : Bytes) ( segment_file_name_prefix : Bytes)
    (required_tracks : Bytes) (e : iframe_event_t) : Bytes :=
  m3u8_builder_append_extinf_tag e.frame_duration 1000 ++
    byte_range_tag e.frame_size e.frame_start ++
    m3u8_builder_append_segment_name base_url segment_file_name_prefix e.segment_index
      required_tracks

/-- The per-frame length `iframe_length` of `m3u8_builder_build_iframe_playlist`. -/
def iframe_length (limits : vod_limits_t) (conf : m3u8_config_t) (base_url : Bytes)
    (required_tracks : vod_str_t) (segment_duration : Nat) (mpeg_metadata : mpeg_metadata_t) :
    Nat :=
  let duration_millis := mpeg_metadata.duration_millis % UINT32_SIZE
  let segment_count := DIV_CEIL duration_millis segment_duration
  "#EXTINF:.000,\n".length +
    m3u8_builder_get_int_print_len (to_int (DIV_CEIL duration_millis 1000)) +
    sizeof_byte_range_tag_format + limits.VOD_INT32_LEN +
    m3u8_builder_get_int_print_len (to_int limits.MAX_FRAME_SIZE) - "%uD%uD".length +
    base_url.length + conf.segment_file_name_prefix.length + 1 +
    m3u8_builder_get_int_print_len (to_int segment_count) + required_tracks.len +
    ".ts\n".length

/-- The buffer size `result_size` of `m3u8_builder_build_iframe_playlist`. -/
def iframe_result_size (limits : vod_limits_t) (conf : m3u8_config_t) (base_url : Bytes)
    (required_tracks : vod_str_t) (segment_duration : Nat) (mpeg_metadata : mpeg_metadata_t) :
    Nat :=
  conf.iframes_m3u8_header_len +
    iframe_length limits conf base_url required_tracks segment_duration mpeg_metadata *
      mpeg_metadata.video_key_frame_count +
    sizeof_m3u8_footer

/-- The function `m3u8_builder_build_iframe_playlist`: the status and the string `result`
at return. The pool lists the outcomes of the allocations made by m3u8_builder.c itself.
On the path that reports `VOD_UNEXPECTED` the bytes written are kept in full, although the
buffer holds only `result_size` of them. The outcome is `none` when the required-tracks
string has no defined result or `segment_duration` is zero (division by zero in
`DIV_CEIL`). -/
def m3u8_builder_build_iframe_playlist (limits : vod_limits_t) (hls_muxer : hls_muxer_t)
    (pool : vod_pool_t) (conf : m3u8_config_t) (base_url : Bytes) (include_file_index : Bool)
    (segment_duration : Nat) (mpeg_metadata : mpeg_metadata_t) (result : vod_str_t) :
    Option (vod_status_t × vod_str_t) :=
  if hls_muxer.init_rc ≠ VOD_OK then some (hls_muxer.init_rc, result)
  else if hls_muxer.simulation_supported = false then some (VOD_BAD_REQUEST, result)
  else
    match m3u8_builder_build_required_tracks_string pool include_file_index mpeg_metadata
        { len := 0, data := none } with
    | none => none
    | some (rc, required_tracks, pool) =>
      if rc ≠ VOD_OK then some (rc, result)
      else if segment_duration = 0 then none
      else
        let result_size := iframe_result_size limits conf base_url required_tracks
          segment_duration mpeg_metadata
        match vod_alloc pool result_size with
        | (false, _) => some (VOD_ALLOC_FAILED, { result with data := none })
        | (true, _) =>
          let p := vod_copy conf.iframes_m3u8_header conf.iframes_m3u8_header_len ++
            (hls_muxer.iframes.map (m3u8_builder_append_iframe_string base_url
              conf.segment_file_name_prefix (vod_str_bytes required_tracks))).flatten ++
            m3u8_footer
          let result : vod_str_t := { len := p.length, data := some p }
          if result.len > result_size then some (VOD_UNEXPECTED, result)
          else some (VOD_OK, result)

/-- Modelled from the spec: one file group visited by the macros
`WALK_STREAMS_BY_FILES_START` and `WALK_STREAMS_BY_FILES_END` (declared outside src), the
array `cur_file_streams`: the video track and the audio track of the group, `none` for a
null entry ("each group has a video track, an audio track, or both"). -/
structure cur_file_streams_t where
  video : Option mpeg_stream_metadata_t
  audio : Option mpeg_stream_metadata_t
  deriving DecidableEq, Repr

/-- The constant `m3u8_header`. -/
def m3u8_header : Bytes := "#EXTM3U\n".toList

/-- The constant `m3u8_stream_inf_suffix`. -/
def m3u8_stream_inf_suffix : Bytes := "\"\n".toList

/-- The constant `m3u8_url_suffix`. -/
def m3u8_url_suffix : Bytes := ".m3u8\n".toList

/-- The constant `m3u8_stream_inf_video`, as `vod_sprintf` fills it with a bitrate, a
width, a height and a codec name. -/
def stream_inf_video (bitrate width height : Nat) (codec_name : Bytes) : Bytes :=
  "#EXT-X-STREAM-INF:PROGRAM-ID=1,BANDWIDTH=".toList ++ vod_sprintf_uD bitrate ++
    ",RESOLUTION=".toList ++ vod_sprintf_uD width ++ 'x' :: vod_sprintf_uD height ++
    ",CODECS=\"".toList ++ codec_name

/-- The constant `m3u8_stream_inf_audio`, as `vod_sprintf` fills it with a bitrate and a
codec name. -/
def stream_inf_audio (bitrate : Nat) (codec_name : Bytes) : Bytes :=
  "#EXT-X-STREAM-INF:PROGRAM-ID=1,BANDWIDTH=".toList ++ vod_sprintf_uD bitrate ++
    ",CODECS=\"".toList ++ codec_name

/-- Length of the format `m3u8_stream_inf_video`: `sizeof(m3u8_stream_inf_video) - 1`. -/
def strlen_m3u8_stream_inf_video : Nat :=
  "#EXT-X-STREAM-INF:PROGRAM-ID=1,BANDWIDTH=%uD,RESOLUTION=%uDx%uD,CODECS=\"%V".length

/-- Size of the array `m3u8_stream_inf_audio`, with its terminating zero. -/
def sizeof_m3u8_stream_inf_audio : Nat :=
  "#EXT-X-STREAM-INF:PROGRAM-ID=1,BANDWIDTH=%uD,CODECS=\"%V".length + 1

/-- The bound `max_video_stream_inf` of `m3u8_builder_build_master_playlist`. -/
def max_video_stream_inf (limits : vod_limits_t) : Nat :=
  strlen_m3u8_stream_inf_video + 3 * limits.VOD_INT32_LEN + limits.MAX_CODEC_NAME_SIZE +
    limits.MAX_CODEC_NAME_SIZE + 1 + m3u8_stream_inf_suffix.length

/-- The bound `max_audio_stream_inf` of `m3u8_builder_build_master_playlist`. -/
def max_audio_stream_inf (limits : vod_limits_t) : Nat :=
  sizeof_m3u8_stream_inf_audio + limits.VOD_INT32_LEN + limits.MAX_CODEC_NAME_SIZE +
    m3u8_stream_inf_suffix.length

/-- The stream `stream` of a group: the video track when there is one, else the audio
track; `none` when both entries are null. -/
def master_group_stream (g : cur_file_streams_t) : Option mpeg_stream_metadata_t :=
  match g.video with
  | some v => some v
  | none => g.audio

/-- Body of the first walk of `m3u8_builder_build_master_playlist`: what one group adds to
`result_size`. The result is `none` when `stream->file_info` is read through a null
`stream`. -/
def master_group_size (limits : vod_limits_t) (conf : m3u8_config_t) (base_url : Bytes)
    (g : cur_file_streams_t) : Option Nat :=
  let url_size : Option Nat :=
    if base_url.length ≠ 0 then
      (master_group_stream g).map (fun stream => base_url.length + (stream.file_info.uri.length + 1))
    else some 0
  url_size.map (fun n =>
    n + conf.index_file_name_prefix.length + ("-f-v-a".length + limits.VOD_INT32_LEN * 3) +
      m3u8_url_suffix.length)

/-- The first walk of `m3u8_builder_build_master_playlist`: `result_size` after the groups,
starting from `size`. -/
def master_result_size_walk (limits : vod_limits_t) (conf : m3u8_config_t) (base_url : Bytes) :
    List cur_file_streams_t → Nat → Option Nat
  | [], size => some size
  | g :: rest, size =>
    match master_group_size limits conf base_url g with
    | none => none
    | some n => master_result_size_walk limits conf base_url rest (size + n)

/-- The stream information line of one group, as the second walk writes it; `none` when
both entries of the group are null (the audio track is read through a null pointer). -/
def master_group_stream_inf (g : cur_file_streams_t) : Option Bytes :=
  match g.video with
  | some stream =>
    let video := stream.media_info
    let bitrate := video.bitrate % UINT32_SIZE
    let bitrate :=
      match g.audio with
      | some a => (bitrate + a.media_info.bitrate) % UINT32_SIZE
      | none => bitrate
    let p := stream_inf_video bitrate (video.width % UINT32_SIZE) (video.height % UINT32_SIZE)
      video.codec_name
    let p :=
      match g.audio with
      | some a => p ++ ',' :: a.media_info.codec_name
      | none => p
    some (p ++ m3u8_stream_inf_suffix)
  | none =>
    match g.audio with
    | some stream =>
      let audio := stream.media_info
      some (stream_inf_audio audio.bitrate audio.codec_name ++ m3u8_stream_inf_suffix)
    | none => none

/-- The stream url line of one group, as the second walk writes it, `stream` being the
stream of the group. -/
def master_group_url (conf : m3u8_config_t) (base_url : Bytes) (include_file_index : Bool)
    (g : cur_file_streams_t) (stream : mpeg_stream_metadata_t) : Bytes :=
  (if base_url.length ≠ 0 then base_url ++ stream.file_info.uri ++ ['/'] else []) ++
    conf.index_file_name_prefix ++
    (if base_url.length = 0 ∧ include_file_index = true then
      '-' :: 'f' :: vod_sprintf_uD ((stream.file_info.file_index + 1) % UINT32_SIZE)
    else []) ++
    (match g.video with
      | some v => '-' :: 'v' :: vod_sprintf_uD ((v.track_index + 1) % UINT32_SIZE)
      | none => []) ++
    (match g.audio with
      | some a => '-' :: 'a' :: vod_sprintf_uD ((a.track_index + 1) % UINT32_SIZE)
      | none => []) ++
    m3u8_url_suffix

/-- Body of the second walk of `m3u8_builder_build_master_playlist`: the bytes written for
one group, the stream information line and the url line. -/
def master_group_text (conf : m3u8_config_t) (base_url : Bytes) (include_file_index : Bool)
    (g : cur_file_streams_t) : Option Bytes :=
  match master_group_stream_inf g, master_group_stream g with
  | some line, some stream =>
    some (line ++ master_group_url conf base_url include_file_index g stream)
  | _, _ => none

/-- The second walk of `m3u8_builder_build_master_playlist`: the bytes written for the
groups, in order. -/
def master_text_walk (conf : m3u8_config_t) (base_url : Bytes) (include_file_index : Bool) :
    List cur_file_streams_t → Option Bytes
  | [] => some []
  | g :: rest =>
    match master_group_text conf base_url include_file_index g,
      master_text_walk conf base_url include_file_index rest with
    | some text, some more => some (text ++ more)
    | _, _ => none

/-- The function `m3u8_builder_build_master_playlist`: the status and the string `result`
at return. `file_groups` is the sequence of groups that the walk by files visits. On the
path that reports `VOD_UNEXPECTED` the bytes written are kept in full, although the buffer
holds only `result_size` of them. The outcome is `none` when a group with two null entries
makes the code read through a null pointer. -/
def m3u8_builder_build_master_playlist (limits : vod_limits_t) (pool : vod_pool_t)
    (conf : m3u8_config_t) (base_url : Bytes) (include_file_index : Bool)
    (mpeg_metadata : mpeg_metadata_t) (file_groups : List cur_file_streams_t)
    (result : vod_str_t) : Option (vod_status_t × vod_str_t) :=
  let result_size := (m3u8_header.length + 1) +
    mpeg_metadata.stream_count_video * max_video_stream_inf limits +
    mpeg_metadata.stream_count_audio * max_audio_stream_inf limits
  match master_result_size_walk limits conf base_url file_groups result_size with
  | none => none
  | some result_size =>
    match vod_alloc pool result_size with
    | (false, _) => some (VOD_ALLOC_FAILED, { result with data := none })
    | (true, _) =>
      match master_text_walk conf base_url include_file_index file_groups with
      | none => none
      | some body =>
        let p := m3u8_header ++ body
        let result : vod_str_t := { len := p.length, data := some p }
        if result.len > result_size then some (VOD_UNEXPECTED, result)
        else some (VOD_OK, result)

/-- Values of the limits used in the examples: 11 bytes for a 32-bit integer, frames of at
most 10 MiB, codec names of at most 64 bytes. -/
def sample_limits : vod_limits_t :=
  { VOD_INT32_LEN := 11, MAX_FRAME_SIZE := 10 * 1024 * 1024, MAX_CODEC_NAME_SIZE := 64 }

/-- A track with full metadata, for the examples. -/
def track_of (t : media_type_t) (file_index track_index bitrate width height : Nat)
    (codec uri : Bytes) : mpeg_stream_metadata_t :=
  { media_info := { media_type := t, bitrate := bitrate, width := width, height := height,
                    codec_name := codec },
    file_info := { file_index := file_index, uri := uri },
    track_index := track_index }

/-- The three lines of an I-frame entry: the EXTINF tag with the frame duration in
seconds and three fractional digits, the byte range `<size>@<offset>`, and the line of the
segment the frame belongs to. -/
def iframe_lines (base_url : Bytes) ( segment_file_name_prefix : Bytes) (required_tracks : Bytes)
    (e : iframe_event_t) : Bytes :=
  ("#EXTINF:".toList ++ millis_text e.frame_duration ++ ",\n".toList) ++
    ("#EXT-X-BYTERANGE:".toList ++ Nat.toDigits 10 e.frame_size ++ "@".toList ++
      Nat.toDigits 10 e.frame_start ++ "\n".toList) ++
    segment_line base_url segment_file_name_prefix e.segment_index required_tracks

/-- A frame event whose four arguments are 32-bit values. -/
def iframe_event_32bit (e : iframe_event_t) : Prop :=
  e.segment_index < UINT32_SIZE ∧ e.frame_duration < UINT32_SIZE ∧
    e.frame_start < UINT32_SIZE ∧ e.frame_size < UINT32_SIZE

/-- The example stream set with its two key frames counted. -/
def sample_iframe_metadata : mpeg_metadata_t :=
  { sample_metadata with video_key_frame_count := 2 }

/-- Example muxer: simulation supported, two key frames, in segments 1 and 2. -/
def sample_muxer : hls_muxer_t :=
  { init_rc := VOD_OK, simulation_supported := true,
    iframes := [
      { segment_index := 1, frame_duration := 2000, frame_start := 564, frame_size := 1316 },
      { segment_index := 2, frame_duration := 1500, frame_start := 90240, frame_size := 940 }] }

/-- The required-tracks string of a stream set of one video track 0, without file index. -/
def video_required_tracks : vod_str_t := { len := 3, data := some "-v1".toList }

/-- A key frame in segment 3000000000, lasting 3000000000 ms, of 10 MiB at offset
4294967295. -/
def late_frame : iframe_event_t :=
  { segment_index := 3000000000, frame_duration := 3000000000, frame_start := 4294967295,
    frame_size := 10485760 }

/-- A muxer that supports simulation and delivers the given frames. -/
def muxer_of (iframes : List iframe_event_t) : hls_muxer_t :=
  { init_rc := VOD_OK, simulation_supported := true, iframes := iframes }

/-- A stream set of one video track (file 0, track 0) with the given duration and number
of key frames. -/
def video_metadata_of (duration key_frames : Nat) : mpeg_metadata_t :=
  { streams_nelts := 1, streams := [stream_of MEDIA_TYPE_VIDEO 0 0], max_track_index := 0,
    duration_millis := duration, video_key_frame_count := key_frames,
    stream_count_video := 1, stream_count_audio := 0 }

/-- The start of a variant url line, before the track suffixes: with a base url, the base
url, the uri of the source file, a slash and the index file name prefix; without one, the
index file name prefix, followed by `-f<file_index + 1>` when the file index is asked for. -/
def variant_url_head (conf : m3u8_config_t) (base_url : Bytes) (include_file_index : Bool)
    (stream : mpeg_stream_metadata_t) : Bytes :=
  if base_url ≠ [] then
    base_url ++ stream.file_info.uri ++ "/".toList ++ conf.index_file_name_prefix
  else
    conf.index_file_name_prefix ++
      (if include_file_index = true then
        "-f".toList ++ vod_sprintf_uD (stream.file_info.file_index + 1)
      else [])

/-- The track suffixes of a variant url line: `-v<track_index + 1>` for the video track of
the group and `-a<track_index + 1>` for its audio track, each when present. -/
def variant_track_suffixes (g : cur_file_streams_t) : Bytes :=
  (match g.video with
    | some v => "-v".toList ++ vod_sprintf_uD (v.track_index + 1)
    | none => []) ++
  (match g.audio with
    | some a => "-a".toList ++ vod_sprintf_uD (a.track_index + 1)
    | none => [])

/-- Example group: video 1280x720 at 2000000 bps coded `avc1`, paired with audio at
128000 bps coded `mp4a`, tracks 0 and 0 of file 0. -/
def sample_group : cur_file_streams_t :=
  { video := some (track_of MEDIA_TYPE_VIDEO 0 0 2000000 1280 720 "avc1".toList
      "/video.mp4".toList),
    audio := some (track_of MEDIA_TYPE_AUDIO 0 0 128000 0 0 "mp4a".toList
      "/video.mp4".toList) }

/-- Example audio-only group: audio at 128000 bps coded `mp4a`, track 1 of file 1. -/
def sample_audio_group : cur_file_streams_t :=
  { video := none,
    audio := some (track_of MEDIA_TYPE_AUDIO 1 1 128000 0 0 "mp4a".toList
      "/audio.mp4".toList) }

/-- Example stream set for the master playlist: `video` video tracks and `audio` audio
tracks counted. -/
def master_metadata_of (video audio : Nat) : mpeg_metadata_t :=
  { streams_nelts := video + audio, streams := [], max_track_index := 1, duration_millis := 0,
    video_key_frame_count := 0, stream_count_video := video, stream_count_audio := audio }

/-- A list of file groups as the master playlist builder expects it for a stream set:
every group has a video track, an audio track or both, the two stream counts are the
numbers of video and audio tracks of the groups, and every codec name is at most
`MAX_CODEC_NAME_SIZE` bytes long. -/
def master_groups_ok (limits : vod_limits_t) (m : mpeg_metadata_t)
    (groups : List cur_file_streams_t) : Prop :=
  (∀ g ∈ groups, (g.video ≠ none ∨ g.audio ≠ none) ∧
    (∀ v, g.video = some v → v.media_info.codec_name.length ≤ limits.MAX_CODEC_NAME_SIZE) ∧
    (∀ a, g.audio = some a → a.media_info.codec_name.length ≤ limits.MAX_CODEC_NAME_SIZE)) ∧
  m.stream_count_video = groups.countP (fun g => g.video.isSome) ∧
  m.stream_count_audio = groups.countP (fun g => g.audio.isSome)

/-- A configuration initialised for segments of 9 seconds. -/
def nine_second_conf : m3u8_config_t :=
  m3u8_builder_init_config sample_formats (conf_of_prefixes "seg".toList "index".toList) 9000 none

/-- A configuration of playlist version 2, with the whole-second tag of 10 second
segments cached, as the branch for versions below 3 of `m3u8_builder_init_config` would
build it. -/
def version_2_conf : m3u8_config_t :=
  { m3u8_version := 2,
    m3u8_extinf := m3u8_builder_append_extinf_tag ((10000 + 500) % UINT32_SIZE / 1000) 1,
    m3u8_extinf_len := (m3u8_builder_append_extinf_tag ((10000 + 500) % UINT32_SIZE / 1000) 1).length,
    m3u8_header := "#EXTM3U\n".toList, m3u8_header_len := 8,
    iframes_m3u8_header := [], iframes_m3u8_header_len := 0,
    segment_file_name_prefix := "seg".toList, index_file_name_prefix := "index".toList }

theorem toDigitsCore_acc (fuel : Nat) : ∀ (n : Nat) (acc : List Char),
    Nat.toDigitsCore 10 fuel n acc = Nat.toDigitsCore 10 fuel n [] ++ acc := by
  induction fuel with
  | zero => intro n acc; simp [Nat.toDigitsCore]
  | succ f ih =>
    intro n acc
    simp only [Nat.toDigitsCore]
    split
    · simp
    · rw [ih (n / 10) (_ :: acc), ih (n / 10) [_]]; simp

theorem toDigitsCore_fuel (f1 : Nat) : ∀ (f2 n : Nat), n < f1 → n < f2 →
    Nat.toDigitsCore 10 f1 n [] = Nat.toDigitsCore 10 f2 n [] := by
  induction f1 with
  | zero => intro f2 n h; omega
  | succ f ih =>
    intro f2 n h1 h2
    cases f2 with
    | zero => omega
    | succ g =>
      simp only [Nat.toDigitsCore]
      split
      · rfl
      · rename_i hne
        have hpos : 0 < n := by
          rcases Nat.eq_zero_or_pos n with h | h
          · subst h; simp at hne
          · exact h
        have hlt : n / 10 < n := Nat.div_lt_self hpos (by decide)
        rw [toDigitsCore_acc f, toDigitsCore_acc g, ih g (n / 10) (by omega) (by omega)]

theorem toDigits_lt_ten (n : Nat) (h : n < 10) : Nat.toDigits 10 n = [Nat.digitChar n] := by
  have h0 : n / 10 = 0 := by omega
  have h1 : n % 10 = n := by omega
  simp [Nat.toDigits, Nat.toDigitsCore, h0, h1]

theorem toDigits_ge_ten (n : Nat) (h : 10 ≤ n) :
    Nat.toDigits 10 n = Nat.toDigits 10 (n / 10) ++ [Nat.digitChar (n % 10)] := by
  have h0 : n / 10 ≠ 0 := by omega
  have e : Nat.toDigits 10 n = Nat.toDigitsCore 10 n (n / 10) [Nat.digitChar (n % 10)] := by
    show Nat.toDigitsCore 10 (n + 1) n [] = _
    simp only [Nat.toDigitsCore, h0, if_false]
  rw [e, toDigitsCore_acc, toDigitsCore_fuel n (n / 10 + 1) (n / 10) (by omega) (by omega)]
  rfl

theorem digitChar_isDigit (d : Nat) (h : d < 10) : (Nat.digitChar d).isDigit = true := by
  interval_cases d <;> decide

theorem digitChar_toNat (d : Nat) (h : d < 10) : (Nat.digitChar d).toNat - 48 = d := by
  interval_cases d <;> decide

theorem u_char_digit (d : Nat) (h : d < 10) : u_char (d + 48) = Nat.digitChar d := by
  interval_cases d <;> decide

theorem toDigits_ne_nil (n : Nat) : Nat.toDigits 10 n ≠ [] := by
  rcases Nat.lt_or_ge n 10 with h | h
  · rw [toDigits_lt_ten n h]; simp
  · rw [toDigits_ge_ten n h]; simp

theorem toDigits_all_digit (n : Nat) : ∀ c ∈ Nat.toDigits 10 n, c.isDigit = true := by
  induction n using Nat.strong_induction_on with
  | _ n ih =>
    rcases Nat.lt_or_ge n 10 with h | h
    · rw [toDigits_lt_ten n h]
      intro c hc
      simp only [List.mem_singleton] at hc
      subst hc
      exact digitChar_isDigit n h
    · rw [toDigits_ge_ten n h]
      intro c hc
      rcases List.mem_append.mp hc with hc | hc
      · exact ih (n / 10) (by omega) c hc
      · simp only [List.mem_singleton] at hc
        subst hc
        exact digitChar_isDigit _ (by omega)

theorem digits_value_append (s : Bytes) (c : Char) :
    digits_value (s ++ [c]) = digits_value s * 10 + (c.toNat - 48) := by
  simp [digits_value, List.foldl_append]

theorem digits_value_toDigits (n : Nat) : digits_value (Nat.toDigits 10 n) = n := by
  induction n using Nat.strong_induction_on with
  | _ n ih =>
    rcases Nat.lt_or_ge n 10 with h | h
    · rw [toDigits_lt_ten n h]
      simp [digits_value, digitChar_toNat n h]
    · rw [toDigits_ge_ten n h, digits_value_append, ih (n / 10) (by omega),
        digitChar_toNat _ (by omega)]
      omega

theorem parse_uint_toDigits (n : Nat) : parse_uint (Nat.toDigits 10 n) = some n := by
  have h1 := toDigits_ne_nil n
  have h2 : (Nat.toDigits 10 n).all Char.isDigit = true :=
    List.all_eq_true.mpr (toDigits_all_digit n)
  simp [parse_uint, h1, h2, digits_value_toDigits]

theorem toDigits_length_lt_ten (n : Nat) (h : n < 10) : (Nat.toDigits 10 n).length = 1 := by
  rw [toDigits_lt_ten n h]; rfl

theorem toDigits_length_ge_ten (n : Nat) (h : 10 ≤ n) :
    (Nat.toDigits 10 n).length = (Nat.toDigits 10 (n / 10)).length + 1 := by
  rw [toDigits_ge_ten n h]; simp

theorem toDigits_length_pos (n : Nat) : 1 ≤ (Nat.toDigits 10 n).length := by
  rcases Nat.lt_or_ge n 10 with h | h
  · rw [toDigits_length_lt_ten n h]
  · rw [toDigits_length_ge_ten n h]; omega

theorem toDigits_length_mono (m : Nat) : ∀ n, n ≤ m →
    (Nat.toDigits 10 n).length ≤ (Nat.toDigits 10 m).length := by
  induction m using Nat.strong_induction_on with
  | _ m ih =>
    intro n hnm
    rcases Nat.lt_or_ge n 10 with h | h
    · rw [toDigits_length_lt_ten n h]; exact toDigits_length_pos m
    · rw [toDigits_length_ge_ten n h, toDigits_length_ge_ten m (by omega)]
      have := ih (m / 10) (by omega) (n / 10) (by omega)
      omega

theorem toDigits_length_le (n k : Nat) (hk : 0 < k) (h : n < 10 ^ k) :
    (Nat.toDigits 10 n).length ≤ k := by
  induction k generalizing n with
  | zero => omega
  | succ k ih =>
    rcases Nat.lt_or_ge n 10 with h10 | h10
    · rw [toDigits_length_lt_ten n h10]; omega
    · rw [toDigits_length_ge_ten n h10]
      have hk0 : 0 < k := by
        rcases Nat.eq_zero_or_pos k with h0 | h0
        · subst h0; simp at h; omega
        · exact h0
      have : n / 10 < 10 ^ k := by
        rw [Nat.div_lt_iff_lt_mul (by decide)]
        rw [pow_succ] at h; exact h
      have := ih (n / 10) hk0 this
      omega

theorem get_int_print_len_loop_eq (fuel : Nat) : ∀ (n res : Nat), n ≤ fuel →
    get_int_print_len_loop fuel (n : Int) res = res + (Nat.toDigits 10 n).length - 1 := by
  induction fuel with
  | zero =>
    intro n res h
    have : n = 0 := by omega
    subst this
    simp [get_int_print_len_loop, toDigits_length_lt_ten 0 (by decide)]
  | succ f ih =>
    intro n res h
    rcases Nat.lt_or_ge n 10 with h10 | h10
    · have : ¬ ((n : Int) ≥ 10) := by omega
      simp [get_int_print_len_loop, this, toDigits_length_lt_ten n h10]
    · have h1 : ((n : Int) ≥ 10) := by omega
      have h2 : Int.tdiv (n : Int) 10 = ((n / 10 : Nat) : Int) := by
        rw [Int.tdiv_eq_ediv (by omega) (by decide)]; simp
      simp only [get_int_print_len_loop, h1, if_true, h2]
      rw [ih (n / 10) (res + 1) (by omega), toDigits_length_ge_ten n h10]
      omega

theorem get_int_print_len_nat (n : Nat) :
    m3u8_builder_get_int_print_len (n : Int) = (Nat.toDigits 10 n).length := by
  unfold m3u8_builder_get_int_print_len
  rw [Int.toNat_ofNat, get_int_print_len_loop_eq n n 1 (le_refl n)]
  omega

theorem get_int_print_len_neg (n : Int) (h : n < 0) : m3u8_builder_get_int_print_len n = 1 := by
  unfold m3u8_builder_get_int_print_len
  have : n.toNat = 0 := by omega
  rw [this]; rfl

theorem to_int_small (u : Nat) (h : u < 2147483648) : to_int u = (u : Int) := by
  unfold to_int UINT32_SIZE
  have : u % 4294967296 = u := Nat.mod_eq_of_lt (by omega)
  rw [this]; simp [h]

theorem pad_digits_length (k : Nat) : ∀ f, (pad_digits k f).length = k := by
  induction k with
  | zero => intro f; rfl
  | succ k ih => intro f; simp [pad_digits, ih]

theorem pad_digits_all_digit (k : Nat) : ∀ f, ∀ c ∈ pad_digits k f, c.isDigit = true := by
  induction k with
  | zero => intro f c hc; simp [pad_digits] at hc
  | succ k ih =>
    intro f c hc
    simp only [pad_digits, List.mem_cons] at hc
    rcases hc with hc | hc
    · subst hc; exact digitChar_isDigit _ (Nat.mod_lt _ (by decide))
    · exact ih _ c hc

theorem format_double_loop_pow (k : Nat) : ∀ (fuel f : Nat), k < fuel → k ≤ 9 → f < 10 ^ k →
    format_double_loop fuel (10 ^ k) f = pad_digits k f := by
  induction k with
  | zero =>
    intro fuel f hfuel _ _
    obtain ⟨g, rfl⟩ : ∃ g, fuel = g + 1 := ⟨fuel - 1, by omega⟩
    simp [format_double_loop, pad_digits]
  | succ k ih =>
    intro fuel f hfuel hk hf
    obtain ⟨g, rfl⟩ : ∃ g, fuel = g + 1 := ⟨fuel - 1, by omega⟩
    have hpos : 0 < 10 ^ k := Nat.pow_pos (by decide)
    have hdiv : 10 ^ (k + 1) / 10 = 10 ^ k := by
      rw [pow_succ]; exact Nat.mul_div_cancel _ (by decide)
    have hne : 10 ^ k ≠ 0 := by omega
    have hle : 10 ^ k ≤ 10 ^ 8 := Nat.pow_le_pow_right (by decide) (by omega)
    have hcur : f / 10 ^ k < 10 := by
      rw [Nat.div_lt_iff_lt_mul hpos]
      rw [pow_succ] at hf; omega
    have hmul : f / 10 ^ k * 10 ^ k ≤ f := Nat.div_mul_le_self f (10 ^ k)
    have hf32 : f < 4294967296 := by
      have : 10 ^ (k + 1) ≤ 10 ^ 9 := Nat.pow_le_pow_right (by decide) hk
      omega
    have hmod : f % 10 ^ k = f - f / 10 ^ k * 10 ^ k := by
      have := Nat.div_add_mod f (10 ^ k)
      rw [Nat.mul_comm] at this
      omega
    have hfrac : (f + UINT32_SIZE - (f / 10 ^ k * 10 ^ k) % UINT32_SIZE) % UINT32_SIZE
        = f % 10 ^ k := by
      unfold UINT32_SIZE
      rw [Nat.mod_eq_of_lt (by omega : f / 10 ^ k * 10 ^ k < 4294967296), hmod]
      omega
    simp only [format_double_loop, hdiv, hne, if_false, hfrac, pad_digits]
    rw [u_char_digit _ hcur, Nat.mod_eq_of_lt hcur,
      ih g (f % 10 ^ k) (by omega) (by omega) (Nat.mod_lt _ hpos)]

theorem vod_sprintf_d_nat (n : Nat) : vod_sprintf_d (n : Int) = Nat.toDigits 10 n := by
  unfold vod_sprintf_d
  have : ¬ ((n : Int) < 0) := by omega
  simp [this]

theorem format_double_pow (n k : Nat) (hk : k ≤ 9) (hq : n / 10 ^ k < 2147483648) :
    m3u8_builder_format_double n (10 ^ k) =
      Nat.toDigits 10 (n / 10 ^ k) ++
        (if k = 0 then [] else '.' :: pad_digits k (n % 10 ^ k)) := by
  have hpos : 0 < 10 ^ k := Nat.pow_pos (by decide)
  unfold m3u8_builder_format_double
  simp only [to_int_small _ hq, vod_sprintf_d_nat]
  rcases Nat.eq_zero_or_pos k with h0 | h0
  · subst h0; simp
  · have h1 : 10 ^ k ≠ 1 := by
      have : 10 ^ 1 ≤ 10 ^ k := Nat.pow_le_pow_right (by decide) h0
      omega
    have hk0 : k ≠ 0 := by omega
    have hlt : k < 10 ^ k + 1 := by
      have := Nat.lt_pow_self (by decide : 1 < 10) k
      omega
    simp only [h1, hk0, if_false]
    rw [format_double_loop_pow k _ _ hlt hk (Nat.mod_lt _ hpos)]

theorem format_double_1000 (n : Nat) (hn : n < 4294967296) :
    m3u8_builder_format_double n 1000 =
      Nat.toDigits 10 (n / 1000) ++ '.' :: pad_digits 3 (n % 1000) := by
  have := format_double_pow n 3 (by decide) (by norm_num; omega)
  simpa using this

theorem append_extinf_tag_1000 (n : Nat) (hn : n < 4294967296) :
    m3u8_builder_append_extinf_tag n 1000 =
      "#EXTINF:".toList ++ Nat.toDigits 10 (n / 1000) ++ '.' :: pad_digits 3 (n % 1000) ++
        [',', '\n'] := by
  unfold m3u8_builder_append_extinf_tag
  rw [format_double_1000 n hn]
  simp

theorem append_extinf_tag_1000_length (n : Nat) (hn : n < 4294967296) :
    (m3u8_builder_append_extinf_tag n 1000).length =
      8 + (Nat.toDigits 10 (n / 1000)).length + 4 + 2 := by
  rw [append_extinf_tag_1000 n hn]
  simp [pad_digits_length]
  omega

theorem DIV_CEIL_zero (s : Nat) (hs : 0 < s) : DIV_CEIL 0 s = 0 := by
  unfold DIV_CEIL
  exact Nat.div_eq_of_lt (by omega)

theorem DIV_CEIL_lt (d s : Nat) (hd : 0 < d) (h : d < s) : DIV_CEIL d s = 1 := by
  unfold DIV_CEIL
  have : d + s - 1 = (d - 1) + s := by omega
  rw [this, Nat.add_div_right _ (by omega), Nat.div_eq_of_lt (by omega)]

theorem DIV_CEIL_ge (d s : Nat) (hs : 0 < s) (h : s ≤ d) :
    DIV_CEIL d s = DIV_CEIL (d - s) s + 1 := by
  unfold DIV_CEIL
  have : d + s - 1 = (d - s + s - 1) + s := by omega
  rw [this, Nat.add_div_right _ hs]

theorem div_ge (d s : Nat) (hs : 0 < s) (h : s ≤ d) : d / s = (d - s) / s + 1 := by
  have : d = (d - s) + s := by omega
  rw [this, Nat.add_div_right _ hs]; simp

theorem index_segment_tag_shift (conf : m3u8_config_t) (s d i : Nat) (hs : 0 < s) (h : s ≤ d) :
    index_segment_tag conf s d (i + 1) = index_segment_tag conf s (d - s) i := by
  unfold index_segment_tag
  rw [div_ge d s hs h, Nat.mod_eq_sub_mod h]
  simp

theorem index_entries_zero (conf : m3u8_config_t) (base_url rt : Bytes) (s d idx : Nat) :
    index_entries conf base_url rt s d idx 0 = [] := by
  simp [index_entries]

theorem index_entries_succ (conf : m3u8_config_t) (base_url rt : Bytes) (s d idx c : Nat)
    (hs : 0 < s) (h : s ≤ d) :
    index_entries conf base_url rt s d idx (c + 1) =
      index_segment_tag conf s d 0 ++
        m3u8_builder_append_segment_name base_url conf.segment_file_name_prefix idx rt ++
        index_entries conf base_url rt s (d - s) (idx + 1) c := by
  unfold index_entries
  rw [List.range_succ_eq_map]
  simp only [List.map_cons, List.map_map, List.flatten_cons, Nat.add_zero, List.append_assoc]
  congr 3
  apply List.map_congr_left
  intro i _
  simp only [Function.comp, Nat.succ_eq_add_one, index_segment_tag_shift conf s d i hs h]
  congr 2
  omega

theorem index_playlist_loop_eq (conf : m3u8_config_t) (base_url rt : Bytes) (s : Nat)
    (hs : 0 < s) (fuel : Nat) : ∀ (d idx : Nat), d ≤ fuel →
    idx + DIV_CEIL d s < UINT32_SIZE →
    index_playlist_loop conf base_url rt s fuel d idx =
      some (index_entries conf base_url rt s d idx (DIV_CEIL d s)) := by
  induction fuel with
  | zero =>
    intro d idx hd _
    have : d = 0 := by omega
    subst this
    simp [index_playlist_loop, DIV_CEIL_zero s hs, index_entries_zero]
  | succ f ih =>
    intro d idx hd hidx
    rcases Nat.eq_zero_or_pos d with h0 | hpos
    · subst h0
      simp [index_playlist_loop, DIV_CEIL_zero s hs, index_entries_zero]
    · rcases Nat.lt_or_ge d s with hlt | hge
      · have hnot : ¬ (d ≥ s) := by omega
        have hz := ih 0 ((idx + 1) % UINT32_SIZE) (Nat.zero_le _)
          (by rw [DIV_CEIL_zero s hs]; exact Nat.mod_lt _ (by decide))
        rw [DIV_CEIL_zero s hs, index_entries_zero] at hz
        simp only [index_playlist_loop, hpos, if_true, hnot, if_false, hz, DIV_CEIL_lt d s hpos hlt]
        simp [index_entries, index_segment_tag, Nat.div_eq_of_lt hlt, Nat.mod_eq_of_lt hlt,
          List.range_succ]
      · have hc := DIV_CEIL_ge d s hs hge
        have hmod : (idx + 1) % UINT32_SIZE = idx + 1 := Nat.mod_eq_of_lt (by omega)
        have hr := ih (d - s) (idx + 1) (by omega) (by omega)
        have hge2 : d ≥ s := hge
        simp only [index_playlist_loop, hpos, if_true, hge2, hmod, hr, hc]
        rw [index_entries_succ conf base_url rt s d idx _ hs hge]
        simp [index_segment_tag, div_ge d s hs hge]

theorem required_tracks_ok (pool pool2 : vod_pool_t) (inc : Bool) (m : mpeg_metadata_t)
    (rt0 rt : vod_str_t)
    (h : m3u8_builder_build_required_tracks_string pool inc m rt0 = some (VOD_OK, rt, pool2)) :
    pool = true :: pool2 ∧ ∃ p : Bytes, rt = { len := p.length, data := some p } := by
  unfold m3u8_builder_build_required_tracks_string at h
  dsimp only at h
  generalize (if inc = true then
    Option.map (fun s => s.file_info.file_index) m.streams.head? else some 0) = ofi at h
  cases ofi with
  | none => simp at h
  | some fi =>
    cases pool with
    | nil => simp [vod_alloc] at h
    | cons b rest =>
      cases b with
      | false => simp [vod_alloc] at h
      | true =>
        simp only [vod_alloc] at h
        split at h
        · simp at h
        · simp only [Option.some.injEq, Prod.mk.injEq, true_and] at h
          exact ⟨by rw [h.2], _, h.1.symm⟩

theorem vod_str_bytes_mk (p : Bytes) : vod_str_bytes { len := p.length, data := some p } = p := by
  simp [vod_str_bytes, vod_copy]

theorem build_index_playlist_granted (pool rest : vod_pool_t) (conf : m3u8_config_t)
    (base_url : Bytes) (inc : Bool) (s : Nat) (m : mpeg_metadata_t) (result rt : vod_str_t)
    (hs : 0 < s) (hd : m.duration_millis < UINT32_SIZE)
    (hc : DIV_CEIL m.duration_millis s ≤ MAX_SEGMENT_COUNT)
    (hrt : m3u8_builder_build_required_tracks_string pool inc m { len := 0, data := none }
      = some (VOD_OK, rt, true :: rest)) :
    m3u8_builder_build_index_playlist pool conf base_url inc s m result =
      some (
        if (index_playlist_text conf base_url (vod_str_bytes rt) s m.duration_millis
            (DIV_CEIL m.duration_millis s)).length >
          index_result_size conf base_url rt (DIV_CEIL m.duration_millis s)
        then VOD_UNEXPECTED else VOD_OK,
        { len := (index_playlist_text conf base_url (vod_str_bytes rt) s m.duration_millis
            (DIV_CEIL m.duration_millis s)).length,
          data := some (index_playlist_text conf base_url (vod_str_bytes rt) s m.duration_millis
            (DIV_CEIL m.duration_millis s)) }) := by
  have hmod : m.duration_millis % UINT32_SIZE = m.duration_millis := Nat.mod_eq_of_lt hd
  have hs0 : s ≠ 0 := by omega
  have hc2 : ¬ (DIV_CEIL m.duration_millis s > MAX_SEGMENT_COUNT) := by omega
  have hloop := index_playlist_loop_eq conf base_url (vod_str_bytes rt) s hs m.duration_millis
    m.duration_millis 1 (le_refl _) (by unfold MAX_SEGMENT_COUNT at hc; unfold UINT32_SIZE; omega)
  unfold m3u8_builder_build_index_playlist
  simp only [hrt, hmod, hs0, hc2, vod_alloc, hloop, index_playlist_text, if_false, ne_eq,
    not_true_eq_false]
  split <;> rfl

theorem build_index_playlist_denied (pool pool2 : vod_pool_t) (conf : m3u8_config_t)
    (base_url : Bytes) (inc : Bool) (s : Nat) (m : mpeg_metadata_t) (result rt : vod_str_t)
    (hs : 0 < s) (hd : m.duration_millis < UINT32_SIZE)
    (hc : DIV_CEIL m.duration_millis s ≤ MAX_SEGMENT_COUNT)
    (hrt : m3u8_builder_build_required_tracks_string pool inc m { len := 0, data := none }
      = some (VOD_OK, rt, pool2))
    (hp : pool2 = [] ∨ ∃ rest, pool2 = false :: rest) :
    m3u8_builder_build_index_playlist pool conf base_url inc s m result =
      some (VOD_ALLOC_FAILED, { result with data := none }) := by
  have hmod : m.duration_millis % UINT32_SIZE = m.duration_millis := Nat.mod_eq_of_lt hd
  have hs0 : s ≠ 0 := by omega
  have hc2 : ¬ (DIV_CEIL m.duration_millis s > MAX_SEGMENT_COUNT) := by omega
  unfold m3u8_builder_build_index_playlist
  rcases hp with hp | ⟨rest, hp⟩ <;> subst hp <;>
    simp only [hrt, hmod, hs0, hc2, vod_alloc, if_false, ne_eq, not_true_eq_false]

theorem pad_digits_three (n : Nat) :
    pad_digits 3 (n % 1000) =
      [Nat.digitChar (n / 100 % 10), Nat.digitChar (n / 10 % 10), Nat.digitChar (n % 10)] := by
  have e1 : n % 1000 / 100 % 10 = n / 100 % 10 := by omega
  have e2 : n % 1000 % 100 / 10 % 10 = n / 10 % 10 := by omega
  have e3 : n % 1000 % 100 % 10 = n % 10 := by omega
  simp [pad_digits, e1, e2, e3]

theorem append_extinf_tag_millis (n : Nat) (hn : n < 4294967296) :
    m3u8_builder_append_extinf_tag n 1000 = "#EXTINF:".toList ++ millis_text n ++ ",\n".toList := by
  rw [append_extinf_tag_1000 n hn, pad_digits_three]
  simp [millis_text]

theorem append_segment_name_eq (base_url pre rt : Bytes) (n : Nat) (hn : n < UINT32_SIZE) :
    m3u8_builder_append_segment_name base_url pre n rt = segment_line base_url pre n rt := by
  simp [m3u8_builder_append_segment_name, segment_line, vod_sprintf_uD, Nat.mod_eq_of_lt hn]

theorem takeWhile_digits_append (xs rest : Bytes) (c : Char)
    (hxs : ∀ x ∈ xs, x.isDigit = true) (hc : c.isDigit = false) :
    (xs ++ c :: rest).takeWhile Char.isDigit = xs ∧
      (xs ++ c :: rest).dropWhile Char.isDigit = c :: rest := by
  induction xs with
  | nil => simp [List.takeWhile, List.dropWhile, hc]
  | cons x xs ih =>
    have hx : x.isDigit = true := hxs x (List.mem_cons_self _ _)
    have := ih (fun y hy => hxs y (List.mem_cons_of_mem _ hy))
    simp [List.takeWhile, List.dropWhile, hx, this]

theorem digits_value_three (n : Nat) :
    digits_value [Nat.digitChar (n / 100 % 10), Nat.digitChar (n / 10 % 10),
      Nat.digitChar (n % 10)] = n % 1000 := by
  have h1 := digitChar_toNat (n / 100 % 10) (Nat.mod_lt _ (by decide))
  have h2 := digitChar_toNat (n / 10 % 10) (Nat.mod_lt _ (by decide))
  have h3 := digitChar_toNat (n % 10) (Nat.mod_lt _ (by decide))
  simp only [digits_value, List.foldl, h1, h2, h3]
  omega

theorem declared_millis_extinf_tag (n : Nat) (hn : n < 4294967296) :
    declared_millis (m3u8_builder_append_extinf_tag n 1000) = some n := by
  rw [append_extinf_tag_millis n hn]
  have htw := takeWhile_digits_append (Nat.toDigits 10 (n / 1000))
    ([Nat.digitChar (n / 100 % 10), Nat.digitChar (n / 10 % 10), Nat.digitChar (n % 10)] ++
      ",\n".toList) '.' (toDigits_all_digit _) (by decide)
  have hpre : ("#EXTINF:".toList ++ millis_text n ++ ",\n".toList).take 8 = "#EXTINF:".toList := by
    simp [List.take_append_eq_append_take]
  have hdrop : ("#EXTINF:".toList ++ millis_text n ++ ",\n".toList).drop 8 =
      Nat.toDigits 10 (n / 1000) ++ '.' ::
        ([Nat.digitChar (n / 100 % 10), Nat.digitChar (n / 10 % 10), Nat.digitChar (n % 10)] ++
          ",\n".toList) := by
    simp [millis_text, List.drop_append_eq_append_drop]
  have d1 := digitChar_isDigit (n / 100 % 10) (Nat.mod_lt _ (by decide))
  have d2 := digitChar_isDigit (n / 10 % 10) (Nat.mod_lt _ (by decide))
  have d3 := digitChar_isDigit (n % 10) (Nat.mod_lt _ (by decide))
  unfold declared_millis
  rw [if_pos hpre, hdrop]
  simp only [htw.1, htw.2]
  simp only [List.cons_append, List.nil_append, String.toList, toDigits_ne_nil, ne_eq,
    not_false_eq_true, d1, d2, d3, and_self, if_true, digits_value_toDigits, digits_value_three]
  congr 1
  omega

theorem init_config_version (formats : m3u8_formats_t) (conf0 : m3u8_config_t) (s : Nat)
    (key : Option Bytes) : (m3u8_builder_init_config formats conf0 s key).m3u8_version = 3 := rfl

theorem init_config_segment_name (formats : m3u8_formats_t) (conf0 : m3u8_config_t) (s : Nat)
    (key : Option Bytes) :
    ( m3u8_config_t.segment_file_name_prefix (m3u8_builder_init_config formats conf0 s key)) =
      conf0.segment_file_name_prefix := rfl

theorem init_config_extinf_len (formats : m3u8_formats_t) (conf0 : m3u8_config_t) (s : Nat)
    (key : Option Bytes) :
    (m3u8_builder_init_config formats conf0 s key).m3u8_extinf_len =
      (m3u8_builder_append_extinf_tag s 1000).length := by
  simp [m3u8_builder_init_config]

theorem init_config_extinf (formats : m3u8_formats_t) (conf0 : m3u8_config_t) (s : Nat)
    (key : Option Bytes) :
    vod_copy (m3u8_builder_init_config formats conf0 s key).m3u8_extinf
      (m3u8_builder_init_config formats conf0 s key).m3u8_extinf_len =
      m3u8_builder_append_extinf_tag s 1000 := by
  simp [m3u8_builder_init_config, vod_copy, write_array]

theorem init_config_header_len (formats : m3u8_formats_t) (conf0 : m3u8_config_t) (s : Nat)
    (key : Option Bytes) :
    (m3u8_builder_init_config formats conf0 s key).m3u8_header_len =
      (formats.m3u8_header_text ((s + 500) % UINT32_SIZE / 1000) key 3).length := by
  simp [m3u8_builder_init_config]

theorem init_config_header (formats : m3u8_formats_t) (conf0 : m3u8_config_t) (s : Nat)
    (key : Option Bytes) :
    vod_copy (m3u8_builder_init_config formats conf0 s key).m3u8_header
      (m3u8_builder_init_config formats conf0 s key).m3u8_header_len =
      formats.m3u8_header_text ((s + 500) % UINT32_SIZE / 1000) key 3 := by
  simp [m3u8_builder_init_config, vod_copy, write_array]

theorem index_segment_tag_init (formats : m3u8_formats_t) (conf0 : m3u8_config_t) (s d i : Nat)
    (key : Option Bytes) :
    index_segment_tag (m3u8_builder_init_config formats conf0 s key) s d i =
      m3u8_builder_append_extinf_tag (segment_millis s d i) 1000 := by
  unfold index_segment_tag segment_millis
  rw [init_config_extinf, init_config_version]
  split <;> simp

theorem segment_millis_le (s d i : Nat) (hs : 0 < s) : segment_millis s d i ≤ s := by
  unfold segment_millis
  split
  · exact le_refl _
  · exact Nat.le_of_lt (Nat.mod_lt _ hs)

theorem DIV_CEIL_eq (d s : Nat) (hs : 0 < s) :
    DIV_CEIL d s = d / s + (if d % s = 0 then 0 else 1) := by
  unfold DIV_CEIL
  have hdm := Nat.div_add_mod d s
  split
  · rename_i h0
    have e : d + s - 1 = (s - 1) + s * (d / s) := by rw [h0] at hdm; omega
    rw [e, Nat.add_mul_div_left _ _ hs, Nat.div_eq_of_lt (by omega)]
    omega
  · rename_i h0
    have e : d + s - 1 = (d % s - 1) + s * (d / s + 1) := by
      rw [Nat.mul_add]; omega
    have hlt : d % s < s := Nat.mod_lt _ hs
    rw [e, Nat.add_mul_div_left _ _ hs, Nat.div_eq_of_lt (by omega)]
    omega

theorem sum_segment_millis_aux (s q r : Nat) : ∀ c, q ≤ c →
    ((List.range c).map (fun i => if i < q then s else r)).sum = q * s + (c - q) * r := by
  intro c
  induction c with
  | zero => intro h; have : q = 0 := by omega
            subst this; simp
  | succ c ih =>
    intro h
    rw [List.range_succ, List.map_append, List.sum_append]
    rcases Nat.lt_or_ge c q with hlt | hge
    · have hq : q = c + 1 := by omega
      subst hq
      have : ((List.range c).map (fun i => if i < c + 1 then s else r)).sum = c * s := by
        have h2 : (List.range c).map (fun i => if i < c + 1 then s else r) =
            (List.range c).map (fun _ => s) := by
          apply List.map_congr_left
          intro i hi
          have := List.mem_range.mp hi
          simp; omega
        rw [h2]; simp
      rw [this]; simp; ring
    · rw [ih hge]
      have : ¬ (c < q) := by omega
      simp only [List.map_cons, List.map_nil, List.sum_cons, List.sum_nil, this, if_false]
      have e : c + 1 - q = (c - q) + 1 := by omega
      rw [e]; ring

theorem sum_segment_millis (s d : Nat) (hs : 0 < s) :
    ((List.range (DIV_CEIL d s)).map (segment_millis s d)).sum = d := by
  have h := sum_segment_millis_aux s (d / s) (d % s) (DIV_CEIL d s)
    (by rw [DIV_CEIL_eq d s hs]; omega)
  unfold segment_millis
  rw [h, DIV_CEIL_eq d s hs]
  have hdm := Nat.div_add_mod d s
  rw [Nat.mul_comm] at hdm
  split
  · rename_i h0; simp [h0] at hdm ⊢; omega
  · simp; omega

theorem flatten_map_range_length_le (f : Nat → Bytes) (B : Nat) : ∀ c,
    (∀ i, i < c → (f i).length ≤ B) → ((List.range c).map f).flatten.length ≤ c * B := by
  intro c
  induction c with
  | zero => intro _; simp
  | succ c ih =>
    intro h
    rw [List.range_succ, List.map_append, List.flatten_append, List.length_append]
    have h1 := ih (fun i hi => h i (by omega))
    have h2 := h c (by omega)
    simp only [List.map_cons, List.map_nil, List.flatten_cons, List.flatten_nil,
      List.append_nil]
    rw [Nat.succ_mul]
    omega

theorem append_segment_name_length (base_url pre rt : Bytes) (n : Nat) :
    (m3u8_builder_append_segment_name base_url pre n rt).length =
      base_url.length + pre.length + 1 + (vod_sprintf_uD n).length + rt.length + 4 := by
  simp [m3u8_builder_append_segment_name]
  omega

theorem extinf_tag_length_mono (a b : Nat) (hab : a ≤ b) (hb : b < 4294967296) :
    (m3u8_builder_append_extinf_tag a 1000).length ≤
      (m3u8_builder_append_extinf_tag b 1000).length := by
  rw [append_extinf_tag_1000_length a (by omega), append_extinf_tag_1000_length b hb]
  have := toDigits_length_mono (b / 1000) (a / 1000) (Nat.div_le_div_right hab)
  omega

theorem index_text_length_le (formats : m3u8_formats_t) (conf0 : m3u8_config_t)
    (key : Option Bytes) (base_url p : Bytes) (s d : Nat) (hs : 0 < s) (hs32 : s < UINT32_SIZE)
    (hc : DIV_CEIL d s ≤ MAX_SEGMENT_COUNT) :
    (index_playlist_text (m3u8_builder_init_config formats conf0 s key) base_url p s d
        (DIV_CEIL d s)).length <
      index_result_size (m3u8_builder_init_config formats conf0 s key) base_url
        { len := p.length, data := some p } (DIV_CEIL d s) := by
  unfold UINT32_SIZE at hs32
  unfold MAX_SEGMENT_COUNT at hc
  have hcount : to_int (DIV_CEIL d s) = ((DIV_CEIL d s : Nat) : Int) :=
    to_int_small _ (by omega)
  have hentries := flatten_map_range_length_le
    (fun i => index_segment_tag (m3u8_builder_init_config formats conf0 s key) s d i ++
      m3u8_builder_append_segment_name base_url
        ( m3u8_config_t.segment_file_name_prefix (m3u8_builder_init_config formats conf0 s key)) (1 + i) p)
    (index_segment_length (m3u8_builder_init_config formats conf0 s key) base_url
      { len := p.length, data := some p } (DIV_CEIL d s))
    (DIV_CEIL d s) (by
      intro i hi
      show (index_segment_tag (m3u8_builder_init_config formats conf0 s key) s d i ++
        m3u8_builder_append_segment_name base_url
          ( m3u8_config_t.segment_file_name_prefix (m3u8_builder_init_config formats conf0 s key)) (1 + i)
          p).length ≤ _
      rw [index_segment_tag_init, List.length_append, append_segment_name_length]
      unfold index_segment_length
      rw [init_config_extinf_len, hcount, get_int_print_len_nat]
      have h1 := extinf_tag_length_mono (segment_millis s d i) s (segment_millis_le s d i hs) hs32
      have h2 : (vod_sprintf_uD (1 + i)).length ≤ (Nat.toDigits 10 (DIV_CEIL d s)).length := by
        unfold vod_sprintf_uD UINT32_SIZE
        rw [Nat.mod_eq_of_lt (by omega)]
        exact toDigits_length_mono _ _ (by omega)
      simp only [String.length, String.toList] at *
      simp only [List.length_cons, List.length_nil]
      omega)
  unfold index_playlist_text index_result_size
  rw [init_config_header, init_config_header_len]
  simp only [List.length_append]
  unfold index_entries
  rw [Nat.mul_comm]
  have hf : m3u8_footer.length + 1 = sizeof_m3u8_footer := rfl
  omega

theorem index_playlist_text_eq (conf : m3u8_config_t) (base_url rt : Bytes) (s d c : Nat)
    (hc : c ≤ MAX_SEGMENT_COUNT) :
    index_playlist_text conf base_url rt s d c =
      vod_copy conf.m3u8_header conf.m3u8_header_len ++
        ((List.range c).map (fun i =>
          index_segment_tag conf s d i ++
            segment_line base_url conf.segment_file_name_prefix (i + 1) rt)).flatten ++
        m3u8_footer := by
  unfold index_playlist_text index_entries
  congr 3
  apply List.map_congr_left
  intro i hi
  have hi2 := List.mem_range.mp hi
  unfold MAX_SEGMENT_COUNT at hc
  rw [append_segment_name_eq _ _ _ _ (by unfold UINT32_SIZE; omega), Nat.add_comm 1 i]

/-- C1: for every 32-bit asset duration `d` and every segment duration `s > 0` with
`ceil(d / s) <= 10240`, once the required-tracks string is built and the buffer is
allocated, `m3u8_builder_build_index_playlist` returns, and the bytes it has written are
the header, then exactly `ceil(d / s)` entries, each one tag followed by one segment-name
line, the name lines carrying the indices 1, 2, ..., `ceil(d / s)` in that order, then the
footer; for `d = 0` there is no entry. The status is `VOD_OK` when this text fits the
computed `result_size`, which it does for a configuration initialised from `s`. -/
theorem index_playlist_emits_ceil_entries (pool rest : vod_pool_t) (conf : m3u8_config_t)
    (base_url : Bytes) (inc : Bool) (s : Nat) (m : mpeg_metadata_t) (result rt : vod_str_t)
    (hs : 0 < s) (hd : m.duration_millis < UINT32_SIZE)
    (hc : DIV_CEIL m.duration_millis s ≤ 10240)
    (hrt : m3u8_builder_build_required_tracks_string pool inc m { len := 0, data := none }
      = some (VOD_OK, rt, true :: rest)) :
    ∃ text : Bytes,
      m3u8_builder_build_index_playlist pool conf base_url inc s m result =
        some (
          if text.length > index_result_size conf base_url rt (DIV_CEIL m.duration_millis s)
          then VOD_UNEXPECTED else VOD_OK,
          { len := text.length, data := some text }) ∧
      text = vod_copy conf.m3u8_header conf.m3u8_header_len ++
        ((List.range (DIV_CEIL m.duration_millis s)).map (fun i =>
          index_segment_tag conf s m.duration_millis i ++
            segment_line base_url conf.segment_file_name_prefix (i + 1)
              (vod_str_bytes rt))).flatten ++
        m3u8_footer ∧
      (m.duration_millis = 0 →
        text = vod_copy conf.m3u8_header conf.m3u8_header_len ++ m3u8_footer) := by
  have hc2 : DIV_CEIL m.duration_millis s ≤ MAX_SEGMENT_COUNT := hc
  refine ⟨_, build_index_playlist_granted pool rest conf base_url inc s m result rt hs hd
    hc2 hrt, index_playlist_text_eq conf base_url _ s _ _ hc2, ?_⟩
  intro h0
  rw [index_playlist_text_eq conf base_url _ s _ _ hc2, h0, DIV_CEIL_zero s hs]
  simp

/-- The claim C2 fails as stated: with `d = 200000000` and `s = 10000` the segment count is
20000, above 10240, yet when the allocation of the required-tracks string fails the
builder returns `VOD_ALLOC_FAILED`, not `VOD_BAD_DATA`. -/
theorem index_playlist_bad_data_counterexample :
    10240 < DIV_CEIL 200000000 10000 ∧
    m3u8_builder_build_index_playlist [] (conf_of_prefixes [] []) [] false 10000
      (metadata_of [stream_of MEDIA_TYPE_VIDEO 0 0] 0 200000000) { len := 0, data := none } =
      some (VOD_ALLOC_FAILED, { len := 0, data := none }) := by
  decide

/-- C2 (amended): for every 32-bit duration `d` and every segment duration `s > 0` whose
segment count `DIV_CEIL(d, s)` exceeds 10240, `m3u8_builder_build_index_playlist` returns
`VOD_BAD_DATA` and leaves `result` untouched whenever the required-tracks string was built
(status `VOD_OK`); when that call fails, its status is returned instead. -/
theorem index_playlist_rejects_over_max_segment_count (pool : vod_pool_t)
    (conf : m3u8_config_t) (base_url : Bytes) (inc : Bool) (s : Nat) (m : mpeg_metadata_t)
    (result : vod_str_t)
    (hs : 0 < s) (hd : m.duration_millis < UINT32_SIZE)
    (hc : 10240 < DIV_CEIL m.duration_millis s) :
    (∀ rt pool2,
      m3u8_builder_build_required_tracks_string pool inc m { len := 0, data := none }
        = some (VOD_OK, rt, pool2) →
      m3u8_builder_build_index_playlist pool conf base_url inc s m result =
        some (VOD_BAD_DATA, result)) ∧
    (∀ rc rt pool2,
      m3u8_builder_build_required_tracks_string pool inc m { len := 0, data := none }
        = some (rc, rt, pool2) → rc ≠ VOD_OK →
      m3u8_builder_build_index_playlist pool conf base_url inc s m result =
        some (rc, result)) := by
  have hmod : m.duration_millis % UINT32_SIZE = m.duration_millis := Nat.mod_eq_of_lt hd
  have hs0 : s ≠ 0 := by omega
  have hc2 : DIV_CEIL m.duration_millis s > MAX_SEGMENT_COUNT := hc
  constructor
  · intro rt pool2 hrt
    unfold m3u8_builder_build_index_playlist
    simp only [hrt, hmod, hs0, hc2, if_true, if_false, ne_eq, not_true_eq_false]
  · intro rc rt pool2 hrt hrc
    unfold m3u8_builder_build_index_playlist
    simp only [hrt, hrc, if_true, ne_eq, not_false_eq_true]

theorem index_playlist_rejects_over_max_segment_count_witness :
    (0 < 10000 ∧ (200000000 : Nat) < UINT32_SIZE ∧ 10240 < DIV_CEIL 200000000 10000) ∧
    m3u8_builder_build_index_playlist [true, true] (conf_of_prefixes [] []) [] false 10000
      (metadata_of [stream_of MEDIA_TYPE_VIDEO 0 0] 0 200000000) { len := 7, data := none } =
      some (VOD_BAD_DATA, { len := 7, data := none }) :=
  ⟨by decide,
    (index_playlist_rejects_over_max_segment_count [true, true] (conf_of_prefixes [] []) []
      false 10000 (metadata_of [stream_of MEDIA_TYPE_VIDEO 0 0] 0 200000000)
      { len := 7, data := none } (by decide) (by decide) (by decide)).1
      { len := 3, data := some "-v1".toList } [true] (by decide)⟩

/-- Witness of C1: a 12.5 second asset cut in 10 second segments gives two entries. -/
theorem index_playlist_emits_ceil_entries_witness :
    (0 < 10000 ∧ sample_metadata.duration_millis < UINT32_SIZE ∧
      DIV_CEIL sample_metadata.duration_millis 10000 ≤ 10240 ∧
      m3u8_builder_build_required_tracks_string [true, true] false sample_metadata
        { len := 0, data := none } = some (VOD_OK, sample_required_tracks, [true])) ∧
    ∃ text : Bytes,
      m3u8_builder_build_index_playlist [true, true] sample_conf [] false 10000 sample_metadata
        { len := 0, data := none } =
        some (
          if text.length > index_result_size sample_conf [] sample_required_tracks
            (DIV_CEIL sample_metadata.duration_millis 10000)
          then VOD_UNEXPECTED else VOD_OK,
          { len := text.length, data := some text }) ∧
      text = vod_copy sample_conf.m3u8_header sample_conf.m3u8_header_len ++
        ((List.range (DIV_CEIL sample_metadata.duration_millis 10000)).map (fun i =>
          index_segment_tag sample_conf 10000 sample_metadata.duration_millis i ++
            segment_line [] sample_conf.segment_file_name_prefix (i + 1)
              (vod_str_bytes sample_required_tracks))).flatten ++
        m3u8_footer ∧
      (sample_metadata.duration_millis = 0 →
        text = vod_copy sample_conf.m3u8_header sample_conf.m3u8_header_len ++ m3u8_footer) :=
  ⟨by decide,
    index_playlist_emits_ceil_entries [true, true] [] sample_conf [] false 10000
      sample_metadata { len := 0, data := none } sample_required_tracks
      (by decide) (by decide) (by decide) (by decide)⟩

/-- C3 fails for a stream set whose only track has index 2147483647, with a configuration
produced by `m3u8_builder_init_config` from `s = 10000` and `ceil(d / s) = 2`: the digits of
`max_track_index + 1` are counted on an `int`, the required-tracks string is longer than the
length computed for it, and `m3u8_builder_build_index_playlist` returns `VOD_UNEXPECTED`. -/
theorem index_playlist_unexpected_at_int_overflow :
    sample_conf = m3u8_builder_init_config sample_formats
      (conf_of_prefixes "seg".toList "index".toList) 10000 none ∧
    DIV_CEIL 12500 10000 ≤ 10240 ∧
    m3u8_builder_build_index_playlist [true, true] sample_conf [] false 10000
      (metadata_of [stream_of MEDIA_TYPE_VIDEO 0 2147483647] 2147483647 12500)
      { len := 0, data := none } = some (VOD_UNEXPECTED, { len := 0, data := none }) := by
  decide

/-- The size bound of the index playlist: for every 32-bit duration `d` and segment
duration `s > 0` with `ceil(d / s) <= 10240`, every base URL, prefix and stream set, and a
configuration produced by `m3u8_builder_init_config` from the same `s`, once the
required-tracks string is built (status `VOD_OK`), `m3u8_builder_build_index_playlist`
returns `VOD_OK` or `VOD_ALLOC_FAILED`, and the number of bytes it writes is at most
`header_len + ceil(d/s) * (extinf_len + base_url.len + prefix.len + 1 + digits(ceil(d/s))
+ required_tracks.len + 4) + sizeof(footer)`. -/
theorem index_playlist_within_result_size (pool pool2 : vod_pool_t) (formats : m3u8_formats_t)
    (conf0 conf : m3u8_config_t) (key : Option Bytes) (base_url : Bytes) (inc : Bool) (s : Nat)
    (m : mpeg_metadata_t) (result rt : vod_str_t)
    (hconf : conf = m3u8_builder_init_config formats conf0 s key)
    (hs : 0 < s) (hs32 : s < UINT32_SIZE) (hd : m.duration_millis < UINT32_SIZE)
    (hc : DIV_CEIL m.duration_millis s ≤ 10240)
    (hrt : m3u8_builder_build_required_tracks_string pool inc m { len := 0, data := none }
      = some (VOD_OK, rt, pool2)) :
    ∃ (status : vod_status_t) (result2 : vod_str_t),
      m3u8_builder_build_index_playlist pool conf base_url inc s m result =
        some (status, result2) ∧
      (status = VOD_OK ∨ status = VOD_ALLOC_FAILED) ∧
      (status = VOD_OK → ∃ text : Bytes,
        result2 = { len := text.length, data := some text } ∧
        text.length ≤ conf.m3u8_header_len +
          DIV_CEIL m.duration_millis s *
            (conf.m3u8_extinf_len + base_url.length + conf.segment_file_name_prefix.length + 1 +
              m3u8_builder_get_int_print_len ((DIV_CEIL m.duration_millis s : Nat) : Int) +
              rt.len + 4) +
          sizeof_m3u8_footer) := by
  have hc2 : DIV_CEIL m.duration_millis s ≤ MAX_SEGMENT_COUNT := hc
  obtain ⟨_, p, hp⟩ := required_tracks_ok _ _ _ _ _ _ hrt
  subst hconf
  rcases pool2 with _ | ⟨b, rest⟩
  · exact ⟨_, _, build_index_playlist_denied pool [] _ base_url inc s m result rt hs hd hc2 hrt
      (Or.inl rfl), Or.inr rfl, fun h => absurd h (by decide)⟩
  · cases b with
    | false =>
      exact ⟨_, _, build_index_playlist_denied pool _ _ base_url inc s m result rt hs hd hc2
        hrt (Or.inr ⟨rest, rfl⟩), Or.inr rfl, fun h => absurd h (by decide)⟩
    | true =>
      have hlen := index_text_length_le formats conf0 key base_url p s m.duration_millis hs hs32
        hc2
      have hbuild := build_index_playlist_granted pool rest
        (m3u8_builder_init_config formats conf0 s key) base_url inc s m result rt hs hd hc2 hrt
      rw [hp, vod_str_bytes_mk] at hbuild
      rw [if_neg (by omega)] at hbuild
      refine ⟨_, _, hbuild, Or.inl rfl, fun _ => ⟨_, rfl, ?_⟩⟩
      have hsize : index_result_size (m3u8_builder_init_config formats conf0 s key) base_url
          { len := p.length, data := some p } (DIV_CEIL m.duration_millis s) =
          (m3u8_builder_init_config formats conf0 s key).m3u8_header_len +
          DIV_CEIL m.duration_millis s *
            ((m3u8_builder_init_config formats conf0 s key).m3u8_extinf_len + base_url.length +
              ( m3u8_config_t.segment_file_name_prefix
                (m3u8_builder_init_config formats conf0 s key)).length + 1 +
              m3u8_builder_get_int_print_len ((DIV_CEIL m.duration_millis s : Nat) : Int) +
              p.length + 4) +
          sizeof_m3u8_footer := by
        unfold index_result_size index_segment_length
        rw [to_int_small _ (by unfold MAX_SEGMENT_COUNT at hc2; omega), Nat.mul_comm]
        rfl
      rw [hp]
      rw [hsize] at hlen
      exact Nat.le_of_lt hlen

/-- The size bound of the index playlist on the sample asset, 12.5 seconds in segments of
10 seconds. -/
theorem index_playlist_within_result_size_witness :
    (sample_conf = m3u8_builder_init_config sample_formats
        (conf_of_prefixes "seg".toList "index".toList) 10000 none ∧
      0 < 10000 ∧ 10000 < UINT32_SIZE ∧ sample_metadata.duration_millis < UINT32_SIZE ∧
      DIV_CEIL sample_metadata.duration_millis 10000 ≤ 10240 ∧
      m3u8_builder_build_required_tracks_string [true, true] false sample_metadata
        { len := 0, data := none } = some (VOD_OK, sample_required_tracks, [true])) ∧
    ∃ (status : vod_status_t) (result2 : vod_str_t),
      m3u8_builder_build_index_playlist [true, true] sample_conf [] false 10000
        sample_metadata { len := 0, data := none } = some (status, result2) ∧
      (status = VOD_OK ∨ status = VOD_ALLOC_FAILED) ∧
      (status = VOD_OK → ∃ text : Bytes,
        result2 = { len := text.length, data := some text } ∧
        text.length ≤ sample_conf.m3u8_header_len +
          DIV_CEIL sample_metadata.duration_millis 10000 *
            (sample_conf.m3u8_extinf_len + ([] : Bytes).length +
              sample_conf.segment_file_name_prefix.length + 1 +
              m3u8_builder_get_int_print_len
                ((DIV_CEIL sample_metadata.duration_millis 10000 : Nat) : Int) +
              sample_required_tracks.len + 4) +
          sizeof_m3u8_footer) :=
  ⟨⟨rfl, by decide, by decide, by decide, by decide, by decide⟩,
    index_playlist_within_result_size [true, true] [true] sample_formats
      (conf_of_prefixes "seg".toList "index".toList) sample_conf none [] false 10000
      sample_metadata { len := 0, data := none } sample_required_tracks
      rfl (by decide) (by decide) (by decide) (by decide) (by decide)⟩

theorem build_index_playlist_init (pool rest : vod_pool_t) (formats : m3u8_formats_t)
    (conf0 : m3u8_config_t) (key : Option Bytes) (base_url : Bytes) (inc : Bool) (s : Nat)
    (m : mpeg_metadata_t) (result rt : vod_str_t)
    (hs : 0 < s) (hs32 : s < UINT32_SIZE) (hd : m.duration_millis < UINT32_SIZE)
    (hc : DIV_CEIL m.duration_millis s ≤ MAX_SEGMENT_COUNT)
    (hrt : m3u8_builder_build_required_tracks_string pool inc m { len := 0, data := none }
      = some (VOD_OK, rt, true :: rest)) :
    m3u8_builder_build_index_playlist pool (m3u8_builder_init_config formats conf0 s key)
        base_url inc s m result =
      some (VOD_OK,
        { len := (index_playlist_text (m3u8_builder_init_config formats conf0 s key) base_url
            (vod_str_bytes rt) s m.duration_millis (DIV_CEIL m.duration_millis s)).length,
          data := some (index_playlist_text (m3u8_builder_init_config formats conf0 s key)
            base_url (vod_str_bytes rt) s m.duration_millis
            (DIV_CEIL m.duration_millis s)) }) := by
  obtain ⟨_, p, hp⟩ := required_tracks_ok _ _ _ _ _ _ hrt
  have hlen := index_text_length_le formats conf0 key base_url p s m.duration_millis hs hs32 hc
  have hbuild := build_index_playlist_granted pool rest
    (m3u8_builder_init_config formats conf0 s key) base_url inc s m result rt hs hd hc hrt
  rw [hbuild, hp, vod_str_bytes_mk, if_neg (by omega)]

/-- C4: with a configuration initialised by `m3u8_builder_init_config` from the segment
duration `s` (its version is 3), for every duration `d` for which the playlist is built
(`s > 0`, `ceil(d / s) <= 10240`, required-tracks string and buffer obtained), the index
playlist is exactly the header, the entries and `#EXT-X-ENDLIST`: the tag of each full
segment is `#EXTINF:` followed by `s` in seconds with three fractional digits, a comma and
a line feed, the tag of the final partial segment carries `d mod s` in the same form, and
each tag is followed by its line `<base><prefix>-<n><required_tracks>.ts`. -/
theorem index_playlist_exact_text (pool rest : vod_pool_t) (formats : m3u8_formats_t)
    (conf0 conf : m3u8_config_t) (key : Option Bytes) (base_url : Bytes) (inc : Bool) (s : Nat)
    (m : mpeg_metadata_t) (result rt : vod_str_t)
    (hconf : conf = m3u8_builder_init_config formats conf0 s key)
    (hs : 0 < s) (hs32 : s < UINT32_SIZE) (hd : m.duration_millis < UINT32_SIZE)
    (hc : DIV_CEIL m.duration_millis s ≤ 10240)
    (hrt : m3u8_builder_build_required_tracks_string pool inc m { len := 0, data := none }
      = some (VOD_OK, rt, true :: rest)) :
    3 ≤ conf.m3u8_version ∧
    ∃ text : Bytes,
      m3u8_builder_build_index_playlist pool conf base_url inc s m result =
        some (VOD_OK, { len := text.length, data := some text }) ∧
      text = formats.m3u8_header_text ((s + 500) % UINT32_SIZE / 1000) key 3 ++
        ((List.range (DIV_CEIL m.duration_millis s)).map (fun i =>
          "#EXTINF:".toList ++
            millis_text (if i < m.duration_millis / s then s else m.duration_millis % s) ++
            ",\n".toList ++
            (base_url ++ conf0.segment_file_name_prefix ++ "-".toList ++
              Nat.toDigits 10 (i + 1) ++ vod_str_bytes rt ++ ".ts\n".toList))).flatten ++
        "#EXT-X-ENDLIST\n".toList := by
  have hc2 : DIV_CEIL m.duration_millis s ≤ MAX_SEGMENT_COUNT := hc
  subst hconf
  refine ⟨by rw [init_config_version], _, build_index_playlist_init pool rest formats conf0 key
    base_url inc s m result rt hs hs32 hd hc2 hrt, ?_⟩
  rw [index_playlist_text_eq _ _ _ _ _ _ hc2, init_config_header]
  congr 3
  apply List.map_congr_left
  intro i _
  have hlt : segment_millis s m.duration_millis i < 4294967296 := by
    have := segment_millis_le s m.duration_millis i hs
    unfold UINT32_SIZE at hs32; omega
  rw [index_segment_tag_init, append_extinf_tag_millis _ hlt]
  rfl

/-- Witness of C4, the scenario of the claim: `d = 12500` and `s = 10000` give exactly two
entries, `#EXTINF:10.000,` then `#EXTINF:2.500,`. -/
theorem index_playlist_exact_text_witness :
    (sample_conf = m3u8_builder_init_config sample_formats
        (conf_of_prefixes "seg".toList "index".toList) 10000 none ∧
      0 < 10000 ∧ 10000 < UINT32_SIZE ∧ sample_metadata.duration_millis < UINT32_SIZE ∧
      DIV_CEIL sample_metadata.duration_millis 10000 ≤ 10240 ∧
      m3u8_builder_build_required_tracks_string [true, true] false sample_metadata
        { len := 0, data := none } = some (VOD_OK, sample_required_tracks, [true])) ∧
    3 ≤ sample_conf.m3u8_version ∧
    ∃ text : Bytes,
      m3u8_builder_build_index_playlist [true, true] sample_conf "http://h/".toList false 10000
        sample_metadata { len := 0, data := none } =
        some (VOD_OK, { len := text.length, data := some text }) ∧
      text = ("#EXTM3U\n#EXT-X-TARGETDURATION:10\n#EXT-X-VERSION:3\n" ++
        "#EXTINF:10.000,\nhttp://h/seg-1-v1-a2.ts\n" ++
        "#EXTINF:2.500,\nhttp://h/seg-2-v1-a2.ts\n" ++
        "#EXT-X-ENDLIST\n").toList := by
  refine ⟨⟨rfl, by decide, by decide, by decide, by decide, by decide⟩, ?_⟩
  obtain ⟨hv, text, hb, ht⟩ := index_playlist_exact_text [true, true] [] sample_formats
    (conf_of_prefixes "seg".toList "index".toList) sample_conf none "http://h/".toList false
    10000 sample_metadata { len := 0, data := none } sample_required_tracks
    rfl (by decide) (by decide) (by decide) (by decide) (by decide)
  refine ⟨hv, text, hb, ?_⟩
  rw [ht]
  decide

theorem map_range_zipWith (g : Nat → Nat → Bytes) : ∀ (c a : Nat),
    (List.range' a c).map (fun i => g i (i + 1)) =
      List.zipWith g (List.range' a c) (List.range' (a + 1) c) := by
  intro c
  induction c with
  | zero => intro a; simp
  | succ c ih => intro a; simp [List.range', ih (a + 1)]

/-- Declared durations with millisecond tags: for every 32-bit duration `d` and segment
duration `s > 0` with `ceil(d / s) <= 10240`, and a configuration initialised from `s`
(version 3, millisecond precision), the index playlist consists of `ceil(d / s)` entries
whose EXTINF tags declare durations that add up to `d` exactly. -/
theorem declared_durations_sum_millis (pool rest : vod_pool_t)
    (formats : m3u8_formats_t) (conf0 conf : m3u8_config_t) (key : Option Bytes)
    (base_url : Bytes) (inc : Bool) (s : Nat) (m : mpeg_metadata_t) (result rt : vod_str_t)
    (hconf : conf = m3u8_builder_init_config formats conf0 s key)
    (hs : 0 < s) (hs32 : s < UINT32_SIZE) (hd : m.duration_millis < UINT32_SIZE)
    (hc : DIV_CEIL m.duration_millis s ≤ 10240)
    (hrt : m3u8_builder_build_required_tracks_string pool inc m { len := 0, data := none }
      = some (VOD_OK, rt, true :: rest)) :
    ∃ (tags : List Bytes) (millis : List Nat) (text : Bytes),
      m3u8_builder_build_index_playlist pool conf base_url inc s m result =
        some (VOD_OK, { len := text.length, data := some text }) ∧
      text = vod_copy conf.m3u8_header conf.m3u8_header_len ++
        (List.zipWith (fun tag n => tag ++
          segment_line base_url conf.segment_file_name_prefix n (vod_str_bytes rt))
          tags (List.range' 1 (DIV_CEIL m.duration_millis s))).flatten ++
        m3u8_footer ∧
      tags.length = DIV_CEIL m.duration_millis s ∧
      tags.map declared_millis = millis.map some ∧
      millis.sum = m.duration_millis ∧
      millis.sum ≤ m.duration_millis + 1 ∧ m.duration_millis ≤ millis.sum + 1 := by
  have hc2 : DIV_CEIL m.duration_millis s ≤ MAX_SEGMENT_COUNT := hc
  subst hconf
  have hsum := sum_segment_millis s m.duration_millis hs
  refine ⟨(List.range (DIV_CEIL m.duration_millis s)).map
      (index_segment_tag (m3u8_builder_init_config formats conf0 s key) s m.duration_millis),
    (List.range (DIV_CEIL m.duration_millis s)).map (segment_millis s m.duration_millis), _,
    build_index_playlist_init pool rest formats conf0 key base_url inc s m result rt hs hs32 hd
      hc2 hrt, ?_, by simp, ?_, hsum, by omega, by omega⟩
  · rw [index_playlist_text_eq _ _ _ _ _ _ hc2]
    congr 3
    rw [List.range_eq_range', List.zipWith_map_left]
    generalize DIV_CEIL m.duration_millis s = c
    generalize index_segment_tag (m3u8_builder_init_config formats conf0 s key) s
      m.duration_millis = f
    exact map_range_zipWith
      (fun a b => f a ++ segment_line base_url
        ( m3u8_config_t.segment_file_name_prefix (m3u8_builder_init_config formats conf0 s key))
        b (vod_str_bytes rt)) c 0
  · rw [List.map_map, List.map_map]
    apply List.map_congr_left
    intro i _
    have hlt : segment_millis s m.duration_millis i < 4294967296 := by
      have := segment_millis_le s m.duration_millis i hs
      unfold UINT32_SIZE at hs32; omega
    simp only [Function.comp, index_segment_tag_init, declared_millis_extinf_tag _ hlt]

/-- Outside the values the formatter is called with: at `n = 2147483648`, `scale = 1` the
quotient does not fit the `int` it is stored in, and `m3u8_builder_format_double` writes the
11 bytes `-2147483648`, whereas `n / scale` has 10 decimal digits. No call of the file passes
such a pair: the scale is 1000, or it is 1 with a number of whole seconds. -/
theorem format_double_length_at_int_overflow :
    m3u8_builder_format_double 2147483648 1 = "-2147483648".toList ∧
    (m3u8_builder_format_double 2147483648 1).length = 11 ∧
    (Nat.toDigits 10 (2147483648 / 1)).length = 10 ∧
    m3u8_builder_get_int_print_len (to_int (2147483648 / 1)) = 1 := by
  decide

/-- Outside the values the formatter is called with: at `n = 4294967295`, `scale = 1`,
`m3u8_builder_format_double` writes `-1`, which is not the decimal representation
`4294967295` of `n / scale`. No call of the file passes such a pair. -/
theorem format_double_text_at_int_overflow :
    m3u8_builder_format_double 4294967295 1 = "-1".toList ∧
    Nat.toDigits 10 (4294967295 / 1) = "4294967295".toList ∧
    parse_uint (m3u8_builder_format_double 4294967295 1) = none := by
  decide

/-- C8 fails for a stream set whose single video track has index 2147483647 (equal to
`max_track_index`, with `streams.nelts = 1`): the length computed before the allocation is
3, because `max_track_index + 1` is negative as an `int`, the string written is
`-v2147483648`, 12 bytes, and the encoder returns `VOD_UNEXPECTED` although the allocation
succeeded. -/
theorem required_tracks_length_at_int_overflow :
    (∀ s ∈ (metadata_of [stream_of MEDIA_TYPE_VIDEO 0 2147483647] 2147483647 0).streams,
      s.track_index ≤
        (metadata_of [stream_of MEDIA_TYPE_VIDEO 0 2147483647] 2147483647 0).max_track_index) ∧
    (metadata_of [stream_of MEDIA_TYPE_VIDEO 0 2147483647] 2147483647 0).streams_nelts =
      (metadata_of [stream_of MEDIA_TYPE_VIDEO 0 2147483647] 2147483647 0).streams.length ∧
    required_tracks_length false
      (metadata_of [stream_of MEDIA_TYPE_VIDEO 0 2147483647] 2147483647 0) 0 = 3 ∧
    m3u8_builder_build_required_tracks_string [true] false
      (metadata_of [stream_of MEDIA_TYPE_VIDEO 0 2147483647] 2147483647 0)
      { len := 0, data := none } =
      some (VOD_UNEXPECTED, { len := 12, data := some "-v2147483648".toList }, []) := by
  decide

/-- C9 fails for a track that is neither video nor audio: the `-` is written before the
switch on the media type, so such a track contributes one `-` to the string instead of
nothing; a set of an `other` track followed by video track 0 gives `--v1`. -/
theorem required_tracks_other_media_type_writes_dash :
    m3u8_builder_build_required_tracks_string [true] false
      (metadata_of [stream_of media_type_t.other 0 0] 0 0) { len := 0, data := none } =
      some (VOD_OK, { len := 1, data := some "-".toList }, []) ∧
    m3u8_builder_build_required_tracks_string [true] false
      (metadata_of [stream_of media_type_t.other 0 0, stream_of MEDIA_TYPE_VIDEO 0 0] 0 0)
      { len := 0, data := none } =
      some (VOD_OK, { len := 4, data := some "--v1".toList }, []) := by
  decide

theorem required_tracks_ok_bytes (pool pool2 : vod_pool_t) (inc : Bool) (m : mpeg_metadata_t)
    (rt0 rt : vod_str_t)
    (h : m3u8_builder_build_required_tracks_string pool inc m rt0 = some (VOD_OK, rt, pool2)) :
    ∃ fi : Nat,
      (if inc = true then m.streams.head?.map (fun s => s.file_info.file_index) else some 0)
        = some fi ∧
      rt = { len := (required_tracks_bytes inc m fi).length,
             data := some (required_tracks_bytes inc m fi) } ∧
      (required_tracks_bytes inc m fi).length ≤ required_tracks_length inc m fi := by
  unfold m3u8_builder_build_required_tracks_string at h
  dsimp only at h
  generalize (if inc = true then
    Option.map (fun s => s.file_info.file_index) m.streams.head? else some 0) = ofi at h
  cases ofi with
  | none => simp at h
  | some fi =>
    cases pool with
    | nil => simp [vod_alloc] at h
    | cons b rest =>
      cases b with
      | false => simp [vod_alloc] at h
      | true =>
        simp only [vod_alloc] at h
        split at h
        · simp at h
        · rename_i hle
          simp only [Option.some.injEq, Prod.mk.injEq, true_and] at h
          exact ⟨fi, rfl, h.1.symm, by omega⟩

theorem takeWhile_digits_all (xs : Bytes) (hxs : ∀ x ∈ xs, x.isDigit = true) :
    xs.takeWhile Char.isDigit = xs ∧ xs.dropWhile Char.isDigit = [] := by
  induction xs with
  | nil => simp
  | cons x xs ih =>
    have hx : x.isDigit = true := hxs x (List.mem_cons_self _ _)
    have := ih (fun y hy => hxs y (List.mem_cons_of_mem _ hy))
    simp [List.takeWhile, List.dropWhile, hx, this]

theorem required_tracks_loop_head (l : List mpeg_stream_metadata_t) :
    required_tracks_loop l = [] ∨ ∃ r, required_tracks_loop l = '-' :: r := by
  cases l with
  | nil => exact Or.inl rfl
  | cons s tl =>
    right
    unfold required_tracks_loop
    split <;> exact ⟨_, rfl⟩

theorem takeWhile_digits_before_loop (n : Nat) (l : List mpeg_stream_metadata_t) :
    (Nat.toDigits 10 n ++ required_tracks_loop l).takeWhile Char.isDigit = Nat.toDigits 10 n ∧
    (Nat.toDigits 10 n ++ required_tracks_loop l).dropWhile Char.isDigit =
      required_tracks_loop l := by
  rcases required_tracks_loop_head l with h | ⟨r, h⟩
  · rw [h, List.append_nil]
    exact takeWhile_digits_all _ (toDigits_all_digit n)
  · rw [h]
    exact takeWhile_digits_append _ r '-' (toDigits_all_digit n) (by decide)

theorem decode_index_toDigits (t : Nat) (ht : t < UINT32_SIZE) :
    decode_index (Nat.toDigits 10 ((t + 1) % UINT32_SIZE)) = t := by
  unfold decode_index
  rw [digits_value_toDigits]
  unfold UINT32_SIZE at *
  omega

theorem decode_tracks_loop (l : List mpeg_stream_metadata_t) : ∀ fuel : Nat,
    l.length ≤ fuel →
    (∀ s ∈ l, s.media_info.media_type = MEDIA_TYPE_VIDEO ∨
      s.media_info.media_type = MEDIA_TYPE_AUDIO) →
    (∀ s ∈ l, s.track_index < UINT32_SIZE) →
    decode_tracks fuel (required_tracks_loop l) =
      some (l.map (fun s => (s.media_info.media_type, s.track_index))) := by
  induction l with
  | nil => intro fuel _ _ _; cases fuel <;> rfl
  | cons s tl ih =>
    intro fuel hfuel hav h32
    obtain ⟨g, rfl⟩ : ∃ g, fuel = g + 1 := ⟨fuel - 1, by simp at hfuel; omega⟩
    have hrec := ih g (by simp at hfuel; omega)
      (fun x hx => hav x (List.mem_cons_of_mem _ hx))
      (fun x hx => h32 x (List.mem_cons_of_mem _ hx))
    have hs32 := h32 s (List.mem_cons_self _ _)
    have hmod : (s.track_index + 1) % UINT32_SIZE % UINT32_SIZE =
        (s.track_index + 1) % UINT32_SIZE := Nat.mod_mod _ _
    have htw := takeWhile_digits_before_loop ((s.track_index + 1) % UINT32_SIZE) tl
    have hidx := decode_index_toDigits s.track_index hs32
    rcases hav s (List.mem_cons_self _ _) with hv | ha
    · have hk : decode_kind 'v' = some MEDIA_TYPE_VIDEO := by decide
      simp only [required_tracks_loop, hv, vod_sprintf_uD, hmod, decode_tracks, List.append_eq,
        htw.1, htw.2, toDigits_ne_nil, ne_eq, not_false_eq_true, and_self, if_true, hrec, hidx,
        List.map_cons, hk]
    · have hk : decode_kind 'a' = some MEDIA_TYPE_AUDIO := by decide
      simp only [required_tracks_loop, ha, vod_sprintf_uD, hmod, decode_tracks, List.append_eq,
        htw.1, htw.2, toDigits_ne_nil, ne_eq, not_false_eq_true, and_self, if_true, hrec, hidx,
        List.map_cons, hk]

theorem required_tracks_loop_length_ge (l : List mpeg_stream_metadata_t) :
    l.length ≤ (required_tracks_loop l).length := by
  induction l with
  | nil => simp [required_tracks_loop]
  | cons s tl ih =>
    unfold required_tracks_loop
    split <;> simp <;> omega

theorem decode_required_tracks_bytes (m : mpeg_metadata_t) (fi : Nat)
    (hset : audio_video_set m)
    (hfi : m.streams.head?.map (fun s => s.file_info.file_index) = some fi) :
    decode_required_tracks (required_tracks_bytes true m fi) = track_tuple m ∧
      track_tuple m ≠ none := by
  cases hstreams : m.streams with
  | nil => rw [hstreams] at hfi; simp at hfi
  | cons first tl =>
    rw [hstreams] at hfi
    simp only [List.head?_cons, Option.map_some', Option.some.injEq] at hfi
    have hfi32 : fi < UINT32_SIZE := by
      rw [← hfi]
      exact (hset first (by rw [hstreams]; exact List.mem_cons_self _ _)).2.2
    have htw := takeWhile_digits_before_loop ((fi + 1) % UINT32_SIZE) (first :: tl)
    have hidx := decode_index_toDigits fi hfi32
    have hmod : (fi + 1) % UINT32_SIZE % UINT32_SIZE = (fi + 1) % UINT32_SIZE := Nat.mod_mod _ _
    have hloop := decode_tracks_loop (first :: tl)
      (Nat.toDigits 10 ((fi + 1) % UINT32_SIZE) ++ required_tracks_loop (first :: tl)).length
      (by
        have := required_tracks_loop_length_ge (first :: tl)
        rw [List.length_append]; omega)
      (fun s hs => (hset s (by rw [hstreams]; exact hs)).1)
      (fun s hs => (hset s (by rw [hstreams]; exact hs)).2.1)
    constructor
    · unfold required_tracks_bytes decode_required_tracks track_tuple
      simp only [hstreams, if_true, vod_sprintf_uD, hmod, List.cons_append, htw.1, htw.2,
        toDigits_ne_nil, ne_eq, not_false_eq_true, and_self, hloop, hidx, Option.map_some',
        List.head?_cons, hfi]
    · simp [track_tuple, hstreams]

/-- C10: the track-selection encoding is decodable. For every stream set made of video
and audio tracks (with 32-bit indices), encoded with the file index included, reading the
string produced by `m3u8_builder_build_required_tracks_string` gives back the file index
of the set and the media type and index of every track, in order; so two such stream sets
that yield the same string have the same tuple. -/
theorem required_tracks_decodable (pool1 pool2 pool3 pool4 : vod_pool_t)
    (m1 m2 : mpeg_metadata_t) (rt0 rt1 rt2 : vod_str_t)
    (hset1 : audio_video_set m1) (hset2 : audio_video_set m2)
    (h1 : m3u8_builder_build_required_tracks_string pool1 true m1 rt0 =
      some (VOD_OK, rt1, pool2))
    (h2 : m3u8_builder_build_required_tracks_string pool3 true m2 rt0 =
      some (VOD_OK, rt2, pool4)) :
    decode_required_tracks (vod_str_bytes rt1) = track_tuple m1 ∧
    track_tuple m1 ≠ none ∧
    (vod_str_bytes rt1 = vod_str_bytes rt2 → track_tuple m1 = track_tuple m2) := by
  obtain ⟨fi1, hfi1, hrt1, _⟩ := required_tracks_ok_bytes _ _ _ _ _ _ h1
  obtain ⟨fi2, hfi2, hrt2, _⟩ := required_tracks_ok_bytes _ _ _ _ _ _ h2
  simp only [if_true] at hfi1 hfi2
  have hd1 := decode_required_tracks_bytes m1 fi1 hset1 hfi1
  have hd2 := decode_required_tracks_bytes m2 fi2 hset2 hfi2
  rw [hrt1, hrt2, vod_str_bytes_mk, vod_str_bytes_mk]
  refine ⟨hd1.1, hd1.2, ?_⟩
  intro heq
  rw [← hd1.1, ← hd2.1, heq]

/-- Witness of C10: file 1 with video track 0 and audio track 1 gives `-f2-v1-a2`, like
the example of the specification; the second set is file 0 with one video track. -/
theorem required_tracks_decodable_witness :
    (audio_video_set
        (metadata_of [stream_of MEDIA_TYPE_VIDEO 1 0, stream_of MEDIA_TYPE_AUDIO 1 1] 1 0) ∧
      audio_video_set (metadata_of [stream_of MEDIA_TYPE_VIDEO 0 0] 0 0) ∧
      m3u8_builder_build_required_tracks_string [true] true
        (metadata_of [stream_of MEDIA_TYPE_VIDEO 1 0, stream_of MEDIA_TYPE_AUDIO 1 1] 1 0)
        { len := 0, data := none } =
        some (VOD_OK, { len := 9, data := some "-f2-v1-a2".toList }, []) ∧
      m3u8_builder_build_required_tracks_string [true] true
        (metadata_of [stream_of MEDIA_TYPE_VIDEO 0 0] 0 0) { len := 0, data := none } =
        some (VOD_OK, { len := 6, data := some "-f1-v1".toList }, [])) ∧
    decode_required_tracks (vod_str_bytes { len := 9, data := some "-f2-v1-a2".toList }) =
      track_tuple
        (metadata_of [stream_of MEDIA_TYPE_VIDEO 1 0, stream_of MEDIA_TYPE_AUDIO 1 1] 1 0) ∧
    track_tuple
        (metadata_of [stream_of MEDIA_TYPE_VIDEO 1 0, stream_of MEDIA_TYPE_AUDIO 1 1] 1 0) ≠
      none ∧
    (vod_str_bytes { len := 9, data := some "-f2-v1-a2".toList } =
        vod_str_bytes { len := 6, data := some "-f1-v1".toList } →
      track_tuple
        (metadata_of [stream_of MEDIA_TYPE_VIDEO 1 0, stream_of MEDIA_TYPE_AUDIO 1 1] 1 0) =
      track_tuple (metadata_of [stream_of MEDIA_TYPE_VIDEO 0 0] 0 0)) :=
  have hs1 : audio_video_set
      (metadata_of [stream_of MEDIA_TYPE_VIDEO 1 0, stream_of MEDIA_TYPE_AUDIO 1 1] 1 0) := by
    unfold audio_video_set; decide
  have hs2 : audio_video_set (metadata_of [stream_of MEDIA_TYPE_VIDEO 0 0] 0 0) := by
    unfold audio_video_set; decide
  ⟨⟨hs1, hs2, by decide, by decide⟩,
    required_tracks_decodable [true] [] [true] []
      (metadata_of [stream_of MEDIA_TYPE_VIDEO 1 0, stream_of MEDIA_TYPE_AUDIO 1 1] 1 0)
      (metadata_of [stream_of MEDIA_TYPE_VIDEO 0 0] 0 0) { len := 0, data := none }
      { len := 9, data := some "-f2-v1-a2".toList } { len := 6, data := some "-f1-v1".toList }
      hs1 hs2 (by decide) (by decide)⟩

theorem format_double_quotient_fits (n k : Nat) (hn : n < UINT32_SIZE)
    (hq : k ≠ 0 ∨ n < 2147483648) : n / 10 ^ k < 2147483648 := by
  unfold UINT32_SIZE at hn
  rcases hq with hq | hq
  · have h10 : 10 ^ 1 ≤ 10 ^ k := Nat.pow_le_pow_right (by decide) (by omega)
    have hle : n / 10 ^ k ≤ n / 10 ^ 1 := Nat.div_le_div_left h10 (by decide)
    have : n / 10 ^ 1 < 2147483648 := by omega
    omega
  · exact lt_of_le_of_lt (Nat.div_le_self _ _) hq

/-- The values `m3u8_builder_append_extinf_tag` passes on from its callers: a 32-bit
duration with scale 1000, or a 32-bit duration rounded to whole seconds with scale 1. The
quotient printed is at most 4294967 in both cases. -/
theorem extinf_tag_quotients (duration : Nat) :
    duration % UINT32_SIZE / 1000 ≤ 4294967 ∧
    (duration + 500) % UINT32_SIZE / 1000 / 1 ≤ 4294967 := by
  have h1 : duration % UINT32_SIZE < UINT32_SIZE := Nat.mod_lt _ (by decide)
  have h2 : (duration + 500) % UINT32_SIZE < UINT32_SIZE := Nat.mod_lt _ (by decide)
  unfold UINT32_SIZE at h1 h2 ⊢
  omega

/-- C6: for every 32-bit `n` and every power-of-ten scale `10 ^ k` of a `uint32_t` (`n`
non-negative as an `int`, that is below `2 ^ 31`, when the scale is 1), the number of bytes
`m3u8_builder_format_double` writes is the number of decimal digits of `n / scale`, plus 0
when the scale is 1 and plus `1 + k`, a point and `k` digits, otherwise; the number of
digits is also what `m3u8_builder_get_int_print_len` counts for the quotient. -/
theorem format_double_length (n k : Nat) (hn : n < UINT32_SIZE) (hk : k ≤ 9)
    (hq : k ≠ 0 ∨ n < 2147483648) :
    (m3u8_builder_format_double n (10 ^ k)).length =
      (Nat.toDigits 10 (n / 10 ^ k)).length + (if 10 ^ k = 1 then 0 else 1 + k) ∧
    m3u8_builder_get_int_print_len (to_int (n / 10 ^ k)) =
      (Nat.toDigits 10 (n / 10 ^ k)).length := by
  have hq := format_double_quotient_fits n k hn hq
  refine ⟨?_, by rw [to_int_small _ hq, get_int_print_len_nat]⟩
  rw [format_double_pow n k hk hq]
  rcases Nat.eq_zero_or_pos k with h0 | h0
  · subst h0; simp
  · have h1 : 10 ^ k ≠ 1 := by
      have : 10 ^ 1 ≤ 10 ^ k := Nat.pow_le_pow_right (by decide) h0
      omega
    have hk0 : k ≠ 0 := by omega
    simp [h1, hk0, pad_digits_length]
    omega

/-- Witness of C6: 12500 with scale 1000 is written `12.500`, two digits, a point and three
digits. -/
theorem format_double_length_witness :
    ((12500 : Nat) < UINT32_SIZE ∧ 3 ≤ 9 ∧ ((3 : Nat) ≠ 0 ∨ (12500 : Nat) < 2147483648)) ∧
    ((m3u8_builder_format_double 12500 (10 ^ 3)).length =
      (Nat.toDigits 10 (12500 / 10 ^ 3)).length + (if 10 ^ 3 = 1 then 0 else 1 + 3) ∧
    m3u8_builder_get_int_print_len (to_int (12500 / 10 ^ 3)) =
      (Nat.toDigits 10 (12500 / 10 ^ 3)).length) :=
  ⟨by decide, format_double_length 12500 3 (by decide) (by decide) (Or.inl (by decide))⟩

theorem digits_value_pad_digits (k : Nat) : ∀ f, f < 10 ^ k →
    ∀ acc, (pad_digits k f).foldl (fun a c => a * 10 + (c.toNat - 48)) acc = acc * 10 ^ k + f := by
  induction k with
  | zero => intro f hf acc; simp [pad_digits]; omega
  | succ k ih =>
    intro f hf acc
    have hpos : 0 < 10 ^ k := Nat.pow_pos (by decide)
    have hcur : f / 10 ^ k < 10 := by
      rw [Nat.div_lt_iff_lt_mul hpos]
      rw [pow_succ] at hf; omega
    simp only [pad_digits, List.foldl_cons, Nat.mod_eq_of_lt hcur, digitChar_toNat _ hcur]
    rw [ih (f % 10 ^ k) (Nat.mod_lt _ hpos)]
    have := Nat.div_add_mod f (10 ^ k)
    rw [pow_succ]
    nlinarith [this]

/-- C7: for every 32-bit `n` and every power-of-ten scale `10 ^ k` of a `uint32_t` (`n`
non-negative as an `int`, that is below `2 ^ 31`, when the scale is 1), the text written by
`m3u8_builder_format_double` reads back as the value: the characters before the point (the
whole output when the scale is 1) are the decimal representation of `n / scale`, and after
the point come exactly `k` characters, each a decimal digit, that read as the zero-padded
decimal representation of `n mod scale`. -/
theorem format_double_parse (n k : Nat) (hn : n < UINT32_SIZE) (hk : k ≤ 9)
    (hq : k ≠ 0 ∨ n < 2147483648) :
    ∃ whole fraction : Bytes,
      m3u8_builder_format_double n (10 ^ k) =
        whole ++ (if k = 0 then [] else '.' :: fraction) ∧
      whole = Nat.toDigits 10 (n / 10 ^ k) ∧ parse_uint whole = some (n / 10 ^ k) ∧
      fraction.length = k ∧ (∀ c ∈ fraction, c.isDigit = true) ∧
      fraction = pad_digits k (n % 10 ^ k) ∧
      digits_value fraction = n % 10 ^ k := by
  have hq := format_double_quotient_fits n k hn hq
  refine ⟨_, pad_digits k (n % 10 ^ k), format_double_pow n k hk hq, rfl,
    parse_uint_toDigits _, pad_digits_length k _, pad_digits_all_digit k _, rfl, ?_⟩
  have := digits_value_pad_digits k (n % 10 ^ k) (Nat.mod_lt _ (Nat.pow_pos (by decide))) 0
  simpa [digits_value] using this

/-- Witness of C7: 2050 with scale 1000 is written `2.050` and reads back as 2 and 50. -/
theorem format_double_parse_witness :
    ((2050 : Nat) < UINT32_SIZE ∧ 3 ≤ 9 ∧ ((3 : Nat) ≠ 0 ∨ (2050 : Nat) < 2147483648)) ∧
    m3u8_builder_format_double 2050 (10 ^ 3) = "2.050".toList ∧
    ∃ whole fraction : Bytes,
      m3u8_builder_format_double 2050 (10 ^ 3) =
        whole ++ (if 3 = 0 then [] else '.' :: fraction) ∧
      whole = Nat.toDigits 10 (2050 / 10 ^ 3) ∧ parse_uint whole = some (2050 / 10 ^ 3) ∧
      fraction.length = 3 ∧ (∀ c ∈ fraction, c.isDigit = true) ∧
      fraction = pad_digits 3 (2050 % 10 ^ 3) ∧
      digits_value fraction = 2050 % 10 ^ 3 :=
  ⟨by decide, by decide,
    format_double_parse 2050 3 (by decide) (by decide) (Or.inl (by decide))⟩

theorem required_tracks_loop_length_le (max : Nat) (hmax : max + 1 < 2147483648)
    (l : List mpeg_stream_metadata_t) (h : ∀ s ∈ l, s.track_index ≤ max) :
    (required_tracks_loop l).length ≤ l.length * (2 + (Nat.toDigits 10 (max + 1)).length) := by
  induction l with
  | nil => simp [required_tracks_loop]
  | cons s tl ih =>
    have hrec := ih (fun x hx => h x (List.mem_cons_of_mem _ hx))
    have hs := h s (List.mem_cons_self _ _)
    have hdig : (vod_sprintf_uD ((s.track_index + 1) % UINT32_SIZE)).length ≤
        (Nat.toDigits 10 (max + 1)).length := by
      unfold vod_sprintf_uD UINT32_SIZE
      rw [Nat.mod_mod, Nat.mod_eq_of_lt (by omega)]
      exact toDigits_length_mono _ _ (by omega)
    rw [List.length_cons, Nat.succ_mul]
    unfold required_tracks_loop
    split <;> simp only [List.length_cons, List.length_append] <;> omega

/-- The bound of `m3u8_builder_build_required_tracks_string` when no index reaches the
range where `index + 1` is negative as an `int`: for a stream set whose `max_track_index`
is at least every track index and whose `streams.nelts` counts the streams walked, the
string written is at most the computed length, and the encoder returns `VOD_OK` once the
allocation succeeds. -/
theorem required_tracks_within_length (pool : vod_pool_t) (inc : Bool) (m : mpeg_metadata_t)
    (rt0 : vod_str_t) (first : mpeg_stream_metadata_t) (tl : List mpeg_stream_metadata_t)
    (hstreams : m.streams = first :: tl)
    (hnelts : m.streams_nelts = m.streams.length)
    (hmax : ∀ s ∈ m.streams, s.track_index ≤ m.max_track_index)
    (hmax31 : m.max_track_index + 1 < 2147483648)
    (hfile31 : first.file_info.file_index + 1 < 2147483648) :
    (required_tracks_bytes inc m first.file_info.file_index).length ≤
      required_tracks_length inc m first.file_info.file_index ∧
    m3u8_builder_build_required_tracks_string (true :: pool) inc m rt0 =
      some (VOD_OK,
        { len := (required_tracks_bytes inc m first.file_info.file_index).length,
          data := some (required_tracks_bytes inc m first.file_info.file_index) }, pool) := by
  have hloop := required_tracks_loop_length_le m.max_track_index hmax31 m.streams hmax
  have hlen : (required_tracks_bytes inc m first.file_info.file_index).length ≤
      required_tracks_length inc m first.file_info.file_index := by
    unfold required_tracks_bytes required_tracks_length
    have e1 : (m.max_track_index + 1) % UINT32_SIZE = m.max_track_index + 1 :=
      Nat.mod_eq_of_lt (by unfold UINT32_SIZE; omega)
    have e2 : (first.file_info.file_index + 1) % UINT32_SIZE = first.file_info.file_index + 1 :=
      Nat.mod_eq_of_lt (by unfold UINT32_SIZE; omega)
    rw [e1, e2, to_int_small _ hmax31, to_int_small _ hfile31, get_int_print_len_nat,
      get_int_print_len_nat, hnelts]
    cases inc with
    | false => simpa using hloop
    | true =>
      simp only [if_true, List.length_append, List.length_cons, vod_sprintf_uD,
        Nat.mod_eq_of_lt (show first.file_info.file_index + 1 < UINT32_SIZE by
          unfold UINT32_SIZE; omega)]
      omega
  refine ⟨hlen, ?_⟩
  unfold m3u8_builder_build_required_tracks_string
  have hfi : (if inc = true then m.streams.head?.map (fun s => s.file_info.file_index)
      else some 0) = some (if inc = true then first.file_info.file_index else 0) := by
    cases inc <;> simp [hstreams]
  have hsame : ∀ x, required_tracks_bytes inc m (if inc = true then x else 0) =
      required_tracks_bytes inc m x ∧
      required_tracks_length inc m (if inc = true then x else 0) =
      required_tracks_length inc m x := by
    intro x
    cases inc <;> simp [required_tracks_bytes, required_tracks_length]
  dsimp only
  rw [hfi]
  simp only [vod_alloc, (hsame _).1, (hsame _).2]
  rw [if_neg (by omega)]

/-- The text of the required-tracks string for a stream set of video and audio tracks:
one field `-v<track_index + 1>` or `-a<track_index + 1>` per stream, in order. -/
theorem required_tracks_loop_audio_video (l : List mpeg_stream_metadata_t)
    (h : ∀ s ∈ l, s.media_info.media_type = MEDIA_TYPE_VIDEO ∨
      s.media_info.media_type = MEDIA_TYPE_AUDIO) :
    required_tracks_loop l =
      (l.map (fun s =>
        '-' :: (if s.media_info.media_type = MEDIA_TYPE_VIDEO then 'v' else 'a') ::
          Nat.toDigits 10 ((s.track_index + 1) % UINT32_SIZE))).flatten := by
  induction l with
  | nil => rfl
  | cons s tl ih =>
    have hrec := ih (fun x hx => h x (List.mem_cons_of_mem _ hx))
    rcases h s (List.mem_cons_self _ _) with hv | ha
    · simp [required_tracks_loop, hv, hrec, vod_sprintf_uD]
    · simp [required_tracks_loop, ha, hrec, vod_sprintf_uD]

/-- The bound on the iterations of the fraction loop is never reached: any bound above
`scale` gives the same bytes, the loop having stopped on `scale == 0`. -/
theorem format_double_loop_enough (fuel1 : Nat) : ∀ (fuel2 scale fraction : Nat),
    scale < fuel1 → scale < fuel2 →
    format_double_loop fuel1 scale fraction = format_double_loop fuel2 scale fraction := by
  induction fuel1 with
  | zero => intro _ _ _ h; omega
  | succ f ih =>
    intro fuel2 scale fraction h1 h2
    obtain ⟨g, rfl⟩ : ∃ g, fuel2 = g + 1 := ⟨fuel2 - 1, by omega⟩
    simp only [format_double_loop]
    split
    · rfl
    · rename_i hne
      rw [ih g (scale / 10) _ (by omega) (by omega)]

/-- The bound on the iterations of the digit-counting loop is never reached: any bound of
at least `n.toNat` gives the same count. -/
theorem get_int_print_len_loop_enough (fuel1 : Nat) : ∀ (fuel2 : Nat) (n : Int) (res : Nat),
    n.toNat ≤ fuel1 → n.toNat ≤ fuel2 →
    get_int_print_len_loop fuel1 n res = get_int_print_len_loop fuel2 n res := by
  induction fuel1 with
  | zero =>
    intro fuel2 n res h1 _
    have hn : ¬ (n ≥ 10) := by omega
    cases fuel2 <;> simp [get_int_print_len_loop, hn]
  | succ f ih =>
    intro fuel2 n res h1 h2
    rcases Int.lt_or_le n 10 with hlt | hge
    · have hn : ¬ (n ≥ 10) := by omega
      cases fuel2 <;> simp [get_int_print_len_loop, hn]
    · obtain ⟨g, rfl⟩ : ∃ g, fuel2 = g + 1 := ⟨fuel2 - 1, by omega⟩
      have hdiv : Int.tdiv n 10 = n / 10 := Int.tdiv_eq_ediv (by omega) (by decide)
      simp only [get_int_print_len_loop, ge_iff_le, hge, if_true]
      rw [ih g _ _ (by rw [hdiv]; omega) (by rw [hdiv]; omega)]

theorem vod_sprintf_uD_small (x : Nat) (h : x < UINT32_SIZE) :
    vod_sprintf_uD x = Nat.toDigits 10 x := by
  unfold vod_sprintf_uD
  rw [Nat.mod_eq_of_lt h]

theorem vod_sprintf_uD_length_le (x : Nat) : (vod_sprintf_uD x).length ≤ 10 := by
  unfold vod_sprintf_uD
  apply toDigits_length_le _ 10 (by decide)
  have h1 : x % UINT32_SIZE < UINT32_SIZE := Nat.mod_lt _ (by decide)
  have h2 : UINT32_SIZE < 10 ^ 10 := by unfold UINT32_SIZE; norm_num
  exact lt_trans h1 h2

theorem append_iframe_string_eq (base_url pre rt : Bytes) (e : iframe_event_t)
    (h : iframe_event_32bit e) :
    m3u8_builder_append_iframe_string base_url pre rt e = iframe_lines base_url pre rt e := by
  obtain ⟨h1, h2, h3, h4⟩ := h
  unfold m3u8_builder_append_iframe_string iframe_lines byte_range_tag
  rw [append_extinf_tag_millis _ (by unfold UINT32_SIZE at h2; exact h2),
    append_segment_name_eq _ _ _ _ h1, vod_sprintf_uD_small _ h3, vod_sprintf_uD_small _ h4]
  simp

theorem build_iframe_playlist_granted (limits : vod_limits_t) (muxer : hls_muxer_t)
    (pool rest : vod_pool_t) (conf : m3u8_config_t) (base_url : Bytes) (inc : Bool) (s : Nat)
    (m : mpeg_metadata_t) (result rt : vod_str_t)
    (hinit : muxer.init_rc = VOD_OK) (hsim : muxer.simulation_supported = true)
    (hs : 0 < s)
    (hrt : m3u8_builder_build_required_tracks_string pool inc m { len := 0, data := none }
      = some (VOD_OK, rt, true :: rest)) :
    m3u8_builder_build_iframe_playlist limits muxer pool conf base_url inc s m result =
      some (
        if (vod_copy conf.iframes_m3u8_header conf.iframes_m3u8_header_len ++
            (muxer.iframes.map (m3u8_builder_append_iframe_string base_url
              conf.segment_file_name_prefix (vod_str_bytes rt))).flatten ++
            m3u8_footer).length > iframe_result_size limits conf base_url rt s m
        then VOD_UNEXPECTED else VOD_OK,
        { len := (vod_copy conf.iframes_m3u8_header conf.iframes_m3u8_header_len ++
            (muxer.iframes.map (m3u8_builder_append_iframe_string base_url
              conf.segment_file_name_prefix (vod_str_bytes rt))).flatten ++
            m3u8_footer).length,
          data := some (vod_copy conf.iframes_m3u8_header conf.iframes_m3u8_header_len ++
            (muxer.iframes.map (m3u8_builder_append_iframe_string base_url
              conf.segment_file_name_prefix (vod_str_bytes rt))).flatten ++
            m3u8_footer) }) := by
  have hs0 : s ≠ 0 := by omega
  unfold m3u8_builder_build_iframe_playlist
  simp only [hinit, hsim, hrt, hs0, vod_alloc, if_false, ne_eq, not_true_eq_false,
    Bool.true_eq_false]
  split <;> rfl

/-- C11: `m3u8_builder_build_iframe_playlist` returns `VOD_BAD_REQUEST`, leaving `result`
untouched, whenever the muxer (initialised with `VOD_OK`) reports that simulation is not
supported. Otherwise, once the required-tracks string is built and the buffer allocated,
for every finite sequence of frame events with 32-bit arguments delivered by the
simulation, the text written is the header, then, in delivery order, one triple per event
(the EXTINF tag of the frame duration with three fractional digits, the line
`#EXT-X-BYTERANGE:<size>@<offset>` and the line
`<base><prefix>-<segment_index><required_tracks>.ts`), then the footer. -/
theorem iframe_playlist_triples (limits : vod_limits_t) (muxer : hls_muxer_t)
    (pool : vod_pool_t) (conf : m3u8_config_t) (base_url : Bytes) (inc : Bool) (s : Nat)
    (m : mpeg_metadata_t) (result : vod_str_t)
    (hinit : muxer.init_rc = VOD_OK) :
    (muxer.simulation_supported = false →
      m3u8_builder_build_iframe_playlist limits muxer pool conf base_url inc s m result =
        some (VOD_BAD_REQUEST, result)) ∧
    (muxer.simulation_supported = true → 0 < s →
      (∀ e ∈ muxer.iframes, iframe_event_32bit e) →
      ∀ (rt : vod_str_t) (rest : vod_pool_t),
        m3u8_builder_build_required_tracks_string pool inc m { len := 0, data := none }
          = some (VOD_OK, rt, true :: rest) →
        ∃ text : Bytes,
          m3u8_builder_build_iframe_playlist limits muxer pool conf base_url inc s m result =
            some (
              if text.length > iframe_result_size limits conf base_url rt s m
              then VOD_UNEXPECTED else VOD_OK,
              { len := text.length, data := some text }) ∧
          text = vod_copy conf.iframes_m3u8_header conf.iframes_m3u8_header_len ++
            (muxer.iframes.map (iframe_lines base_url conf.segment_file_name_prefix
              (vod_str_bytes rt))).flatten ++
            m3u8_footer) := by
  constructor
  · intro hsim
    unfold m3u8_builder_build_iframe_playlist
    simp [hinit, hsim]
  · intro hsim hs h32 rt rest hrt
    refine ⟨_, build_iframe_playlist_granted limits muxer pool rest conf base_url inc s m
      result rt hinit hsim hs hrt, ?_⟩
    congr 3
    apply List.map_congr_left
    intro e he
    exact append_iframe_string_eq _ _ _ e (h32 e he)

set_option maxRecDepth 8000 in
/-- Witness of C11: two key frames give two triples, in delivery order. -/
theorem iframe_playlist_triples_witness :
    sample_muxer.init_rc = VOD_OK ∧
    m3u8_builder_build_iframe_playlist sample_limits sample_muxer [true, true] sample_conf
      [] false 10000 sample_iframe_metadata
      { len := 0, data := none } =
      some (VOD_OK, { len := 161, data := some (
        "#EXTM3U\n#EXT-X-TARGETDURATION:10\n" ++
        "#EXTINF:2.000,\n#EXT-X-BYTERANGE:1316@564\nseg-1-v1-a2.ts\n" ++
        "#EXTINF:1.500,\n#EXT-X-BYTERANGE:940@90240\nseg-2-v1-a2.ts\n" ++
        "#EXT-X-ENDLIST\n").toList }) := by
  refine ⟨rfl, ?_⟩
  obtain ⟨text, hb, ht⟩ := (iframe_playlist_triples sample_limits sample_muxer [true, true]
    sample_conf [] false 10000 sample_iframe_metadata
    { len := 0, data := none } rfl).2 rfl (by decide)
    (by unfold iframe_event_32bit; decide) sample_required_tracks [] (by decide)
  rw [hb, ht]
  decide

theorem flatten_map_length_le {α : Type} (f : α → Bytes) (B : Nat) (l : List α)
    (h : ∀ e ∈ l, (f e).length ≤ B) : (l.map f).flatten.length ≤ l.length * B := by
  induction l with
  | nil => simp
  | cons e tl ih =>
    have h1 := h e (List.mem_cons_self _ _)
    have h2 := ih (fun x hx => h x (List.mem_cons_of_mem _ hx))
    simp only [List.map_cons, List.flatten_cons, List.length_append, List.length_cons]
    rw [Nat.succ_mul]
    omega

theorem DIV_CEIL_ge_div (d s : Nat) (hs : 0 < s) : d / s ≤ DIV_CEIL d s := by
  rw [DIV_CEIL_eq d s hs]; omega

theorem byte_range_tag_length (size start : Nat) :
    (byte_range_tag size start).length =
      17 + (vod_sprintf_uD size).length + 1 + (vod_sprintf_uD start).length + 1 := by
  simp [byte_range_tag]
  omega

theorem append_iframe_string_length_le (limits : vod_limits_t) (conf : m3u8_config_t)
    (base_url p : Bytes) (s : Nat) (m : mpeg_metadata_t) (e : iframe_event_t)
    (hd : m.duration_millis < UINT32_SIZE)
    (hcount : DIV_CEIL m.duration_millis s < 2147483648)
    (hint : 10 ≤ limits.VOD_INT32_LEN) (hmax : limits.MAX_FRAME_SIZE < 2147483648)
    (hdur : e.frame_duration ≤ m.duration_millis) (hsize : e.frame_size ≤ limits.MAX_FRAME_SIZE)
    (hidx : e.segment_index ≤ DIV_CEIL m.duration_millis s) :
    (m3u8_builder_append_iframe_string base_url conf.segment_file_name_prefix p e).length ≤
      iframe_length limits conf base_url { len := p.length, data := some p } s m := by
  have hU : UINT32_SIZE = 4294967296 := rfl
  rw [hU] at hd
  have hmod : m.duration_millis % UINT32_SIZE = m.duration_millis := by
    rw [hU]; exact Nat.mod_eq_of_lt hd
  have hsec : DIV_CEIL m.duration_millis 1000 < 2147483648 := by
    unfold DIV_CEIL; omega
  have h1 : (Nat.toDigits 10 (e.frame_duration / 1000)).length ≤
      (Nat.toDigits 10 (DIV_CEIL m.duration_millis 1000)).length :=
    toDigits_length_mono _ _ (le_trans (Nat.div_le_div_right hdur)
      (DIV_CEIL_ge_div _ 1000 (by decide)))
  have h2 : (vod_sprintf_uD e.frame_size).length ≤
      (Nat.toDigits 10 limits.MAX_FRAME_SIZE).length := by
    rw [vod_sprintf_uD_small _ (by rw [hU]; omega)]
    exact toDigits_length_mono _ _ hsize
  have h3 := vod_sprintf_uD_length_le e.frame_start
  have h4 : (vod_sprintf_uD e.segment_index).length ≤
      (Nat.toDigits 10 (DIV_CEIL m.duration_millis s)).length := by
    rw [vod_sprintf_uD_small _ (by rw [hU]; omega)]
    exact toDigits_length_mono _ _ hidx
  unfold m3u8_builder_append_iframe_string iframe_length
  simp only [hmod]
  rw [List.length_append, List.length_append,
    append_extinf_tag_1000_length _ (by omega), byte_range_tag_length,
    append_segment_name_length, to_int_small _ hsec, to_int_small _ hmax,
    to_int_small _ hcount, get_int_print_len_nat, get_int_print_len_nat, get_int_print_len_nat]
  have e1 : "#EXTINF:.000,\n".length = 14 := by decide
  have e2 : sizeof_byte_range_tag_format = 26 := by decide
  have e3 : "%uD%uD".length = 6 := by decide
  have e4 : ".ts\n".length = 4 := by decide
  rw [e1, e2, e3, e4]
  omega

theorem build_iframe_playlist_denied (limits : vod_limits_t) (muxer : hls_muxer_t)
    (pool pool2 : vod_pool_t) (conf : m3u8_config_t) (base_url : Bytes) (inc : Bool) (s : Nat)
    (m : mpeg_metadata_t) (result rt : vod_str_t)
    (hinit : muxer.init_rc = VOD_OK) (hsim : muxer.simulation_supported = true)
    (hs : 0 < s)
    (hrt : m3u8_builder_build_required_tracks_string pool inc m { len := 0, data := none }
      = some (VOD_OK, rt, pool2))
    (hp : pool2 = [] ∨ ∃ rest, pool2 = false :: rest) :
    m3u8_builder_build_iframe_playlist limits muxer pool conf base_url inc s m result =
      some (VOD_ALLOC_FAILED, { result with data := none }) := by
  have hs0 : s ≠ 0 := by omega
  unfold m3u8_builder_build_iframe_playlist
  rcases hp with hp | ⟨rest, hp⟩ <;> subst hp <;>
    simp only [hinit, hsim, hrt, hs0, vod_alloc, if_false, ne_eq, not_true_eq_false,
      Bool.true_eq_false]

set_option maxRecDepth 8000 in
/-- C12 fails where a digit count is taken on an `int`. For a stream set whose only track
has index 2147483647 the required-tracks string outgrows its length and the builder returns
`VOD_UNEXPECTED`, with no frame delivered. And with a duration of 3000000000 ms and a
segment duration of 1 ms the segment count is negative as an `int` and counts for one digit,
so the single frame of segment 3000000000 (with `VOD_INT32_LEN = 11` and a 10 MiB frame
bound), which meets every condition of the claim, is 79 bytes long against an
`iframe_length` of 72, and the builder's own check returns `VOD_UNEXPECTED`. -/
theorem iframe_playlist_unexpected_at_int_overflow :
    m3u8_builder_build_iframe_playlist sample_limits (muxer_of []) [true, true] sample_conf []
      false 10000
      (metadata_of [stream_of MEDIA_TYPE_VIDEO 0 2147483647] 2147483647 12500)
      { len := 0, data := none } = some (VOD_UNEXPECTED, { len := 0, data := none }) ∧
    ((muxer_of [late_frame]).iframes.length ≤
        (video_metadata_of 3000000000 1).video_key_frame_count ∧
      late_frame.frame_duration ≤ (video_metadata_of 3000000000 1).duration_millis ∧
      late_frame.frame_size ≤ sample_limits.MAX_FRAME_SIZE ∧
      late_frame.frame_start < UINT32_SIZE ∧
      late_frame.segment_index ≤ DIV_CEIL (video_metadata_of 3000000000 1).duration_millis 1 ∧
      (3000000000 : Nat) ≤ (video_metadata_of 3000000000 1).duration_millis ∧
      10485760 ≤ sample_limits.MAX_FRAME_SIZE ∧ (4294967295 : Nat) < UINT32_SIZE ∧
      3000000000 ≤ DIV_CEIL (video_metadata_of 3000000000 1).duration_millis 1 ∧
      iframe_length sample_limits sample_conf [] video_required_tracks 1
        (video_metadata_of 3000000000 1) = 72 ∧
      (m3u8_builder_append_iframe_string [] sample_conf.segment_file_name_prefix "-v1".toList
        late_frame).length = 79 ∧
      (m3u8_builder_build_iframe_playlist sample_limits
        (muxer_of [late_frame])
        [true, true] sample_conf [] false 1 (video_metadata_of 3000000000 1)
        { len := 0, data := none }).map Prod.fst = some VOD_UNEXPECTED) := by
  decide

/-- The size bound of the I-frame playlist where every digit count is taken on a value that
fits an `int`: when the muxer is initialised with `VOD_OK` and supports simulation, the
required-tracks string was built (`VOD_OK`), the segment count
`ceil(duration_millis / segment_duration)` is below `2 ^ 31`, and the simulation delivers
at most `video_key_frame_count` frame events, each with
`frame_duration <= duration_millis`, `frame_size <= MAX_FRAME_SIZE` and
`segment_index <= ceil(duration_millis / segment_duration)`: each appended triple is at
most `iframe_length` bytes long, the total written length is at most `result_size =
iframes_header_len + iframe_length * video_key_frame_count + sizeof(footer)`, and
`m3u8_builder_build_iframe_playlist` returns `VOD_OK` or `VOD_ALLOC_FAILED`.
(`VOD_INT32_LEN` holds the ten digits of a 32-bit value, and
`MAX_FRAME_SIZE` fits an `int`.) -/
theorem iframe_playlist_within_result_size (limits : vod_limits_t) (muxer : hls_muxer_t)
    (pool pool2 : vod_pool_t) (conf : m3u8_config_t) (base_url : Bytes) (inc : Bool) (s : Nat)
    (m : mpeg_metadata_t) (result rt : vod_str_t)
    (hint : 10 ≤ limits.VOD_INT32_LEN) (hmax : limits.MAX_FRAME_SIZE < 2147483648)
    (hinit : muxer.init_rc = VOD_OK) (hsim : muxer.simulation_supported = true)
    (hrt : m3u8_builder_build_required_tracks_string pool inc m { len := 0, data := none }
      = some (VOD_OK, rt, pool2))
    (hs : 0 < s) (hd : m.duration_millis < UINT32_SIZE)
    (hcount : DIV_CEIL m.duration_millis s < 2147483648)
    (hn : muxer.iframes.length ≤ m.video_key_frame_count)
    (hev : ∀ e ∈ muxer.iframes, e.frame_duration ≤ m.duration_millis ∧
      e.frame_size ≤ limits.MAX_FRAME_SIZE ∧
      e.segment_index ≤ DIV_CEIL m.duration_millis s) :
    (∀ e ∈ muxer.iframes,
      (m3u8_builder_append_iframe_string base_url conf.segment_file_name_prefix
        (vod_str_bytes rt) e).length ≤ iframe_length limits conf base_url rt s m) ∧
    ∃ (status : vod_status_t) (result2 : vod_str_t),
      m3u8_builder_build_iframe_playlist limits muxer pool conf base_url inc s m result =
        some (status, result2) ∧
      (status = VOD_OK ∨ status = VOD_ALLOC_FAILED) ∧
      (status = VOD_OK → ∃ text : Bytes,
        result2 = { len := text.length, data := some text } ∧
        text.length ≤ conf.iframes_m3u8_header_len +
          iframe_length limits conf base_url rt s m * m.video_key_frame_count +
          sizeof_m3u8_footer) := by
  obtain ⟨_, p, hp⟩ := required_tracks_ok _ _ _ _ _ _ hrt
  have htriple : ∀ e ∈ muxer.iframes,
      (m3u8_builder_append_iframe_string base_url conf.segment_file_name_prefix
        (vod_str_bytes rt) e).length ≤ iframe_length limits conf base_url rt s m := by
    intro e he
    obtain ⟨h1, h2, h3⟩ := hev e he
    rw [hp, vod_str_bytes_mk]
    exact append_iframe_string_length_le limits conf base_url p s m e hd hcount hint hmax h1 h2 h3
  refine ⟨htriple, ?_⟩
  rcases pool2 with _ | ⟨b, rest⟩
  · exact ⟨_, _, build_iframe_playlist_denied limits muxer pool [] conf base_url inc s m result
      rt hinit hsim hs hrt (Or.inl rfl), Or.inr rfl, fun h => absurd h (by decide)⟩
  · cases b with
    | false =>
      exact ⟨_, _, build_iframe_playlist_denied limits muxer pool _ conf base_url inc s m
        result rt hinit hsim hs hrt (Or.inr ⟨rest, rfl⟩), Or.inr rfl,
        fun h => absurd h (by decide)⟩
    | true =>
      have hbuild := build_iframe_playlist_granted limits muxer pool rest conf base_url inc s m
        result rt hinit hsim hs hrt
      have hflat := flatten_map_length_le
        (m3u8_builder_append_iframe_string base_url conf.segment_file_name_prefix
          (vod_str_bytes rt))
        (iframe_length limits conf base_url rt s m) muxer.iframes htriple
      have hmul : muxer.iframes.length * iframe_length limits conf base_url rt s m ≤
          iframe_length limits conf base_url rt s m * m.video_key_frame_count := by
        rw [Nat.mul_comm]
        exact Nat.mul_le_mul_left _ hn
      have hhead : (vod_copy conf.iframes_m3u8_header conf.iframes_m3u8_header_len).length ≤
          conf.iframes_m3u8_header_len := by
        unfold vod_copy
        rw [List.length_take]
        exact Nat.min_le_left _ _
      have hfoot : m3u8_footer.length + 1 = sizeof_m3u8_footer := rfl
      have hlen : (vod_copy conf.iframes_m3u8_header conf.iframes_m3u8_header_len ++
            (muxer.iframes.map (m3u8_builder_append_iframe_string base_url
              conf.segment_file_name_prefix (vod_str_bytes rt))).flatten ++
            m3u8_footer).length ≤ conf.iframes_m3u8_header_len +
          iframe_length limits conf base_url rt s m * m.video_key_frame_count +
          sizeof_m3u8_footer := by
        simp only [List.length_append]
        omega
      have hsize : iframe_result_size limits conf base_url rt s m =
          conf.iframes_m3u8_header_len +
          iframe_length limits conf base_url rt s m * m.video_key_frame_count +
          sizeof_m3u8_footer := rfl
      rw [if_neg (by rw [hsize]; omega)] at hbuild
      exact ⟨_, _, hbuild, Or.inl rfl, fun _ => ⟨_, rfl, hlen⟩⟩

/-- The size bound of the I-frame playlist on the two key frames of the example. -/
theorem iframe_playlist_within_result_size_witness :
    (10 ≤ sample_limits.VOD_INT32_LEN ∧ sample_limits.MAX_FRAME_SIZE < 2147483648 ∧
      sample_muxer.init_rc = VOD_OK ∧ sample_muxer.simulation_supported = true ∧
      m3u8_builder_build_required_tracks_string [true, true] false sample_iframe_metadata
        { len := 0, data := none } = some (VOD_OK, sample_required_tracks, [true]) ∧
      0 < 10000 ∧ sample_iframe_metadata.duration_millis < UINT32_SIZE ∧
      DIV_CEIL sample_iframe_metadata.duration_millis 10000 < 2147483648 ∧
      sample_muxer.iframes.length ≤ sample_iframe_metadata.video_key_frame_count ∧
      ∀ e ∈ sample_muxer.iframes, e.frame_duration ≤ sample_iframe_metadata.duration_millis ∧
        e.frame_size ≤ sample_limits.MAX_FRAME_SIZE ∧
        e.segment_index ≤ DIV_CEIL sample_iframe_metadata.duration_millis 10000) ∧
    (∀ e ∈ sample_muxer.iframes,
      (m3u8_builder_append_iframe_string [] sample_conf.segment_file_name_prefix
        (vod_str_bytes sample_required_tracks) e).length ≤
        iframe_length sample_limits sample_conf [] sample_required_tracks 10000
          sample_iframe_metadata) ∧
    ∃ (status : vod_status_t) (result2 : vod_str_t),
      m3u8_builder_build_iframe_playlist sample_limits sample_muxer [true, true] sample_conf []
        false 10000 sample_iframe_metadata { len := 0, data := none } =
        some (status, result2) ∧
      (status = VOD_OK ∨ status = VOD_ALLOC_FAILED) ∧
      (status = VOD_OK → ∃ text : Bytes,
        result2 = { len := text.length, data := some text } ∧
        text.length ≤ sample_conf.iframes_m3u8_header_len +
          iframe_length sample_limits sample_conf [] sample_required_tracks 10000
            sample_iframe_metadata * sample_iframe_metadata.video_key_frame_count +
          sizeof_m3u8_footer) :=
  ⟨by decide,
    iframe_playlist_within_result_size sample_limits sample_muxer [true, true] [true]
      sample_conf [] false 10000 sample_iframe_metadata { len := 0, data := none }
      sample_required_tracks (by decide) (by decide) rfl rfl (by decide) (by decide)
      (by decide) (by decide) (by decide) (by decide)⟩

theorem vod_sprintf_uD_mod (x : Nat) : vod_sprintf_uD (x % UINT32_SIZE) = vod_sprintf_uD x := by
  unfold vod_sprintf_uD
  rw [Nat.mod_mod]

theorem vod_sprintf_uD_add_mod (x y : Nat) :
    vod_sprintf_uD ((x % UINT32_SIZE + y) % UINT32_SIZE) = vod_sprintf_uD (x + y) := by
  unfold vod_sprintf_uD
  rw [Nat.mod_mod, Nat.mod_add_mod]

theorem vod_sprintf_uD_mod_add (x y : Nat) :
    vod_sprintf_uD (x % UINT32_SIZE + y) = vod_sprintf_uD (x + y) := by
  unfold vod_sprintf_uD
  rw [Nat.mod_add_mod]

theorem master_group_url_eq (conf : m3u8_config_t) (base_url : Bytes) (inc : Bool)
    (g : cur_file_streams_t) (stream : mpeg_stream_metadata_t) :
    master_group_url conf base_url inc g stream =
      variant_url_head conf base_url inc stream ++ variant_track_suffixes g ++
        ".m3u8\n".toList := by
  unfold master_group_url variant_url_head variant_track_suffixes m3u8_url_suffix
  rcases base_url with _ | ⟨c, cs⟩ <;> cases inc <;>
    rcases hv : g.video with _ | v <;> rcases ha : g.audio with _ | a <;>
    simp [vod_sprintf_uD_mod]

theorem master_text_walk_cons (conf : m3u8_config_t) (base_url : Bytes) (inc : Bool)
    (g : cur_file_streams_t) (rest : List cur_file_streams_t) (t ta : Bytes)
    (hg : master_group_text conf base_url inc g = some t)
    (hr : master_text_walk conf base_url inc rest = some ta) :
    master_text_walk conf base_url inc (g :: rest) = some (t ++ ta) := by
  simp [master_text_walk, hg, hr]

theorem master_text_walk_append (conf : m3u8_config_t) (base_url : Bytes) (inc : Bool)
    (before : List cur_file_streams_t) : ∀ (l2 : List cur_file_streams_t) (tb t2 : Bytes),
    master_text_walk conf base_url inc before = some tb →
    master_text_walk conf base_url inc l2 = some t2 →
    master_text_walk conf base_url inc (before ++ l2) = some (tb ++ t2) := by
  induction before with
  | nil =>
    intro l2 tb t2 hb h2
    simp only [master_text_walk, Option.some.injEq] at hb
    subst hb
    simpa using h2
  | cons g tl ih =>
    intro l2 tb t2 hb h2
    simp only [master_text_walk] at hb
    cases hg : master_group_text conf base_url inc g with
    | none => simp [hg] at hb
    | some t =>
      cases ht : master_text_walk conf base_url inc tl with
      | none => simp [hg, ht] at hb
      | some tt =>
        simp only [hg, ht, Option.some.injEq] at hb
        subst hb
        have := ih l2 tt t2 ht h2
        simp [master_text_walk, hg, this]

theorem master_group_size_of_text (limits : vod_limits_t) (conf : m3u8_config_t)
    (base_url : Bytes) (inc : Bool) (g : cur_file_streams_t) (t : Bytes)
    (hg : master_group_text conf base_url inc g = some t) :
    ∃ n, master_group_size limits conf base_url g = some n := by
  unfold master_group_text at hg
  cases hs : master_group_stream g with
  | none =>
    cases hl : master_group_stream_inf g <;> simp [hs, hl] at hg
  | some stream =>
    unfold master_group_size
    split <;> simp [hs]

theorem master_size_walk_of_text_walk (limits : vod_limits_t) (conf : m3u8_config_t)
    (base_url : Bytes) (inc : Bool) (l : List cur_file_streams_t) : ∀ (body : Bytes) (size : Nat),
    master_text_walk conf base_url inc l = some body →
    ∃ size2, master_result_size_walk limits conf base_url l size = some size2 := by
  induction l with
  | nil => intro body size _; exact ⟨size, rfl⟩
  | cons g tl ih =>
    intro body size hb
    simp only [master_text_walk] at hb
    cases hg : master_group_text conf base_url inc g with
    | none => simp [hg] at hb
    | some t =>
      cases ht : master_text_walk conf base_url inc tl with
      | none => simp [hg, ht] at hb
      | some tt =>
        obtain ⟨n, hn⟩ := master_group_size_of_text limits conf base_url inc g t hg
        obtain ⟨size2, h2⟩ := ih tt (size + n) ht
        exact ⟨size2, by simp [master_result_size_walk, hn, h2]⟩

theorem build_master_playlist_granted (limits : vod_limits_t) (rest : vod_pool_t)
    (conf : m3u8_config_t) (base_url : Bytes) (inc : Bool) (m : mpeg_metadata_t)
    (groups : List cur_file_streams_t) (result : vod_str_t) (body : Bytes)
    (hb : master_text_walk conf base_url inc groups = some body) :
    ∃ status : vod_status_t,
      m3u8_builder_build_master_playlist limits (true :: rest) conf base_url inc m groups
        result =
        some (status, { len := (m3u8_header ++ body).length,
                        data := some (m3u8_header ++ body) }) := by
  obtain ⟨size2, h2⟩ := master_size_walk_of_text_walk limits conf base_url inc groups body
    (m3u8_header.length + 1 + m.stream_count_video * max_video_stream_inf limits +
      m.stream_count_audio * max_audio_stream_inf limits) hb
  unfold m3u8_builder_build_master_playlist
  simp only [h2, vod_alloc, hb]
  split
  · exact ⟨_, rfl⟩
  · exact ⟨_, rfl⟩

theorem build_master_playlist_group (limits : vod_limits_t) (rest : vod_pool_t)
    (conf : m3u8_config_t) (base_url : Bytes) (inc : Bool) (m : mpeg_metadata_t)
    (before after : List cur_file_streams_t) (g : cur_file_streams_t) (result : vod_str_t)
    (tb ta t : Bytes)
    (hb : master_text_walk conf base_url inc before = some tb)
    (hafter : master_text_walk conf base_url inc after = some ta)
    (hg : master_group_text conf base_url inc g = some t) :
    ∃ status : vod_status_t,
      m3u8_builder_build_master_playlist limits (true :: rest) conf base_url inc m
        (before ++ g :: after) result =
        some (status, { len := (m3u8_header ++ tb ++ t ++ ta).length,
                        data := some (m3u8_header ++ tb ++ t ++ ta) }) := by
  have hwalk := master_text_walk_append conf base_url inc before (g :: after) tb (t ++ ta) hb
    (master_text_walk_cons conf base_url inc g after t ta hg hafter)
  obtain ⟨status, h⟩ := build_master_playlist_granted limits rest conf base_url inc m
    (before ++ g :: after) result _ hwalk
  refine ⟨status, ?_⟩
  rw [h]
  simp [List.append_assoc]

/-- C13: for every file group that has both a video and an audio track, wherever it
stands among the groups, `m3u8_builder_build_master_playlist` writes for it exactly the
line `#EXT-X-STREAM-INF:PROGRAM-ID=1,BANDWIDTH=<video bitrate + audio bitrate>,
RESOLUTION=<width>x<height>,CODECS="<video_codec>,<audio_codec>"` followed by a url line
that ends in `-v<video track_index + 1>-a<audio track_index + 1>.m3u8` (numbers printed as
32-bit unsigned values). -/
theorem master_playlist_video_audio_group (limits : vod_limits_t) (rest : vod_pool_t)
    (conf : m3u8_config_t) (base_url : Bytes) (inc : Bool) (m : mpeg_metadata_t)
    (before after : List cur_file_streams_t) (g : cur_file_streams_t)
    (v a : mpeg_stream_metadata_t) (result : vod_str_t) (tb ta : Bytes)
    (hv : g.video = some v) (ha : g.audio = some a)
    (hb : master_text_walk conf base_url inc before = some tb)
    (hafter : master_text_walk conf base_url inc after = some ta) :
    ∃ (status : vod_status_t) (text : Bytes),
      m3u8_builder_build_master_playlist limits (true :: rest) conf base_url inc m
        (before ++ g :: after) result =
        some (status, { len := text.length, data := some text }) ∧
      text = m3u8_header ++ tb ++
        ("#EXT-X-STREAM-INF:PROGRAM-ID=1,BANDWIDTH=".toList ++
          vod_sprintf_uD (v.media_info.bitrate + a.media_info.bitrate) ++
          ",RESOLUTION=".toList ++ vod_sprintf_uD v.media_info.width ++ "x".toList ++
          vod_sprintf_uD v.media_info.height ++
          ",CODECS=\"".toList ++ v.media_info.codec_name ++ ",".toList ++
          a.media_info.codec_name ++ "\"\n".toList) ++
        (variant_url_head conf base_url inc v ++
          "-v".toList ++ vod_sprintf_uD (v.track_index + 1) ++
          "-a".toList ++ vod_sprintf_uD (a.track_index + 1) ++ ".m3u8\n".toList) ++
        ta := by
  have hg : master_group_text conf base_url inc g = some (
      ("#EXT-X-STREAM-INF:PROGRAM-ID=1,BANDWIDTH=".toList ++
          vod_sprintf_uD (v.media_info.bitrate + a.media_info.bitrate) ++
          ",RESOLUTION=".toList ++ vod_sprintf_uD v.media_info.width ++ "x".toList ++
          vod_sprintf_uD v.media_info.height ++
          ",CODECS=\"".toList ++ v.media_info.codec_name ++ ",".toList ++
          a.media_info.codec_name ++ "\"\n".toList) ++
        (variant_url_head conf base_url inc v ++
          "-v".toList ++ vod_sprintf_uD (v.track_index + 1) ++
          "-a".toList ++ vod_sprintf_uD (a.track_index + 1) ++ ".m3u8\n".toList)) := by
    unfold master_group_text master_group_stream_inf master_group_stream
    simp only [hv, ha, master_group_url_eq, variant_track_suffixes, stream_inf_video,
      m3u8_stream_inf_suffix, vod_sprintf_uD_add_mod, vod_sprintf_uD_mod,
      vod_sprintf_uD_mod_add]
    simp [List.append_assoc]
  obtain ⟨status, h⟩ := build_master_playlist_group limits rest conf base_url inc m before
    after g result tb ta _ hb hafter hg
  exact ⟨status, _, h, by simp [List.append_assoc]⟩

/-- Witness of C13, the scenario of the claim: video 1280x720, 2000000 bps, `avc1`, paired
with audio 128000 bps, `mp4a`. -/
theorem master_playlist_video_audio_group_witness :
    (sample_group.video = some (track_of MEDIA_TYPE_VIDEO 0 0 2000000 1280 720 "avc1".toList
        "/video.mp4".toList) ∧
      sample_group.audio = some (track_of MEDIA_TYPE_AUDIO 0 0 128000 0 0 "mp4a".toList
        "/video.mp4".toList) ∧
      master_text_walk sample_conf [] false [] = some [] ∧
      master_text_walk sample_conf [] false [] = some []) ∧
    ∃ status : vod_status_t,
      m3u8_builder_build_master_playlist sample_limits [true] sample_conf [] false
        (master_metadata_of 1 1) [sample_group] { len := 0, data := none } =
        some (status, { len := 113, data := some (
          "#EXTM3U\n" ++
          "#EXT-X-STREAM-INF:PROGRAM-ID=1,BANDWIDTH=2128000,RESOLUTION=1280x720," ++
          "CODECS=\"avc1,mp4a\"\n" ++
          "index-v1-a1.m3u8\n").toList }) := by
  refine ⟨⟨rfl, rfl, rfl, rfl⟩, ?_⟩
  obtain ⟨status, text, hb, ht⟩ := master_playlist_video_audio_group sample_limits []
    sample_conf [] false (master_metadata_of 1 1) [] [] sample_group _ _
    { len := 0, data := none } [] [] rfl rfl rfl rfl
  refine ⟨status, ?_⟩
  have hb2 : m3u8_builder_build_master_playlist sample_limits [true] sample_conf [] false
      (master_metadata_of 1 1) [sample_group] { len := 0, data := none } =
      some (status, { len := text.length, data := some text }) := hb
  have e : text = ("#EXTM3U\n" ++
      "#EXT-X-STREAM-INF:PROGRAM-ID=1,BANDWIDTH=2128000,RESOLUTION=1280x720," ++
      "CODECS=\"avc1,mp4a\"\n" ++
      "index-v1-a1.m3u8\n").toList := by
    rw [ht]; decide
  rw [hb2, e]
  rfl

/-- C14: for every file group that has an audio track and no video track, wherever it
stands among the groups, `m3u8_builder_build_master_playlist` writes for it exactly the
line `#EXT-X-STREAM-INF:PROGRAM-ID=1,BANDWIDTH=<audio bitrate>,CODECS="<audio_codec>"`,
whose text outside the codec name has no letter `L`, hence no `RESOLUTION` field,
followed by a url line made of the head of the url, `-a<track_index + 1>` and `.m3u8`,
with no `-v` suffix. -/
theorem master_playlist_audio_only_group (limits : vod_limits_t) (rest : vod_pool_t)
    (conf : m3u8_config_t) (base_url : Bytes) (inc : Bool) (m : mpeg_metadata_t)
    (before after : List cur_file_streams_t) (g : cur_file_streams_t)
    (a : mpeg_stream_metadata_t) (result : vod_str_t) (tb ta : Bytes)
    (hv : g.video = none) (ha : g.audio = some a)
    (hb : master_text_walk conf base_url inc before = some tb)
    (hafter : master_text_walk conf base_url inc after = some ta) :
    (∃ (status : vod_status_t) (text : Bytes),
      m3u8_builder_build_master_playlist limits (true :: rest) conf base_url inc m
        (before ++ g :: after) result =
        some (status, { len := text.length, data := some text }) ∧
      text = m3u8_header ++ tb ++
        ("#EXT-X-STREAM-INF:PROGRAM-ID=1,BANDWIDTH=".toList ++
          vod_sprintf_uD a.media_info.bitrate ++
          ",CODECS=\"".toList ++ a.media_info.codec_name ++ "\"\n".toList) ++
        (variant_url_head conf base_url inc a ++
          "-a".toList ++ vod_sprintf_uD (a.track_index + 1) ++ ".m3u8\n".toList) ++
        ta) ∧
    (∀ c ∈ "#EXT-X-STREAM-INF:PROGRAM-ID=1,BANDWIDTH=".toList ++
        vod_sprintf_uD a.media_info.bitrate ++ ",CODECS=\"".toList ++ "\"\n".toList,
      c ≠ 'L') := by
  have hg : master_group_text conf base_url inc g = some (
      ("#EXT-X-STREAM-INF:PROGRAM-ID=1,BANDWIDTH=".toList ++
          vod_sprintf_uD a.media_info.bitrate ++
          ",CODECS=\"".toList ++ a.media_info.codec_name ++ "\"\n".toList) ++
        (variant_url_head conf base_url inc a ++
          "-a".toList ++ vod_sprintf_uD (a.track_index + 1) ++ ".m3u8\n".toList)) := by
    unfold master_group_text master_group_stream_inf master_group_stream
    simp only [hv, ha, master_group_url_eq, variant_track_suffixes, stream_inf_audio,
      m3u8_stream_inf_suffix]
    simp [List.append_assoc]
  obtain ⟨status, h⟩ := build_master_playlist_group limits rest conf base_url inc m before
    after g result tb ta _ hb hafter hg
  refine ⟨⟨status, _, h, by simp [List.append_assoc]⟩, ?_⟩
  intro c hc hL
  subst hL
  rcases List.mem_append.mp hc with hc | hc
  · rcases List.mem_append.mp hc with hc | hc
    · rcases List.mem_append.mp hc with hc | hc
      · exact absurd hc (by decide)
      · have := toDigits_all_digit _ 'L' hc
        exact absurd this (by decide)
    · exact absurd hc (by decide)
  · exact absurd hc (by decide)

/-- Witness of C14: an audio-only group of a set served without base url. -/
theorem master_playlist_audio_only_group_witness :
    (sample_audio_group.video = none ∧
      sample_audio_group.audio = some (track_of MEDIA_TYPE_AUDIO 1 1 128000 0 0 "mp4a".toList
        "/audio.mp4".toList) ∧
      master_text_walk sample_conf [] true [] = some [] ∧
      master_text_walk sample_conf [] true [] = some []) ∧
    ∃ status : vod_status_t,
      m3u8_builder_build_master_playlist sample_limits [true] sample_conf [] true
        (master_metadata_of 0 1) [sample_audio_group] { len := 0, data := none } =
        some (status, { len := 87, data := some (
          "#EXTM3U\n" ++
          "#EXT-X-STREAM-INF:PROGRAM-ID=1,BANDWIDTH=128000,CODECS=\"mp4a\"\n" ++
          "index-f2-a2.m3u8\n").toList }) := by
  refine ⟨⟨rfl, rfl, rfl, rfl⟩, ?_⟩
  obtain ⟨⟨status, text, hb, ht⟩, _⟩ := master_playlist_audio_only_group sample_limits []
    sample_conf [] true (master_metadata_of 0 1) [] [] sample_audio_group _
    { len := 0, data := none } [] [] rfl rfl rfl rfl
  refine ⟨status, ?_⟩
  have hb2 : m3u8_builder_build_master_playlist sample_limits [true] sample_conf [] true
      (master_metadata_of 0 1) [sample_audio_group] { len := 0, data := none } =
      some (status, { len := text.length, data := some text }) := hb
  have e : text = ("#EXTM3U\n" ++
      "#EXT-X-STREAM-INF:PROGRAM-ID=1,BANDWIDTH=128000,CODECS=\"mp4a\"\n" ++
      "index-f2-a2.m3u8\n").toList := by
    rw [ht]; decide
  rw [hb2, e]
  rfl

/-- C15: for every file group, wherever it stands among the groups, the variant url line
that `m3u8_builder_build_master_playlist` writes after the stream information line is:
when `base_url` is not empty, `base_url`, the uri of the source file, `/` and the index
file name prefix, with no `-f` component whatever `include_file_index` is; when `base_url`
is empty, the index file name prefix followed by `-f<file_index + 1>` exactly when
`include_file_index` is set; in both cases followed by the `-v` and `-a` track suffixes of
the group and `.m3u8`. -/
theorem master_playlist_variant_url (limits : vod_limits_t) (rest : vod_pool_t)
    (conf : m3u8_config_t) (base_url : Bytes) (inc : Bool) (m : mpeg_metadata_t)
    (before after : List cur_file_streams_t) (g : cur_file_streams_t)
    (stream : mpeg_stream_metadata_t) (result : vod_str_t) (tb ta line : Bytes)
    (hstream : master_group_stream g = some stream)
    (hline : master_group_stream_inf g = some line)
    (hb : master_text_walk conf base_url inc before = some tb)
    (hafter : master_text_walk conf base_url inc after = some ta) :
    ∃ (status : vod_status_t) (text : Bytes),
      m3u8_builder_build_master_playlist limits (true :: rest) conf base_url inc m
        (before ++ g :: after) result =
        some (status, { len := text.length, data := some text }) ∧
      text = m3u8_header ++ tb ++ line ++
        ((if base_url ≠ [] then
            base_url ++ stream.file_info.uri ++ "/".toList ++ conf.index_file_name_prefix
          else
            conf.index_file_name_prefix ++
              (if inc = true then
                "-f".toList ++ vod_sprintf_uD (stream.file_info.file_index + 1)
              else [])) ++
          ((match g.video with
            | some v => "-v".toList ++ vod_sprintf_uD (v.track_index + 1)
            | none => []) ++
           (match g.audio with
            | some a => "-a".toList ++ vod_sprintf_uD (a.track_index + 1)
            | none => [])) ++
          ".m3u8\n".toList) ++
        ta := by
  have hg : master_group_text conf base_url inc g = some (line ++
      (variant_url_head conf base_url inc stream ++ variant_track_suffixes g ++
        ".m3u8\n".toList)) := by
    unfold master_group_text
    simp only [hstream, hline, master_group_url_eq]
  obtain ⟨status, h⟩ := build_master_playlist_group limits rest conf base_url inc m before
    after g result tb ta _ hb hafter hg
  refine ⟨status, _, h, ?_⟩
  unfold variant_url_head variant_track_suffixes
  simp [List.append_assoc]

/-- Witness of C15: with a base url the line has no `-f` component although the file index
is asked for. -/
theorem master_playlist_variant_url_witness :
    (master_group_stream sample_group = some (track_of MEDIA_TYPE_VIDEO 0 0 2000000 1280 720
        "avc1".toList "/video.mp4".toList) ∧
      master_group_stream_inf sample_group = some
        ("#EXT-X-STREAM-INF:PROGRAM-ID=1,BANDWIDTH=2128000,RESOLUTION=1280x720," ++
          "CODECS=\"avc1,mp4a\"\n").toList ∧
      master_text_walk sample_conf "http://h".toList true [] = some [] ∧
      master_text_walk sample_conf "http://h".toList true [] = some []) ∧
    ∃ status : vod_status_t,
      m3u8_builder_build_master_playlist sample_limits [true] sample_conf "http://h".toList true
        (master_metadata_of 1 1) [sample_group] { len := 0, data := none } =
        some (status, { len := 132, data := some (
          "#EXTM3U\n" ++
          "#EXT-X-STREAM-INF:PROGRAM-ID=1,BANDWIDTH=2128000,RESOLUTION=1280x720," ++
          "CODECS=\"avc1,mp4a\"\n" ++
          "http://h/video.mp4/index-v1-a1.m3u8\n").toList }) := by
  refine ⟨⟨rfl, by decide, rfl, rfl⟩, ?_⟩
  obtain ⟨status, text, hb, ht⟩ := master_playlist_variant_url sample_limits []
    sample_conf "http://h".toList true (master_metadata_of 1 1) [] [] sample_group _
    { len := 0, data := none } [] []
    ("#EXT-X-STREAM-INF:PROGRAM-ID=1,BANDWIDTH=2128000,RESOLUTION=1280x720," ++
      "CODECS=\"avc1,mp4a\"\n").toList rfl (by decide) rfl rfl
  refine ⟨status, ?_⟩
  have hb2 : m3u8_builder_build_master_playlist sample_limits [true] sample_conf
      "http://h".toList true (master_metadata_of 1 1) [sample_group]
      { len := 0, data := none } =
      some (status, { len := text.length, data := some text }) := hb
  have e : text = ("#EXTM3U\n" ++
      "#EXT-X-STREAM-INF:PROGRAM-ID=1,BANDWIDTH=2128000,RESOLUTION=1280x720," ++
      "CODECS=\"avc1,mp4a\"\n" ++
      "http://h/video.mp4/index-v1-a1.m3u8\n").toList := by
    rw [ht]; decide
  rw [hb2, e]
  rfl

theorem master_group_bound (limits : vod_limits_t) (conf : m3u8_config_t) (base_url : Bytes)
    (inc : Bool) (g : cur_file_streams_t)
    (hint : 10 ≤ limits.VOD_INT32_LEN)
    (hne : g.video ≠ none ∨ g.audio ≠ none)
    (hvc : ∀ v, g.video = some v → v.media_info.codec_name.length ≤ limits.MAX_CODEC_NAME_SIZE)
    (hac : ∀ a, g.audio = some a → a.media_info.codec_name.length ≤ limits.MAX_CODEC_NAME_SIZE) :
    ∃ (n : Nat) (t : Bytes),
      master_group_size limits conf base_url g = some n ∧
      master_group_text conf base_url inc g = some t ∧
      t.length ≤ (if g.video.isSome then max_video_stream_inf limits else 0) +
        (if g.audio.isSome then max_audio_stream_inf limits else 0) + n := by
  have e1 : strlen_m3u8_stream_inf_video = 74 := by decide
  have e2 : sizeof_m3u8_stream_inf_audio = 56 := by decide
  have e3 : m3u8_stream_inf_suffix.length = 2 := by decide
  have e4 : m3u8_url_suffix.length = 6 := by decide
  have e5 : "-f-v-a".length = 6 := by decide
  have hd := vod_sprintf_uD_length_le
  rcases hv : g.video with _ | v <;> rcases ha : g.audio with _ | a
  · rw [hv, ha] at hne; simp at hne
  · have hc := hac a ha
    have b1 := hd a.media_info.bitrate
    have b2 := hd ((a.track_index + 1) % UINT32_SIZE)
    have b3 := hd ((a.file_info.file_index + 1) % UINT32_SIZE)
    rcases base_url with _ | ⟨c, cs⟩ <;> cases inc <;>
      simp [master_group_size, master_group_text, master_group_stream,
        master_group_stream_inf, master_group_url, stream_inf_audio, hv, ha,
        max_audio_stream_inf, e2, e3, e4, e5] <;> omega
  · have hc := hvc v hv
    have b1 := hd (v.media_info.bitrate % UINT32_SIZE)
    have b2 := hd (v.media_info.width % UINT32_SIZE)
    have b3 := hd (v.media_info.height % UINT32_SIZE)
    have b4 := hd ((v.track_index + 1) % UINT32_SIZE)
    have b5 := hd ((v.file_info.file_index + 1) % UINT32_SIZE)
    rcases base_url with _ | ⟨c, cs⟩ <;> cases inc <;>
      simp [master_group_size, master_group_text, master_group_stream,
        master_group_stream_inf, master_group_url, stream_inf_video, hv, ha,
        max_video_stream_inf, e1, e3, e4, e5] <;> omega
  · have hc := hvc v hv
    have hc2 := hac a ha
    have b1 := hd ((v.media_info.bitrate + a.media_info.bitrate) % UINT32_SIZE)
    have b2 := hd (v.media_info.width % UINT32_SIZE)
    have b3 := hd (v.media_info.height % UINT32_SIZE)
    have b4 := hd ((v.track_index + 1) % UINT32_SIZE)
    have b5 := hd ((v.file_info.file_index + 1) % UINT32_SIZE)
    have b6 := hd ((a.track_index + 1) % UINT32_SIZE)
    rcases base_url with _ | ⟨c, cs⟩ <;> cases inc <;>
      simp [master_group_size, master_group_text, master_group_stream,
        master_group_stream_inf, master_group_url, stream_inf_video, hv, ha,
        max_video_stream_inf, max_audio_stream_inf, e1, e2, e3, e4, e5] <;> omega

theorem master_walk_bound (limits : vod_limits_t) (conf : m3u8_config_t) (base_url : Bytes)
    (inc : Bool) (hint : 10 ≤ limits.VOD_INT32_LEN) (groups : List cur_file_streams_t) :
    ∀ size : Nat,
    (∀ g ∈ groups, (g.video ≠ none ∨ g.audio ≠ none) ∧
      (∀ v, g.video = some v → v.media_info.codec_name.length ≤ limits.MAX_CODEC_NAME_SIZE) ∧
      (∀ a, g.audio = some a →
        a.media_info.codec_name.length ≤ limits.MAX_CODEC_NAME_SIZE)) →
    ∃ (total : Nat) (body : Bytes),
      master_result_size_walk limits conf base_url groups size = some (size + total) ∧
      master_text_walk conf base_url inc groups = some body ∧
      body.length ≤ groups.countP (fun g => g.video.isSome) * max_video_stream_inf limits +
        groups.countP (fun g => g.audio.isSome) * max_audio_stream_inf limits + total := by
  induction groups with
  | nil => intro size _; exact ⟨0, [], rfl, rfl, by simp⟩
  | cons g tl ih =>
    intro size h
    obtain ⟨hne, hvc, hac⟩ := h g (List.mem_cons_self _ _)
    obtain ⟨n, t, hn, ht, hlen⟩ := master_group_bound limits conf base_url inc g hint hne hvc hac
    obtain ⟨total, body, hsz, htx, hb⟩ := ih (size + n)
      (fun x hx => h x (List.mem_cons_of_mem _ hx))
    refine ⟨n + total, t ++ body, ?_, ?_, ?_⟩
    · simp only [master_result_size_walk, hn, hsz]
      rw [Nat.add_assoc]
    · simp only [master_text_walk, ht, htx]
    · rw [List.length_append, List.countP_cons, List.countP_cons, Nat.add_mul, Nat.add_mul]
      cases hv : g.video.isSome <;> cases ha : g.audio.isSome <;>
        simp only [hv, ha, if_true, if_false, Bool.false_eq_true] at hlen ⊢ <;> omega

/-- C16: for every list of file groups in which each group has a video track, an audio
track or both, `stream_count[VIDEO]` and `stream_count[AUDIO]` are the numbers of video and
audio tracks in the groups, and every codec name is at most `MAX_CODEC_NAME_SIZE` bytes
(with `VOD_INT32_LEN` holding the ten digits of a 32-bit value), the number of bytes that
`m3u8_builder_build_master_playlist` writes is at most the `result_size` it computed before
writing; it returns `VOD_OK` or `VOD_ALLOC_FAILED`, never `VOD_UNEXPECTED`. -/
theorem master_playlist_within_result_size (limits : vod_limits_t) (pool : vod_pool_t)
    (conf : m3u8_config_t) (base_url : Bytes) (inc : Bool) (m : mpeg_metadata_t)
    (groups : List cur_file_streams_t) (result : vod_str_t)
    (hint : 10 ≤ limits.VOD_INT32_LEN) (hok : master_groups_ok limits m groups) :
    ∃ (status : vod_status_t) (result2 : vod_str_t),
      m3u8_builder_build_master_playlist limits pool conf base_url inc m groups result =
        some (status, result2) ∧
      (status = VOD_OK ∨ status = VOD_ALLOC_FAILED) ∧
      (status = VOD_OK → ∃ (text : Bytes) (result_size : Nat),
        master_result_size_walk limits conf base_url groups
          (m3u8_header.length + 1 + m.stream_count_video * max_video_stream_inf limits +
            m.stream_count_audio * max_audio_stream_inf limits) = some result_size ∧
        result2 = { len := text.length, data := some text } ∧
        text.length ≤ result_size) := by
  obtain ⟨hgroups, hcv, hca⟩ := hok
  obtain ⟨total, body, hsz, htx, hb⟩ := master_walk_bound limits conf base_url inc hint groups
    (m3u8_header.length + 1 + m.stream_count_video * max_video_stream_inf limits +
      m.stream_count_audio * max_audio_stream_inf limits) hgroups
  have hlen : (m3u8_header ++ body).length ≤
      m3u8_header.length + 1 + m.stream_count_video * max_video_stream_inf limits +
        m.stream_count_audio * max_audio_stream_inf limits + total := by
    rw [List.length_append, hcv, hca]
    omega
  unfold m3u8_builder_build_master_playlist
  simp only [hsz]
  rcases pool with _ | ⟨b, rest⟩
  · exact ⟨_, _, rfl, Or.inr rfl, fun h => absurd h (by decide)⟩
  · cases b with
    | false => exact ⟨_, _, rfl, Or.inr rfl, fun h => absurd h (by decide)⟩
    | true =>
      simp only [vod_alloc, htx]
      rw [if_neg (by omega)]
      exact ⟨_, _, rfl, Or.inl rfl, fun _ => ⟨_, _, rfl, rfl, hlen⟩⟩

/-- Witness of C16: a paired group followed by an audio-only group. -/
theorem master_playlist_within_result_size_witness :
    (10 ≤ sample_limits.VOD_INT32_LEN ∧
      master_groups_ok sample_limits (master_metadata_of 1 2)
        [sample_group, sample_audio_group]) ∧
    ∃ (status : vod_status_t) (result2 : vod_str_t),
      m3u8_builder_build_master_playlist sample_limits [true] sample_conf [] true
        (master_metadata_of 1 2) [sample_group, sample_audio_group]
        { len := 0, data := none } = some (status, result2) ∧
      (status = VOD_OK ∨ status = VOD_ALLOC_FAILED) ∧
      (status = VOD_OK → ∃ (text : Bytes) (result_size : Nat),
        master_result_size_walk sample_limits sample_conf [] [sample_group, sample_audio_group]
          (m3u8_header.length + 1 +
            (master_metadata_of 1 2).stream_count_video * max_video_stream_inf sample_limits +
            (master_metadata_of 1 2).stream_count_audio * max_audio_stream_inf sample_limits)
          = some result_size ∧
        result2 = { len := text.length, data := some text } ∧
        text.length ≤ result_size) :=
  have hok : master_groups_ok sample_limits (master_metadata_of 1 2)
      [sample_group, sample_audio_group] := by
    unfold master_groups_ok
    refine ⟨?_, by decide, by decide⟩
    intro g hg
    simp only [List.mem_cons, List.mem_singleton, List.not_mem_nil, or_false] at hg
    rcases hg with rfl | rfl
    · refine ⟨Or.inl (by decide), ?_, ?_⟩
      · intro v hv
        have : v = track_of MEDIA_TYPE_VIDEO 0 0 2000000 1280 720 "avc1".toList
            "/video.mp4".toList := by
          simp only [sample_group, Option.some.injEq] at hv; exact hv.symm
        subst this; decide
      · intro a ha
        have : a = track_of MEDIA_TYPE_AUDIO 0 0 128000 0 0 "mp4a".toList
            "/video.mp4".toList := by
          simp only [sample_group, Option.some.injEq] at ha; exact ha.symm
        subst this; decide
    · refine ⟨Or.inr (by decide), ?_, ?_⟩
      · intro v hv
        simp [sample_audio_group] at hv
      · intro a ha
        have : a = track_of MEDIA_TYPE_AUDIO 1 1 128000 0 0 "mp4a".toList
            "/audio.mp4".toList := by
          simp only [sample_audio_group, Option.some.injEq] at ha; exact ha.symm
        subst this; decide
  ⟨⟨by decide, hok⟩,
    master_playlist_within_result_size sample_limits [true] sample_conf [] true
      (master_metadata_of 1 2) [sample_group, sample_audio_group] { len := 0, data := none }
      (by decide) hok⟩

/-- The same state after the length check of the index builder and of the master builder,
reached here with a configuration that caches the tag of another segment duration, and with
stream counts that do not cover the groups walked: `VOD_UNEXPECTED` is returned with the
buffer and the bytes written in it. -/
theorem length_check_keeps_written_buffer :
    m3u8_builder_build_index_playlist [true, true] nine_second_conf [] false 1000000
      (video_metadata_of 999999 0) { len := 0, data := none } =
      some (VOD_UNEXPECTED, { len := 93, data := some (
        "#EXTM3U\n#EXT-X-TARGETDURATION:9\n#EXT-X-VERSION:3\n" ++
        "#EXTINF:999.999,\nseg-1-v1.ts\n#EXT-X-ENDLIST\n").toList }) ∧
    m3u8_builder_build_master_playlist sample_limits [true] sample_conf [] false
      (master_metadata_of 0 0) [sample_group] { len := 0, data := none } =
      some (VOD_UNEXPECTED, { len := 113, data := some (
        "#EXTM3U\n" ++
        "#EXT-X-STREAM-INF:PROGRAM-ID=1,BANDWIDTH=2128000,RESOLUTION=1280x720," ++
        "CODECS=\"avc1,mp4a\"\n" ++
        "index-v1-a1.m3u8\n").toList }) := by
  decide

theorem toDigits_length_eq (k : Nat) : ∀ n : Nat, 10 ^ k ≤ n → n < 10 ^ (k + 1) →
    (Nat.toDigits 10 n).length = k + 1 := by
  induction k with
  | zero =>
    intro n _ h
    exact toDigits_length_lt_ten n (by simpa using h)
  | succ k ih =>
    intro n hlo hhi
    have h10 : 10 ≤ n := by
      have : 10 ^ 1 ≤ 10 ^ (k + 1) := Nat.pow_le_pow_right (by decide) (by omega)
      omega
    have h1 : 10 ^ k ≤ n / 10 := by
      rw [Nat.le_div_iff_mul_le (by decide)]
      rw [pow_succ] at hlo; exact hlo
    have h2 : n / 10 < 10 ^ (k + 1) := by
      rw [Nat.div_lt_iff_lt_mul (by decide)]
      rw [pow_succ] at hhi; exact hhi
    rw [toDigits_length_ge_ten n h10, ih (n / 10) h1 h2]

/-- C18: for every non-negative integer `n`, `m3u8_builder_get_int_print_len(n)` is the
number of characters that integer formatting prints for `n`: 1 for 0 to 9, and `k` for
`10 ^ (k - 1)` to `10 ^ k - 1`; and it is monotone, `n <= m` giving a count for `n` that is
at most the count for `m`. -/
theorem get_int_print_len_counts_decimal_digits (n : Int) (hn : 0 ≤ n) :
    m3u8_builder_get_int_print_len n = (vod_sprintf_d n).length ∧
    (n ≤ 9 → m3u8_builder_get_int_print_len n = 1) ∧
    (∀ k : Nat, 1 ≤ k → (10 : Int) ^ (k - 1) ≤ n → n ≤ (10 : Int) ^ k - 1 →
      m3u8_builder_get_int_print_len n = k) ∧
    (∀ m : Int, n ≤ m → m3u8_builder_get_int_print_len n ≤ m3u8_builder_get_int_print_len m) := by
  obtain ⟨a, rfl⟩ := Int.eq_ofNat_of_zero_le hn
  refine ⟨?_, ?_, ?_, ?_⟩
  · rw [get_int_print_len_nat, vod_sprintf_d_nat]
  · intro h9
    rw [get_int_print_len_nat]
    exact toDigits_length_lt_ten a (by omega)
  · intro k hk hlo hhi
    obtain ⟨j, rfl⟩ : ∃ j, k = j + 1 := ⟨k - 1, by omega⟩
    rw [get_int_print_len_nat]
    have hlo2 : 10 ^ j ≤ a := by
      simp only [Nat.add_sub_cancel] at hlo
      exact_mod_cast hlo
    have hhi2 : a < 10 ^ (j + 1) := by
      have : (a : Int) < (10 : Int) ^ (j + 1) := by omega
      exact_mod_cast this
    exact toDigits_length_eq j a hlo2 hhi2
  · intro m hm
    obtain ⟨b, rfl⟩ := Int.eq_ofNat_of_zero_le (le_trans hn hm)
    rw [get_int_print_len_nat, get_int_print_len_nat]
    exact toDigits_length_mono b a (by exact_mod_cast hm)

/-- Witness of C18: 10240, the largest segment count, has five digits. -/
theorem get_int_print_len_counts_decimal_digits_witness :
    (0 : Int) ≤ 10240 ∧
    (m3u8_builder_get_int_print_len 10240 = (vod_sprintf_d 10240).length ∧
    ((10240 : Int) ≤ 9 → m3u8_builder_get_int_print_len 10240 = 1) ∧
    (∀ k : Nat, 1 ≤ k → (10 : Int) ^ (k - 1) ≤ 10240 → (10240 : Int) ≤ (10 : Int) ^ k - 1 →
      m3u8_builder_get_int_print_len 10240 = k) ∧
    (∀ m : Int, 10240 ≤ m →
      m3u8_builder_get_int_print_len 10240 ≤ m3u8_builder_get_int_print_len m)) :=
  ⟨by decide, get_int_print_len_counts_decimal_digits 10240 (by decide)⟩

theorem append_extinf_tag_seconds (n : Nat) (hn : n < 2147483648) :
    m3u8_builder_append_extinf_tag n 1 = "#EXTINF:".toList ++ Nat.toDigits 10 n ++ ",\n".toList := by
  have h := format_double_pow n 0 (by decide) (by simpa using hn)
  simp only [pow_zero, Nat.div_one, if_true] at h
  unfold m3u8_builder_append_extinf_tag
  rw [h]
  simp

/-- C19: when the playlist version is below 3, for every 32-bit duration `d` and segment
duration `s` with `0 < d mod s` (and a playlist that is built), the text written by
`m3u8_builder_build_index_playlist` is the header, the `d / s` full segments, then the tag
of the final partial segment, `#EXTINF:<(r + 500) / 1000>,` with `r = d mod s`, the sum
taken in 32-bit arithmetic, integer division and no decimal point, then the name line of
segment `d / s + 1` and the footer. -/
theorem index_playlist_partial_tag_below_version_3 (pool rest : vod_pool_t)
    (conf : m3u8_config_t) (base_url : Bytes) (inc : Bool) (s : Nat) (m : mpeg_metadata_t)
    (result rt : vod_str_t)
    (hver : conf.m3u8_version < 3)
    (hs : 0 < s) (hd : m.duration_millis < UINT32_SIZE)
    (hr : 0 < m.duration_millis % s)
    (hc : DIV_CEIL m.duration_millis s ≤ 10240)
    (hrt : m3u8_builder_build_required_tracks_string pool inc m { len := 0, data := none }
      = some (VOD_OK, rt, true :: rest)) :
    (∃ text : Bytes,
      m3u8_builder_build_index_playlist pool conf base_url inc s m result =
        some (
          if text.length > index_result_size conf base_url rt (DIV_CEIL m.duration_millis s)
          then VOD_UNEXPECTED else VOD_OK,
          { len := text.length, data := some text }) ∧
      text = vod_copy conf.m3u8_header conf.m3u8_header_len ++
        ((List.range (m.duration_millis / s)).map (fun i =>
          vod_copy conf.m3u8_extinf conf.m3u8_extinf_len ++
            segment_line base_url conf.segment_file_name_prefix (i + 1)
              (vod_str_bytes rt))).flatten ++
        ("#EXTINF:".toList ++
          Nat.toDigits 10 ((m.duration_millis % s + 500) % UINT32_SIZE / 1000) ++
          ",\n".toList) ++
        segment_line base_url conf.segment_file_name_prefix (m.duration_millis / s + 1)
          (vod_str_bytes rt) ++
        m3u8_footer) ∧
    (∀ c ∈ Nat.toDigits 10 ((m.duration_millis % s + 500) % UINT32_SIZE / 1000),
      c.isDigit = true) ∧
    (m.duration_millis % s + 500 < UINT32_SIZE →
      (m.duration_millis % s + 500) % UINT32_SIZE / 1000 =
        (m.duration_millis % s + 500) / 1000) := by
  have hc2 : DIV_CEIL m.duration_millis s ≤ MAX_SEGMENT_COUNT := hc
  have hcount : DIV_CEIL m.duration_millis s = m.duration_millis / s + 1 := by
    rw [DIV_CEIL_eq _ _ hs, if_neg (by omega)]
  have hsmall : (m.duration_millis % s + 500) % UINT32_SIZE / 1000 < 2147483648 := by
    have : (m.duration_millis % s + 500) % UINT32_SIZE < UINT32_SIZE :=
      Nat.mod_lt _ (by decide)
    unfold UINT32_SIZE at this ⊢
    omega
  refine ⟨⟨_, build_index_playlist_granted pool rest conf base_url inc s m result rt hs hd
    hc2 hrt, ?_⟩, toDigits_all_digit _, fun h => by rw [Nat.mod_eq_of_lt h]⟩
  rw [index_playlist_text_eq conf base_url _ s _ _ hc2, hcount, List.range_succ,
    List.map_append, List.flatten_append]
  have hfull : (List.range (m.duration_millis / s)).map (fun i =>
        index_segment_tag conf s m.duration_millis i ++
          segment_line base_url conf.segment_file_name_prefix (i + 1) (vod_str_bytes rt)) =
      (List.range (m.duration_millis / s)).map (fun i =>
        vod_copy conf.m3u8_extinf conf.m3u8_extinf_len ++
          segment_line base_url conf.segment_file_name_prefix (i + 1) (vod_str_bytes rt)) := by
    apply List.map_congr_left
    intro i hi
    have := List.mem_range.mp hi
    simp [index_segment_tag, this]
  have hlast : index_segment_tag conf s m.duration_millis (m.duration_millis / s) =
      "#EXTINF:".toList ++
        Nat.toDigits 10 ((m.duration_millis % s + 500) % UINT32_SIZE / 1000) ++
        ",\n".toList := by
    unfold index_segment_tag
    rw [if_neg (by omega), if_neg (by omega), append_extinf_tag_seconds _ hsmall]
  rw [hfull]
  simp only [List.map_cons, List.map_nil, List.flatten_cons, List.flatten_nil, hlast,
    List.append_nil, List.append_assoc]

/-- Witness of C19: version 2, 12.5 seconds in 10 second segments; the remainder 2500 ms
is declared as 3 seconds. -/
theorem index_playlist_partial_tag_below_version_3_witness :
    (version_2_conf.m3u8_version < 3 ∧ 0 < 10000 ∧
      sample_metadata.duration_millis < UINT32_SIZE ∧
      0 < sample_metadata.duration_millis % 10000 ∧
      DIV_CEIL sample_metadata.duration_millis 10000 ≤ 10240 ∧
      m3u8_builder_build_required_tracks_string [true, true] false sample_metadata
        { len := 0, data := none } = some (VOD_OK, sample_required_tracks, [true])) ∧
    m3u8_builder_build_index_playlist [true, true] version_2_conf [] false 10000
      sample_metadata { len := 0, data := none } =
      some (VOD_OK, { len := 76, data := some (
        "#EXTM3U\n#EXTINF:10,\nseg-1-v1-a2.ts\n#EXTINF:3,\nseg-2-v1-a2.ts\n" ++
        "#EXT-X-ENDLIST\n").toList }) := by
  refine ⟨by decide, ?_⟩
  obtain ⟨⟨text, hb, ht⟩, _, _⟩ := index_playlist_partial_tag_below_version_3 [true, true] []
    version_2_conf [] false 10000 sample_metadata { len := 0, data := none }
    sample_required_tracks (by decide) (by decide) (by decide) (by decide) (by decide)
    (by decide)
  rw [hb, ht]
  decide

/-- C20: for every 32-bit segment duration and every encryption key file name, present or
absent, after `m3u8_builder_init_config` the configuration has `m3u8_version = 3`, and the
first `m3u8_extinf_len` bytes of its cached tag `m3u8_extinf` are exactly the bytes
`m3u8_builder_append_extinf_tag(segment_duration, 1000)` produces, `#EXTINF:`, the digits
of `segment_duration / 1000`, a point, three fractional digits, a comma and a line feed,
with `m3u8_extinf_len = 8 + digits(segment_duration / 1000) + 4 + 2`. -/
theorem init_config_caches_extinf_tag (formats : m3u8_formats_t) (conf0 : m3u8_config_t)
    (segment_duration : Nat) (encryption_key_file_name : Option Bytes)
    (hs : segment_duration < UINT32_SIZE) :
    ( m3u8_config_t.m3u8_version (m3u8_builder_init_config formats conf0 segment_duration
        encryption_key_file_name)) = 3 ∧
    vod_copy
        ( m3u8_config_t.m3u8_extinf (m3u8_builder_init_config formats conf0 segment_duration
          encryption_key_file_name))
        ( m3u8_config_t.m3u8_extinf_len (m3u8_builder_init_config formats conf0
          segment_duration encryption_key_file_name)) =
      m3u8_builder_append_extinf_tag segment_duration 1000 ∧
    m3u8_builder_append_extinf_tag segment_duration 1000 =
      "#EXTINF:".toList ++ Nat.toDigits 10 (segment_duration / 1000) ++ ".".toList ++
        [Nat.digitChar (segment_duration / 100 % 10), Nat.digitChar (segment_duration / 10 % 10),
          Nat.digitChar (segment_duration % 10)] ++ ",\n".toList ∧
    ( m3u8_config_t.m3u8_extinf_len (m3u8_builder_init_config formats conf0 segment_duration
        encryption_key_file_name)) =
      8 + m3u8_builder_get_int_print_len (to_int (segment_duration / 1000)) + 4 + 2 := by
  have hs2 : segment_duration < 4294967296 := hs
  have hq : segment_duration / 1000 < 2147483648 := by omega
  refine ⟨rfl, init_config_extinf _ _ _ _, ?_, ?_⟩
  · rw [append_extinf_tag_millis _ hs2]
    simp [millis_text]
  · rw [init_config_extinf_len, append_extinf_tag_1000_length _ hs2, to_int_small _ hq,
      get_int_print_len_nat]

/-- Witness of C20: segments of 10 seconds, with an encryption key file name. -/
theorem init_config_caches_extinf_tag_witness :
    (10000 : Nat) < UINT32_SIZE ∧
    (( m3u8_config_t.m3u8_version (m3u8_builder_init_config sample_formats
        (conf_of_prefixes [] []) 10000 (some "enc.key".toList))) = 3 ∧
    vod_copy
        ( m3u8_config_t.m3u8_extinf (m3u8_builder_init_config sample_formats
          (conf_of_prefixes [] []) 10000 (some "enc.key".toList)))
        ( m3u8_config_t.m3u8_extinf_len (m3u8_builder_init_config sample_formats
          (conf_of_prefixes [] []) 10000 (some "enc.key".toList))) =
      m3u8_builder_append_extinf_tag 10000 1000 ∧
    m3u8_builder_append_extinf_tag 10000 1000 =
      "#EXTINF:".toList ++ Nat.toDigits 10 (10000 / 1000) ++ ".".toList ++
        [Nat.digitChar (10000 / 100 % 10), Nat.digitChar (10000 / 10 % 10),
          Nat.digitChar (10000 % 10)] ++ ",\n".toList ∧
    ( m3u8_config_t.m3u8_extinf_len (m3u8_builder_init_config sample_formats
        (conf_of_prefixes [] []) 10000 (some "enc.key".toList))) =
      8 + m3u8_builder_get_int_print_len (to_int (10000 / 1000)) + 4 + 2) :=
  ⟨by decide, init_config_caches_extinf_tag sample_formats (conf_of_prefixes [] []) 10000
    (some "enc.key".toList) (by decide)⟩


theorem declared_millis_seconds_tag (n : Nat) (hn : n < 2147483648) :
    declared_millis (m3u8_builder_append_extinf_tag n 1) = some (n * 1000) := by
  rw [append_extinf_tag_seconds n hn]
  have htw := takeWhile_digits_append (Nat.toDigits 10 n) ['\n'] ',' (toDigits_all_digit _)
    (by decide)
  have hpre : ("#EXTINF:".toList ++ Nat.toDigits 10 n ++ ",\n".toList).take 8 =
      "#EXTINF:".toList := by
    simp [List.take_append_eq_append_take]
  have hdrop : ("#EXTINF:".toList ++ Nat.toDigits 10 n ++ ",\n".toList).drop 8 =
      Nat.toDigits 10 n ++ ',' :: ['\n'] := by
    simp [List.drop_append_eq_append_drop]
  unfold declared_millis
  rw [if_pos hpre, hdrop]
  simp only [htw.1, htw.2]
  simp [toDigits_ne_nil, digits_value_toDigits]

theorem index_segment_tag_seconds (conf : m3u8_config_t) (s d i : Nat) (hs : 0 < s)
    (hs500 : s + 500 < UINT32_SIZE) (hver : conf.m3u8_version < 3)
    (htag : vod_copy conf.m3u8_extinf conf.m3u8_extinf_len =
      m3u8_builder_append_extinf_tag ((s + 500) % UINT32_SIZE / 1000) 1) :
    index_segment_tag conf s d i =
      m3u8_builder_append_extinf_tag ((segment_millis s d i + 500) / 1000) 1 := by
  have hr : d % s < s := Nat.mod_lt _ hs
  unfold index_segment_tag segment_millis
  split
  · rw [htag, Nat.mod_eq_of_lt hs500]
  · rw [if_neg (by omega), Nat.mod_eq_of_lt (by omega)]

theorem index_segment_tag_seconds_length (conf : m3u8_config_t) (s d i : Nat) (hs : 0 < s)
    (hs500 : s + 500 < UINT32_SIZE) (hver : conf.m3u8_version < 3)
    (htag : vod_copy conf.m3u8_extinf conf.m3u8_extinf_len =
      m3u8_builder_append_extinf_tag ((s + 500) % UINT32_SIZE / 1000) 1) :
    (index_segment_tag conf s d i).length ≤ conf.m3u8_extinf_len := by
  have hle := segment_millis_le s d i hs
  have h500 : s + 500 < 4294967296 := hs500
  have hfull : (m3u8_builder_append_extinf_tag ((s + 500) / 1000) 1).length ≤
      conf.m3u8_extinf_len := by
    rw [Nat.mod_eq_of_lt hs500] at htag
    rw [← htag]
    unfold vod_copy
    rw [List.length_take]
    exact Nat.min_le_left _ _
  rw [index_segment_tag_seconds conf s d i hs hs500 hver htag]
  rw [append_extinf_tag_seconds _ (by omega)] at hfull ⊢
  have hmono := toDigits_length_mono ((s + 500) / 1000) ((segment_millis s d i + 500) / 1000)
    (Nat.div_le_div_right (by omega))
  simp only [List.length_append] at hfull ⊢
  omega

theorem index_text_length_le_of_tags (conf : m3u8_config_t) (base_url p : Bytes) (s d : Nat)
    (hc : DIV_CEIL d s ≤ MAX_SEGMENT_COUNT)
    (htags : ∀ i, (index_segment_tag conf s d i).length ≤ conf.m3u8_extinf_len) :
    (index_playlist_text conf base_url p s d (DIV_CEIL d s)).length <
      index_result_size conf base_url { len := p.length, data := some p } (DIV_CEIL d s) := by
  unfold MAX_SEGMENT_COUNT at hc
  have hcount : to_int (DIV_CEIL d s) = ((DIV_CEIL d s : Nat) : Int) :=
    to_int_small _ (by omega)
  have hentries := flatten_map_range_length_le
    (fun i => index_segment_tag conf s d i ++
      m3u8_builder_append_segment_name base_url conf.segment_file_name_prefix (1 + i) p)
    (index_segment_length conf base_url { len := p.length, data := some p } (DIV_CEIL d s))
    (DIV_CEIL d s) (by
      intro i hi
      show (index_segment_tag conf s d i ++
        m3u8_builder_append_segment_name base_url conf.segment_file_name_prefix (1 + i)
          p).length ≤ _
      rw [List.length_append, append_segment_name_length]
      unfold index_segment_length
      rw [hcount, get_int_print_len_nat]
      have h1 := htags i
      have h2 : (vod_sprintf_uD (1 + i)).length ≤ (Nat.toDigits 10 (DIV_CEIL d s)).length := by
        unfold vod_sprintf_uD UINT32_SIZE
        rw [Nat.mod_eq_of_lt (by omega)]
        exact toDigits_length_mono _ _ (by omega)
      simp only [String.length, String.toList] at *
      simp only [List.length_cons, List.length_nil]
      omega)
  have hhead : (vod_copy conf.m3u8_header conf.m3u8_header_len).length ≤
      conf.m3u8_header_len := by
    unfold vod_copy
    rw [List.length_take]
    exact Nat.min_le_left _ _
  unfold index_playlist_text index_result_size
  simp only [List.length_append]
  unfold index_entries
  rw [Nat.mul_comm]
  have hf : m3u8_footer.length + 1 = sizeof_m3u8_footer := rfl
  omega

theorem sum_rounded_seconds (l : List Nat) :
    (l.map (fun x => (x + 500) / 1000 * 1000)).sum ≤ l.sum + 500 * l.length ∧
    l.sum ≤ (l.map (fun x => (x + 500) / 1000 * 1000)).sum + 500 * l.length := by
  induction l with
  | nil => simp
  | cons x l ih =>
    simp only [List.map_cons, List.sum_cons, List.length_cons]
    omega

/-- Declared durations with whole-second tags: for a configuration of a version below 3
whose cached tag is the whole-second tag of the segment duration `s`, the index playlist
consists of `ceil(d / s)` entries, each tag declares the duration of its segment rounded to
the nearest second, and the declared durations add up to `d` within 500 ms per entry. -/
theorem declared_durations_sum_seconds (pool rest : vod_pool_t) (conf : m3u8_config_t)
    (base_url : Bytes) (inc : Bool) (s : Nat) (m : mpeg_metadata_t) (result rt : vod_str_t)
    (hver : conf.m3u8_version < 3)
    (htag : vod_copy conf.m3u8_extinf conf.m3u8_extinf_len =
      m3u8_builder_append_extinf_tag ((s + 500) % UINT32_SIZE / 1000) 1)
    (hs : 0 < s) (hs500 : s + 500 < UINT32_SIZE) (hd : m.duration_millis < UINT32_SIZE)
    (hc : DIV_CEIL m.duration_millis s ≤ 10240)
    (hrt : m3u8_builder_build_required_tracks_string pool inc m { len := 0, data := none }
      = some (VOD_OK, rt, true :: rest)) :
    ∃ (tags : List Bytes) (millis : List Nat) (text : Bytes),
      m3u8_builder_build_index_playlist pool conf base_url inc s m result =
        some (VOD_OK, { len := text.length, data := some text }) ∧
      text = vod_copy conf.m3u8_header conf.m3u8_header_len ++
        (List.zipWith (fun tag n => tag ++
          segment_line base_url conf.segment_file_name_prefix n (vod_str_bytes rt))
          tags (List.range' 1 (DIV_CEIL m.duration_millis s))).flatten ++
        m3u8_footer ∧
      tags.length = DIV_CEIL m.duration_millis s ∧
      tags.map declared_millis = millis.map some ∧
      millis = (List.range (DIV_CEIL m.duration_millis s)).map (fun i =>
        (segment_millis s m.duration_millis i + 500) / 1000 * 1000) ∧
      millis.sum ≤ m.duration_millis + 500 * DIV_CEIL m.duration_millis s ∧
      m.duration_millis ≤ millis.sum + 500 * DIV_CEIL m.duration_millis s := by
  have hc2 : DIV_CEIL m.duration_millis s ≤ MAX_SEGMENT_COUNT := hc
  have h500 : s + 500 < 4294967296 := hs500
  obtain ⟨_, p, hp⟩ := required_tracks_ok _ _ _ _ _ _ hrt
  have hlen := index_text_length_le_of_tags conf base_url p s m.duration_millis hc2
    (fun i => index_segment_tag_seconds_length conf s m.duration_millis i hs hs500 hver htag)
  have hbuild := build_index_playlist_granted pool rest conf base_url inc s m result rt hs hd
    hc2 hrt
  rw [hp, vod_str_bytes_mk, if_neg (by omega)] at hbuild
  have hsum := sum_segment_millis s m.duration_millis hs
  have hround := sum_rounded_seconds
    ((List.range (DIV_CEIL m.duration_millis s)).map (segment_millis s m.duration_millis))
  rw [hsum, List.map_map, List.length_map, List.length_range] at hround
  refine ⟨(List.range (DIV_CEIL m.duration_millis s)).map
      (index_segment_tag conf s m.duration_millis),
    (List.range (DIV_CEIL m.duration_millis s)).map (fun i =>
      (segment_millis s m.duration_millis i + 500) / 1000 * 1000), _,
    hbuild, ?_, by simp, ?_, rfl, hround.1, hround.2⟩
  · rw [hp, vod_str_bytes_mk, index_playlist_text_eq _ _ _ _ _ _ hc2]
    congr 3
    rw [List.range_eq_range', List.zipWith_map_left]
    generalize DIV_CEIL m.duration_millis s = c
    generalize index_segment_tag conf s m.duration_millis = f
    exact map_range_zipWith
      (fun a b => f a ++ segment_line base_url conf.segment_file_name_prefix b p) c 0
  · rw [List.map_map, List.map_map]
    apply List.map_congr_left
    intro i _
    have hle := segment_millis_le s m.duration_millis i hs
    simp only [Function.comp,
      index_segment_tag_seconds conf s m.duration_millis i hs hs500 hver htag,
      declared_millis_seconds_tag _ (show (segment_millis s m.duration_millis i + 500) / 1000 <
        2147483648 by omega)]


/-- The claim C5 fails as stated for the whole-second rule: with a configuration of version
2 that caches the whole-second tag of 10.4 second segments, `#EXTINF:10,`, an asset of 31.2
seconds is cut in three full segments, each declared as 10 seconds; the declared durations
add up to 30000 ms, more than one second away from the duration of 31200 ms. -/
theorem index_playlist_whole_seconds_sum_counterexample :
    version_2_conf.m3u8_version < 3 ∧
    vod_copy version_2_conf.m3u8_extinf version_2_conf.m3u8_extinf_len =
      m3u8_builder_append_extinf_tag ((10400 + 500) % UINT32_SIZE / 1000) 1 ∧
    DIV_CEIL (video_metadata_of 31200 0).duration_millis 10400 ≤ 10240 ∧
    m3u8_builder_build_index_playlist [true, true] version_2_conf [] false 10400
      (video_metadata_of 31200 0) { len := 0, data := none } =
      some (VOD_OK, { len := 95, data := some (
        "#EXTM3U\n#EXTINF:10,\nseg-1-v1.ts\n#EXTINF:10,\nseg-2-v1.ts\n" ++
        "#EXTINF:10,\nseg-3-v1.ts\n#EXT-X-ENDLIST\n").toList }) ∧
    ["#EXTINF:10,\n".toList, "#EXTINF:10,\n".toList, "#EXTINF:10,\n".toList].map
      declared_millis = [some 10000, some 10000, some 10000] ∧
    ([10000, 10000, 10000] : List Nat).sum + 1000 <
      (video_metadata_of 31200 0).duration_millis := by
  decide

/-- C5 (amended): for every 32-bit duration `d` and segment duration `s > 0` with
`ceil(d / s) <= 10240`, the index playlist consists of `ceil(d / s)` entries, and the
durations its EXTINF tags declare are these. With a configuration produced by
`m3u8_builder_init_config` from `s` (version 3, millisecond tags) they add up to `d`
exactly. With a configuration of a version below 3 that caches the whole-second tag of `s`
(and `s + 500 < 2 ^ 32`), each tag declares the duration of its segment rounded to the
nearest second, and they add up to `d` within 500 ms per entry, that is within
`500 * ceil(d / s)` ms. -/
theorem index_playlist_declared_durations_sum (pool rest : vod_pool_t)
    (formats : m3u8_formats_t) (conf0 conf : m3u8_config_t) (key : Option Bytes)
    (base_url : Bytes) (inc : Bool) (s : Nat) (m : mpeg_metadata_t) (result rt : vod_str_t)
    (hs : 0 < s) (hs32 : s < UINT32_SIZE) (hd : m.duration_millis < UINT32_SIZE)
    (hc : DIV_CEIL m.duration_millis s ≤ 10240)
    (hrt : m3u8_builder_build_required_tracks_string pool inc m { len := 0, data := none }
      = some (VOD_OK, rt, true :: rest)) :
    (conf = m3u8_builder_init_config formats conf0 s key →
      ∃ (tags : List Bytes) (millis : List Nat) (text : Bytes),
        m3u8_builder_build_index_playlist pool conf base_url inc s m result =
          some (VOD_OK, { len := text.length, data := some text }) ∧
        text = vod_copy conf.m3u8_header conf.m3u8_header_len ++
          (List.zipWith (fun tag n => tag ++
            segment_line base_url conf.segment_file_name_prefix n (vod_str_bytes rt))
            tags (List.range' 1 (DIV_CEIL m.duration_millis s))).flatten ++
          m3u8_footer ∧
        tags.length = DIV_CEIL m.duration_millis s ∧
        tags.map declared_millis = millis.map some ∧
        millis.sum = m.duration_millis) ∧
    (conf.m3u8_version < 3 →
      vod_copy conf.m3u8_extinf conf.m3u8_extinf_len =
        m3u8_builder_append_extinf_tag ((s + 500) % UINT32_SIZE / 1000) 1 →
      s + 500 < UINT32_SIZE →
      ∃ (tags : List Bytes) (millis : List Nat) (text : Bytes),
        m3u8_builder_build_index_playlist pool conf base_url inc s m result =
          some (VOD_OK, { len := text.length, data := some text }) ∧
        text = vod_copy conf.m3u8_header conf.m3u8_header_len ++
          (List.zipWith (fun tag n => tag ++
            segment_line base_url conf.segment_file_name_prefix n (vod_str_bytes rt))
            tags (List.range' 1 (DIV_CEIL m.duration_millis s))).flatten ++
          m3u8_footer ∧
        tags.length = DIV_CEIL m.duration_millis s ∧
        tags.map declared_millis = millis.map some ∧
        millis = (List.range (DIV_CEIL m.duration_millis s)).map (fun i =>
          (segment_millis s m.duration_millis i + 500) / 1000 * 1000) ∧
        millis.sum ≤ m.duration_millis + 500 * DIV_CEIL m.duration_millis s ∧
        m.duration_millis ≤ millis.sum + 500 * DIV_CEIL m.duration_millis s) := by
  refine ⟨fun hconf => ?_, fun hver htag hs500 =>
    declared_durations_sum_seconds pool rest conf base_url inc s m result rt hver htag hs hs500
      hd hc hrt⟩
  obtain ⟨tags, millis, text, h1, h2, h3, h4, h5, _, _⟩ :=
    declared_durations_sum_millis pool rest formats conf0 conf key base_url inc s m result rt
      hconf hs hs32 hd hc hrt
  exact ⟨tags, millis, text, h1, h2, h3, h4, h5⟩

/-- Witness of C5: the sample asset, 12.5 seconds in segments of 10 seconds, with the
configuration initialised by the code (tags of 10.000 and 2.500 seconds) and with the
version 2 configuration (tags of 10 and 3 seconds, 13000 ms declared for 12500 ms). -/
theorem index_playlist_declared_durations_sum_witness :
    (0 < 10000 ∧ 10000 < UINT32_SIZE ∧ sample_metadata.duration_millis < UINT32_SIZE ∧
      DIV_CEIL sample_metadata.duration_millis 10000 ≤ 10240 ∧
      m3u8_builder_build_required_tracks_string [true, true] false sample_metadata
        { len := 0, data := none } = some (VOD_OK, sample_required_tracks, [true]) ∧
      sample_conf = m3u8_builder_init_config sample_formats
        (conf_of_prefixes "seg".toList "index".toList) 10000 none ∧
      version_2_conf.m3u8_version < 3 ∧
      vod_copy version_2_conf.m3u8_extinf version_2_conf.m3u8_extinf_len =
        m3u8_builder_append_extinf_tag ((10000 + 500) % UINT32_SIZE / 1000) 1 ∧
      10000 + 500 < UINT32_SIZE) ∧
    (∃ (tags : List Bytes) (millis : List Nat) (text : Bytes),
      m3u8_builder_build_index_playlist [true, true] sample_conf [] false 10000
        sample_metadata { len := 0, data := none } =
        some (VOD_OK, { len := text.length, data := some text }) ∧
      text = vod_copy sample_conf.m3u8_header sample_conf.m3u8_header_len ++
        (List.zipWith (fun tag n => tag ++
          segment_line [] sample_conf.segment_file_name_prefix n
            (vod_str_bytes sample_required_tracks))
          tags (List.range' 1 (DIV_CEIL sample_metadata.duration_millis 10000))).flatten ++
        m3u8_footer ∧
      tags.length = DIV_CEIL sample_metadata.duration_millis 10000 ∧
      tags.map declared_millis = millis.map some ∧
      millis.sum = sample_metadata.duration_millis) ∧
    (∃ (tags : List Bytes) (millis : List Nat) (text : Bytes),
      m3u8_builder_build_index_playlist [true, true] version_2_conf [] false 10000
        sample_metadata { len := 0, data := none } =
        some (VOD_OK, { len := text.length, data := some text }) ∧
      text = vod_copy version_2_conf.m3u8_header version_2_conf.m3u8_header_len ++
        (List.zipWith (fun tag n => tag ++
          segment_line [] version_2_conf.segment_file_name_prefix n
            (vod_str_bytes sample_required_tracks))
          tags (List.range' 1 (DIV_CEIL sample_metadata.duration_millis 10000))).flatten ++
        m3u8_footer ∧
      tags.length = DIV_CEIL sample_metadata.duration_millis 10000 ∧
      tags.map declared_millis = millis.map some ∧
      millis = (List.range (DIV_CEIL sample_metadata.duration_millis 10000)).map (fun i =>
        (segment_millis 10000 sample_metadata.duration_millis i + 500) / 1000 * 1000) ∧
      millis.sum ≤ sample_metadata.duration_millis +
        500 * DIV_CEIL sample_metadata.duration_millis 10000 ∧
      sample_metadata.duration_millis ≤ millis.sum +
        500 * DIV_CEIL sample_metadata.duration_millis 10000) :=
  ⟨⟨by decide, by decide, by decide, by decide, by decide, rfl, by decide, by decide,
      by decide⟩,
    (index_playlist_declared_durations_sum [true, true] [] sample_formats
      (conf_of_prefixes "seg".toList "index".toList) sample_conf none [] false 10000
      sample_metadata { len := 0, data := none } sample_required_tracks
      (by decide) (by decide) (by decide) (by decide) (by decide)).1 rfl,
    (index_playlist_declared_durations_sum [true, true] [] sample_formats
      (conf_of_prefixes "seg".toList "index".toList) version_2_conf none [] false 10000
      sample_metadata { len := 0, data := none } sample_required_tracks
      (by decide) (by decide) (by decide) (by decide) (by decide)).2
      (by decide) (by decide) (by decide)⟩


end M3u8
